import Mathlib

/-!
# DREAM3D feature segmentation: a shallow embedding

The region-growing segmentation filters of the Reconstruction plugin
(`EBSDSegmentFeatures.cpp`, `VectorSegmentFeatures.cpp`) and the per-feature
statistics filters of the OrientationAnalysis plugin
(`FindFeatureReferenceMisorientations.cpp`,
`FindFeatureReferenceCAxisMisorientations.cpp`) are embedded as pure functions
on explicit filter states, together with the search-window set-up of
`FindRelativeMotionBetweenSlices.cpp` (Processing plugin).

Conventions of the embedding

* `int32_t` / `int64_t` values are `Int`; element indices that the code uses as
  array subscripts are `Nat`.  Conversions whose wrap-around is observable are
  explicit: `toSizeT` (to `size_t`) and `toInt32` (to `int32_t`).  The feature
  counter `gnum` is not wrapped: its overflow is undefined behaviour in C++.
* A raw pointer into a `DataArray` is a `List`; a read is `List.getD` and a
  write is `List.set`.  `dataCheck` validates that all cell arrays have the
  same number of tuples, so the defaults of `getD` are never observed on an
  index below `totalPoints`.
* `float` / `double` values are `Flt`: NaN, the two infinities, and the finite
  values as exact rationals.  Comparisons follow IEEE-754; rounding of finite
  arithmetic is not modelled, except for the binary32 counters of the statistics
  filters, which stop at 2^24 (`Flt.increment`).
* Functions of libraries outside the repository (EbsdLib `LaueOps` and
  orientation transformations, Eigen, SIMPLib `GeometryMath`, `acosf`, `sqrtf`,
  the random generator) are parameters.
-/

set_option autoImplicit false

namespace DREAM3D

/-! ## Machine values -/

/-- Conversion of a signed integer to `size_t` (64 bit): reduction modulo `2^64`. -/
def toSizeT (z : Int) : Nat := (z % 2 ^ 64).toNat

/-- Conversion of a `uint32_t` value to `int32_t`: values from `2^31` on wrap to negatives. -/
def toInt32 (n : Nat) : Int :=
  if n % 2 ^ 32 < 2 ^ 31 then ((n % 2 ^ 32 : Nat) : Int) else ((n % 2 ^ 32 : Nat) : Int) - 2 ^ 32

/-- Values of the C++ floating-point types. -/
inductive Flt where
  | nan : Flt
  | ninf : Flt
  | fin (q : ℚ) : Flt
  | pinf : Flt
  deriving DecidableEq

namespace Flt

/-- IEEE-754 comparison `a < b`: false as soon as one operand is NaN. -/
def lt : Flt → Flt → Bool
  | fin a, fin b => decide (a < b)
  | ninf, fin _ => true
  | ninf, pinf => true
  | fin _, pinf => true
  | _, _ => false

/-- IEEE-754 comparison `a > b`. -/
def gt (a b : Flt) : Bool := lt b a

/-- Multiplication by `-1.0f`. -/
def neg : Flt → Flt
  | nan => nan
  | ninf => pinf
  | fin q => fin (-q)
  | pinf => ninf

/-- Subtraction `a - b`. -/
def sub : Flt → Flt → Flt
  | fin a, fin b => fin (a - b)
  | fin _, pinf => ninf
  | fin _, ninf => pinf
  | pinf, fin _ => pinf
  | pinf, ninf => pinf
  | ninf, fin _ => ninf
  | ninf, pinf => ninf
  | _, _ => nan

/-- Multiplication `a * b`. -/
def mul : Flt → Flt → Flt
  | fin a, fin b => fin (a * b)
  | fin a, pinf => if 0 < a then pinf else if a < 0 then ninf else nan
  | fin a, ninf => if 0 < a then ninf else if a < 0 then pinf else nan
  | pinf, fin b => if 0 < b then pinf else if b < 0 then ninf else nan
  | ninf, fin b => if 0 < b then ninf else if b < 0 then pinf else nan
  | pinf, pinf => pinf
  | ninf, ninf => pinf
  | pinf, ninf => ninf
  | ninf, pinf => ninf
  | _, _ => nan

/-- Division `a / b` by a finite non-zero constant `b` (the only use is `/ 180.0f`). -/
def divConst (a : Flt) (b : ℚ) : Flt :=
  match a with
  | fin q => fin (q / b)
  | pinf => if 0 < b then pinf else ninf
  | ninf => if 0 < b then ninf else pinf
  | nan => nan

end Flt

/-- The constant `std::numeric_limits<float>::max()`, `(2^24 - 1) * 2^104`. -/
def fltMax : Flt := Flt.fin ((2 ^ 24 - 1) * 2 ^ 104)

/-- A quaternion as built by `QuatF q(p[0], p[1], p[2], p[3])`. -/
structure QuatF where
  x : Flt
  y : Flt
  z : Flt
  w : Flt

/-- The quaternion of element `p`: `m_Quats + p * 4`, components `[0] .. [3]`. -/
def quatAt (Quats : List Flt) (p : Nat) : QuatF :=
  { x := Quats.getD (p * 4) Flt.nan, y := Quats.getD (p * 4 + 1) Flt.nan,
    z := Quats.getD (p * 4 + 2) Flt.nan, w := Quats.getD (p * 4 + 3) Flt.nan }

/-- Modelled from the spec: `AttributeMatrix::resizeAttributeArrays` (SIMPLib) applied to
the cell-feature attribute matrix, whose only array is `Active`, created with initial value
`true`: the array is cut or extended to `n` tuples, new tuples holding `true`. -/
def resizeAttributeArrays (Active : List Bool) (n : Nat) : List Bool :=
  (Active ++ List.replicate (n - Active.length) true).take n

/-! ## EBSDSegmentFeatures -/

/-- The members of an `EBSDSegmentFeatures` filter that the segmentation reads or writes.
An entry of `OrientationOps` stands for one `LaueOps` object and maps two quaternions to the
angle component `axisAngle[3]` of `calculateMisorientation(q1, q2)`. -/
structure EBSDSegmentFeatures where
  UseGoodVoxels : Bool
  RandomizeFeatureIds : Bool
  MisorientationTolerance : Flt
  MisoTolerance : Flt
  OrientationOps : List (QuatF → QuatF → Flt)
  Quats : List Flt
  CellPhases : List Int
  GoodVoxels : List Bool
  CrystalStructures : List Nat
  FeatureIds : List Int
  Active : List Bool
  ErrorCode : Int

namespace EBSDSegmentFeatures

/-- Number of tuples of the feature-id array, `m_FeatureIdsPtr.lock()->getNumberOfTuples()`. -/
def totalPoints (s : EBSDSegmentFeatures) : Nat := s.FeatureIds.length

/-- The `while(seed == -1 && randpoint < totalPoints)` loop of `getSeed`, returning the final
value of `seed`.  The first argument bounds the number of iterations; `getSeed` supplies
`totalPoints - randpoint`, which the loop cannot exceed. -/
def getSeedLoop (s : EBSDSegmentFeatures) : Nat → Nat → Int
  | 0, _ => -1
  | fuel + 1, randpoint =>
    if randpoint < s.totalPoints then
      if s.FeatureIds.getD randpoint 0 = 0 then
        if (!s.UseGoodVoxels || s.GoodVoxels.getD randpoint false)
            && decide (s.CellPhases.getD randpoint 0 > 0) then
          (randpoint : Int)
        else
          getSeedLoop s fuel (randpoint + 1)
      else
        getSeedLoop s fuel (randpoint + 1)
    else
      -1

/-- `EBSDSegmentFeatures::getSeed(gnum, nextSeed)`: the new filter state and the returned
seed. -/
def getSeed (s : EBSDSegmentFeatures) (gnum : Int) (nextSeed : Int) : EBSDSegmentFeatures × Int :=
  let randpoint := toSizeT nextSeed
  let seed := getSeedLoop s (s.totalPoints - randpoint) randpoint
  if seed ≥ 0 then
    ({ s with FeatureIds := s.FeatureIds.set seed.toNat gnum,
              Active := resizeAttributeArrays s.Active (toSizeT (gnum + 1)),
              ErrorCode := 0 }, seed)
  else
    ({ s with ErrorCode := 0 }, seed)

/-- An element that `getSeed` accepts as a seed: unassigned, not rejected by the mask, and
of a positive phase. -/
def Seedable (s : EBSDSegmentFeatures) (i : Nat) : Prop :=
  s.FeatureIds.getD i 0 = 0 ∧ (s.UseGoodVoxels = false ∨ s.GoodVoxels.getD i false = true)
    ∧ 0 < s.CellPhases.getD i 0

instance (s : EBSDSegmentFeatures) (i : Nat) : Decidable (s.Seedable i) := by
  unfold Seedable; infer_instance

/-- The value `m_CrystalStructures[m_CellPhases[p]]` of element `p`, an `uint32_t`. -/
def crystalStructure (s : EBSDSegmentFeatures) (p : Nat) : Nat :=
  s.CrystalStructures.getD (s.CellPhases.getD p 0).toNat 0

/-- The misorientation angle `axisAngle[3]` that `determineGrouping` obtains from
`m_OrientationOps[phase1]->calculateMisorientation(q1, q2)`. -/
def misorientation (s : EBSDSegmentFeatures) (referencepoint neighborpoint : Nat) : Flt :=
  (s.OrientationOps.getD (toInt32 (s.crystalStructure referencepoint)).toNat (fun _ _ => Flt.nan))
    (quatAt s.Quats referencepoint) (quatAt s.Quats neighborpoint)

/-- `EBSDSegmentFeatures::determineGrouping(referencepoint, neighborpoint, gnum)`: the new
filter state and the returned flag. -/
def determineGrouping (s : EBSDSegmentFeatures) (referencepoint neighborpoint : Nat) (gnum : Int) :
    EBSDSegmentFeatures × Bool :=
  let phase1 : Int := toInt32 (s.crystalStructure referencepoint)
  let phase2 : Int := toInt32 (s.crystalStructure neighborpoint)
  if toSizeT phase1 ≥ s.OrientationOps.length ∨ toSizeT phase2 ≥ s.OrientationOps.length then
    (s, false)
  else if s.FeatureIds.getD neighborpoint 0 = 0
      ∧ (!s.UseGoodVoxels || s.GoodVoxels.getD neighborpoint false) = true then
    let w : Flt :=
      if s.CellPhases.getD referencepoint 0 = s.CellPhases.getD neighborpoint 0 then
        s.misorientation referencepoint neighborpoint
      else
        fltMax
    if Flt.lt w s.MisoTolerance then
      ({ s with FeatureIds := s.FeatureIds.set neighborpoint gnum }, true)
    else
      (s, false)
  else
    (s, false)

end EBSDSegmentFeatures

/-! ## VectorSegmentFeatures -/

/-- A `float v[3]`. -/
structure Vec3 where
  x : Flt
  y : Flt
  z : Flt
  deriving DecidableEq

/-- The SIMPLib and libm items that `VectorSegmentFeatures` calls: they are outside the
repository and enter as parameters. -/
structure SIMPLibMath where
  CosThetaBetweenVectors : Vec3 → Vec3 → Flt
  acosf : Flt → Flt
  k_PiD : Flt
  k_PiOver2D : Flt

/-- `MatrixMath::Multiply3x1withConstant(v, -1.0f)`. -/
def negateVec (v : Vec3) : Vec3 := { x := v.x.neg, y := v.y.neg, z := v.z.neg }

/-- The vector of element `p`: `m_Vectors[3 * p + 0 .. 2]`. -/
def vecAt (Vectors : List Flt) (p : Nat) : Vec3 :=
  { x := Vectors.getD (3 * p) Flt.nan, y := Vectors.getD (3 * p + 1) Flt.nan,
    z := Vectors.getD (3 * p + 2) Flt.nan }

/-- The members of a `VectorSegmentFeatures` filter that the segmentation reads or writes. -/
structure VectorSegmentFeatures where
  UseGoodVoxels : Bool
  RandomizeFeatureIds : Bool
  AngleTolerance : Flt
  AngleToleranceRad : Flt
  Vectors : List Flt
  GoodVoxels : List Bool
  FeatureIds : List Int
  Active : List Bool
  ErrorCode : Int

namespace VectorSegmentFeatures

/-- Number of tuples of the feature-id array. -/
def totalPoints (s : VectorSegmentFeatures) : Nat := s.FeatureIds.length

/-- The `while` loop of `VectorSegmentFeatures::getSeed`; see `EBSDSegmentFeatures.getSeedLoop`
for the first argument. -/
def getSeedLoop (s : VectorSegmentFeatures) : Nat → Nat → Int
  | 0, _ => -1
  | fuel + 1, randpoint =>
    if randpoint < s.totalPoints then
      if s.FeatureIds.getD randpoint 0 = 0 then
        if (!s.UseGoodVoxels || s.GoodVoxels.getD randpoint false) then
          (randpoint : Int)
        else
          getSeedLoop s fuel (randpoint + 1)
      else
        getSeedLoop s fuel (randpoint + 1)
    else
      -1

/-- `VectorSegmentFeatures::getSeed(gnum, nextSeed)`. -/
def getSeed (s : VectorSegmentFeatures) (gnum : Int) (nextSeed : Int) :
    VectorSegmentFeatures × Int :=
  let randpoint := toSizeT nextSeed
  let seed := getSeedLoop s (s.totalPoints - randpoint) randpoint
  if seed ≥ 0 then
    ({ s with FeatureIds := s.FeatureIds.set seed.toNat gnum,
              Active := resizeAttributeArrays s.Active (toSizeT (gnum + 1)),
              ErrorCode := 0 }, seed)
  else
    ({ s with ErrorCode := 0 }, seed)

/-- An element that `VectorSegmentFeatures::getSeed` accepts as a seed: unassigned and not
rejected by the mask. -/
def Seedable (s : VectorSegmentFeatures) (i : Nat) : Prop :=
  s.FeatureIds.getD i 0 = 0 ∧ (s.UseGoodVoxels = false ∨ s.GoodVoxels.getD i false = true)

instance (s : VectorSegmentFeatures) (i : Nat) : Decidable (s.Seedable i) := by
  unfold Seedable; infer_instance

/-- The angle `w` that `determineGrouping` compares with the tolerance. -/
def groupingAngle (m : SIMPLibMath) (s : VectorSegmentFeatures)
    (referencepoint neighborpoint : Nat) : Flt :=
  let v1 := vecAt s.Vectors referencepoint
  let v2 := vecAt s.Vectors neighborpoint
  let v1 := if Flt.lt v1.z (Flt.fin 0) then negateVec v1 else v1
  let v2 := if Flt.lt v2.z (Flt.fin 0) then negateVec v2 else v2
  let w := m.CosThetaBetweenVectors v1 v2
  let w := m.acosf w
  if Flt.gt w m.k_PiOver2D then Flt.sub m.k_PiD w else w

/-- `VectorSegmentFeatures::determineGrouping(referencepoint, neighborpoint, gnum)`. -/
def determineGrouping (m : SIMPLibMath) (s : VectorSegmentFeatures)
    (referencepoint neighborpoint : Nat) (gnum : Int) : VectorSegmentFeatures × Bool :=
  if s.FeatureIds.getD neighborpoint 0 = 0
      ∧ (!s.UseGoodVoxels || s.GoodVoxels.getD neighborpoint false) = true then
    if Flt.lt (groupingAngle m s referencepoint neighborpoint) s.AngleToleranceRad then
      ({ s with FeatureIds := s.FeatureIds.set neighborpoint gnum }, true)
    else
      (s, false)
  else
    (s, false)

/-- The polarity rule in the words of the specification: a vector is negated exactly when
its third component is negative. -/
def polarity (v : Vec3) : Vec3 := if Flt.lt v.z (Flt.fin 0) = true then negateVec v else v

/-- The fold in the words of the specification: `pi - w` when `w > pi / 2`, else `w`. -/
def fold (m : SIMPLibMath) (w : Flt) : Flt :=
  if Flt.gt w m.k_PiOver2D = true then Flt.sub m.k_PiD w else w

end VectorSegmentFeatures


/-! ## Random relabelling of the feature ids

`randomizeFeatureIds` has the same body in both filters; `randomizeIds` is that body as a
function of the feature-id array.  The value that `m_Distribution(m_Generator)` returns in the
iteration with loop index `i` is `draw i`. -/

/-- The table `gid` after `gid[0] = 0; for(i = 1; i < totalFeatures; ++i) gid[i] = i;` on a
freshly allocated array of `totalFeatures` entries. -/
def gidInit (totalFeatures : Nat) : List Int :=
  (List.range' 1 (totalFeatures - 1)).foldl (fun gid i => gid.set i (i : Int))
    ((List.replicate totalFeatures (0 : Int)).set 0 0)

/-- One iteration of the shuffle loop, with loop index `i` and draw `r`. -/
def shuffleStep (totalFeatures : Nat) (gid : List Int) (i : Nat) (r : Int) : List Int :=
  if r ≥ (totalFeatures : Int) then
    gid
  else
    let temp := gid.getD i 0
    (gid.set i (gid.getD r.toNat 0)).set r.toNat temp

/-- The table `gid` after the shuffle loop `for(i = 1; i < totalFeatures; i++)`. -/
def shuffledGid (draw : Nat → Int) (totalFeatures : Nat) : List Int :=
  (List.range' 1 (totalFeatures - 1)).foldl
    (fun gid i => shuffleStep totalFeatures gid i (draw i)) (gidInit totalFeatures)

/-- The loop `for(i = 0; i < totalPoints; ++i) m_FeatureIds[i] = gid[m_FeatureIds[i]];`. -/
def remapFeatureIds (gid : List Int) (totalPoints : Nat) (FeatureIds : List Int) : List Int :=
  (List.range totalPoints).foldl
    (fun ids i => ids.set i (gid.getD (ids.getD i 0).toNat 0)) FeatureIds

/-- The body of `randomizeFeatureIds(totalPoints, totalFeatures)` on the feature-id array. -/
def randomizeIds (draw : Nat → Int) (totalPoints totalFeatures : Nat) (FeatureIds : List Int) :
    List Int :=
  remapFeatureIds (shuffledGid draw totalFeatures) totalPoints FeatureIds

/-- `EBSDSegmentFeatures::randomizeFeatureIds(totalPoints, totalFeatures)`. -/
def EBSDSegmentFeatures.randomizeFeatureIds (draw : Nat → Int) (s : EBSDSegmentFeatures)
    (totalPoints totalFeatures : Nat) : EBSDSegmentFeatures :=
  { s with FeatureIds := randomizeIds draw totalPoints totalFeatures s.FeatureIds }

/-- `VectorSegmentFeatures::randomizeFeatureIds(totalPoints, totalFeatures)`. -/
def VectorSegmentFeatures.randomizeFeatureIds (draw : Nat → Int) (s : VectorSegmentFeatures)
    (totalPoints totalFeatures : Nat) : VectorSegmentFeatures :=
  { s with FeatureIds := randomizeIds draw totalPoints totalFeatures s.FeatureIds }

/-! ## The region-growing scheduler

The base class `SegmentFeatures`, whose `execute()` both filters call, is not among the
sources; it is modelled from section 4.3 of the specification. -/

/-- Modelled from the spec: the two virtual functions `getSeed` and `determineGrouping`
through which the scheduler of the base class `SegmentFeatures` drives a concrete
segmenter with filter state `σ`. -/
structure Segmenter (σ : Type) where
  getSeed : σ → Int → Int → σ × Int
  determineGrouping : σ → Nat → Nat → Int → σ × Bool

/-- Modelled from the spec: the grid neighbours of element `p` of an `nx * ny * nz` grid with
linear index `z*nx*ny + y*nx + x`, "6-connected: ±1 in x, y, z within bounds", listed in the
order -z, -y, -x, +x, +y, +z. -/
def neighbors (nx ny nz : Nat) (p : Nat) : List Nat :=
  let col := p % nx
  let row := (p / nx) % ny
  let plane := p / (nx * ny)
  (if 0 < plane then [p - nx * ny] else []) ++
  (if 0 < row then [p - nx] else []) ++
  (if 0 < col then [p - 1] else []) ++
  (if col + 1 < nx then [p + 1] else []) ++
  (if row + 1 < ny then [p + nx] else []) ++
  (if plane + 1 < nz then [p + nx * ny] else [])

/-- Modelled from the spec: the treatment of one popped element `current`: "for each
neighbor, invoke the Grouping Predicate; if it returns true, push the neighbor onto the
worklist". -/
def growNeighbors {σ : Type} (seg : Segmenter σ) (gnum : Int) (current : Nat)
    (nbrs : List Nat) (s : σ) (worklist : List Nat) : σ × List Nat :=
  nbrs.foldl
    (fun acc n =>
      let o := seg.determineGrouping acc.1 current n gnum
      (o.1, if o.2 then acc.2 ++ [n] else acc.2))
    (s, worklist)

/-- Modelled from the spec: the growth of one feature, a first-in first-out worklist that is
processed "until the worklist is empty".  The first argument bounds the number of elements
popped; `none` reports that the bound was reached with a non-empty worklist. -/
def floodFill {σ : Type} (seg : Segmenter σ) (nx ny nz : Nat) (gnum : Int) :
    Nat → σ → List Nat → Option σ
  | _, s, [] => some s
  | 0, _, _ :: _ => none
  | fuel + 1, s, current :: rest =>
    let o := growNeighbors seg gnum current (neighbors nx ny nz current) s rest
    floodFill seg nx ny nz gnum fuel o.1 o.2

/-- Modelled from the spec: the outer loop, which "repeatedly calls getSeed with
nextSearchStart advanced past the last found seed" and "terminates when getSeed returns the
no-more-seeds sentinel".  It returns the final state and the final value of the feature
counter `gnum`; the number of seeds found is `gnum - 1`.  The counter is an unbounded
integer.  `fillFuel` is passed to `floodFill`, the next argument bounds the number of calls
of `getSeed`; `none` reports that a bound was reached. -/
def segmentLoop {σ : Type} (seg : Segmenter σ) (nx ny nz : Nat) (fillFuel : Nat) :
    Nat → σ → Int → Int → Option (σ × Int)
  | 0, _, _, _ => none
  | fuel + 1, s, gnum, nextSeed =>
    let o := seg.getSeed s gnum nextSeed
    if o.2 ≥ 0 then
      match floodFill seg nx ny nz gnum fillFuel o.1 [o.2.toNat] with
      | none => none
      | some s2 => segmentLoop seg nx ny nz fillFuel fuel s2 (gnum + 1) (o.2 + 1)
    else
      some (o.1, gnum)

/-- Modelled from the spec: `SegmentFeatures::execute()` on an `nx * ny * nz` grid: the outer
loop started with feature id 1 and search start 0.  Both bounds are `nx*ny*nz + 1`, which
`scheduler_completes` below shows to be never reached. -/
def SegmentFeatures.execute {σ : Type} (seg : Segmenter σ) (nx ny nz : Nat) (s : σ) :
    Option (σ × Int) :=
  segmentLoop seg nx ny nz (nx * ny * nz + 1) (nx * ny * nz + 1) s 1 0

/-- What the scheduler relies on, in terms of three views of a filter state: the feature ids
`ids`, the number `cnt` of tuples of the per-feature arrays, and the state-independent part
`adm` of the seed test.  `getSeed` returns `-1` and leaves the views alone, in which case no
admissible element from the search start on is unassigned, or it returns an unassigned index
not below the search start, stamps it and resizes the per-feature arrays to `gnum + 1`
tuples, in which case no admissible element between the search start and the seed is
unassigned; `determineGrouping` either returns `false` and leaves the views alone or returns
`true` and stamps the neighbour, which was unassigned. -/
structure Segmenter.Lawful {σ : Type} (seg : Segmenter σ) (ids : σ → List Int)
    (cnt : σ → Nat) (adm : σ → Nat → Prop) : Prop where
  getSeed_views : ∀ (s : σ) (gnum nextSeed : Int),
    ((seg.getSeed s gnum nextSeed).2 = -1 ∧ ids (seg.getSeed s gnum nextSeed).1 = ids s ∧
      cnt (seg.getSeed s gnum nextSeed).1 = cnt s ∧
      ∀ i : Nat, toSizeT nextSeed ≤ i → i < (ids s).length → adm s i → (ids s).getD i 0 ≠ 0) ∨
    (∃ i : Nat, (seg.getSeed s gnum nextSeed).2 = (i : Int) ∧ toSizeT nextSeed ≤ i ∧
      i < (ids s).length ∧ (ids s).getD i 0 = 0 ∧
      ids (seg.getSeed s gnum nextSeed).1 = (ids s).set i gnum ∧
      cnt (seg.getSeed s gnum nextSeed).1 = toSizeT (gnum + 1) ∧
      ∀ j : Nat, toSizeT nextSeed ≤ j → j < i → adm s j → (ids s).getD j 0 ≠ 0)
  getSeed_adm : ∀ (s : σ) (gnum nextSeed : Int) (i : Nat),
    adm (seg.getSeed s gnum nextSeed).1 i ↔ adm s i
  determineGrouping_views : ∀ (s : σ) (referencepoint neighborpoint : Nat) (gnum : Int),
    ((seg.determineGrouping s referencepoint neighborpoint gnum).2 = false ∧
      ids (seg.determineGrouping s referencepoint neighborpoint gnum).1 = ids s) ∨
    ((seg.determineGrouping s referencepoint neighborpoint gnum).2 = true ∧
      (ids s).getD neighborpoint 0 = 0 ∧
      ids (seg.determineGrouping s referencepoint neighborpoint gnum).1 =
        (ids s).set neighborpoint gnum)
  determineGrouping_cnt : ∀ (s : σ) (referencepoint neighborpoint : Nat) (gnum : Int),
    cnt (seg.determineGrouping s referencepoint neighborpoint gnum).1 = cnt s
  determineGrouping_adm : ∀ (s : σ) (referencepoint neighborpoint : Nat) (gnum : Int) (i : Nat),
    adm (seg.determineGrouping s referencepoint neighborpoint gnum).1 i ↔ adm s i

/-- Growth with feature id `gnum` between two states, seen through the views: the arrays
keep their sizes, and an element either keeps its id or goes from 0 to `gnum`. -/
def Stamped {σ : Type} (ids : σ → List Int) (cnt : σ → Nat) (adm : σ → Nat → Prop)
    (gnum : Int) (s s2 : σ) : Prop :=
  (ids s2).length = (ids s).length ∧
  (∀ i : Nat, (ids s2).getD i 0 = (ids s).getD i 0 ∨
    ((ids s).getD i 0 = 0 ∧ (ids s2).getD i 0 = gnum)) ∧
  cnt s2 = cnt s ∧ (∀ i : Nat, adm s2 i ↔ adm s i)

/-- The orientation segmenter as seen by the scheduler. -/
def EBSDSegmentFeatures.segmenter : Segmenter EBSDSegmentFeatures :=
  { getSeed := EBSDSegmentFeatures.getSeed,
    determineGrouping := EBSDSegmentFeatures.determineGrouping }

/-- The vector segmenter as seen by the scheduler. -/
def VectorSegmentFeatures.segmenter (m : SIMPLibMath) : Segmenter VectorSegmentFeatures :=
  { getSeed := VectorSegmentFeatures.getSeed,
    determineGrouping := VectorSegmentFeatures.determineGrouping m }

/-- The state-independent part of the seed test of the orientation segmenter: the element is
not rejected by the mask and has a positive phase. -/
def EBSDSegmentFeatures.Admissible (s : EBSDSegmentFeatures) (i : Nat) : Prop :=
  (s.UseGoodVoxels = false ∨ s.GoodVoxels.getD i false = true) ∧ 0 < s.CellPhases.getD i 0

/-- The state-independent part of the seed test of the vector segmenter: the element is not
rejected by the mask. -/
def VectorSegmentFeatures.Admissible (s : VectorSegmentFeatures) (i : Nat) : Prop :=
  s.UseGoodVoxels = false ∨ s.GoodVoxels.getD i false = true

/-! ## The `execute` functions of the two filters

`execute()` starts with `dataCheck()`, which is taken to succeed: it creates the feature-id
array with initial value 0, one tuple per cell, and the cell-feature attribute matrix with 0
tuples.  The number of cells is the length of `FeatureIds` of the state passed in. -/

namespace EBSDSegmentFeatures

/-- The filter state at the call `SegmentFeatures::execute()` inside `execute()`: the arrays
created by `dataCheck()`, the per-feature arrays resized to one tuple, and the tolerance
converted to radians with the SIMPLib constant `k_PiOver180D`. -/
def beforeGrowth (k_PiOver180D : Flt) (s : EBSDSegmentFeatures) : EBSDSegmentFeatures :=
  { s with FeatureIds := List.replicate s.FeatureIds.length 0,
           Active := resizeAttributeArrays [] 1,
           ErrorCode := 0,
           MisoTolerance := Flt.mul s.MisorientationTolerance k_PiOver180D }

/-- `EBSDSegmentFeatures::execute()` on an `nx * ny * nz` image geometry. -/
def execute (k_PiOver180D : Flt) (nx ny nz : Nat) (draw : Nat → Int) (s : EBSDSegmentFeatures) :
    Option EBSDSegmentFeatures :=
  match SegmentFeatures.execute segmenter nx ny nz (s.beforeGrowth k_PiOver180D) with
  | none => none
  | some (s2, _) =>
    let totalFeatures : Int := (s2.Active.length : Int)
    if totalFeatures < 2 then
      some { s2 with ErrorCode := -87000 }
    else if s2.RandomizeFeatureIds then
      some (s2.randomizeFeatureIds draw (nx * ny * nz) s2.Active.length)
    else
      some s2

end EBSDSegmentFeatures

namespace VectorSegmentFeatures

/-- The filter state at the call `SegmentFeatures::execute()` inside `execute()`. -/
def beforeGrowth (m : SIMPLibMath) (s : VectorSegmentFeatures) : VectorSegmentFeatures :=
  { s with FeatureIds := List.replicate s.FeatureIds.length 0,
           Active := resizeAttributeArrays [] 1,
           ErrorCode := 0,
           AngleToleranceRad := Flt.divConst (Flt.mul s.AngleTolerance m.k_PiD) 180 }

/-- `VectorSegmentFeatures::execute()` on an `nx * ny * nz` image geometry; `totalFeatures`
is the tuple count of the cell-feature attribute matrix cast to `int32_t`. -/
def execute (m : SIMPLibMath) (nx ny nz : Nat) (draw : Nat → Int) (s : VectorSegmentFeatures) :
    Option VectorSegmentFeatures :=
  match SegmentFeatures.execute (segmenter m) nx ny nz (s.beforeGrowth m) with
  | none => none
  | some (s2, _) =>
    let totalFeatures : Int := toInt32 s2.Active.length
    if totalFeatures < 2 then
      some { s2 with ErrorCode := -87000 }
    else if s2.RandomizeFeatureIds then
      some (s2.randomizeFeatureIds draw s2.totalPoints totalFeatures.toNat)
    else
      some s2

end VectorSegmentFeatures

/-! ## Draw sequences of the relabelling -/

/-- All sequences of `len` draws, each drawn from `1 .. hi`. -/
def drawSequences (hi : Nat) : Nat → List (List Int)
  | 0 => [[]]
  | len + 1 =>
    (List.range' 1 hi).flatMap (fun r => (drawSequences hi len).map (fun l => (r : Int) :: l))

/-- The draws that replay a sequence `r_1, r_2, ...`: the iteration with loop index `i`
receives `r_i`. -/
def drawOf (l : List Int) (i : Nat) : Int := l.getD (i - 1) 1

/-- The number of draw sequences `r_1 .. r_(totalFeatures-1)`, each draw in
`[1, totalFeatures - 1]`, after which the table of `randomizeFeatureIds` is `gid`. -/
def sequencesProducing (totalFeatures : Nat) (gid : List Int) : Nat :=
  ((drawSequences (totalFeatures - 1) (totalFeatures - 1)).filter
    (fun l => decide (shuffledGid (drawOf l) totalFeatures = gid))).length

/-! ## Exclusion predicates on filter states -/

/-- Every element with a non-zero feature id has `GoodVoxels == true`. -/
def EBSDSegmentFeatures.MaskRespected (s : EBSDSegmentFeatures) : Prop :=
  ∀ i : Nat, s.FeatureIds.getD i 0 ≠ 0 → s.GoodVoxels.getD i false = true

/-- Every element with a non-zero feature id has `GoodVoxels == true`. -/
def VectorSegmentFeatures.MaskRespected (s : VectorSegmentFeatures) : Prop :=
  ∀ i : Nat, s.FeatureIds.getD i 0 ≠ 0 → s.GoodVoxels.getD i false = true

/-- All elements of one feature have the same phase. -/
def EBSDSegmentFeatures.SinglePhaseFeatures (s : EBSDSegmentFeatures) : Prop :=
  ∀ i j : Nat, s.FeatureIds.getD i 0 ≠ 0 → s.FeatureIds.getD i 0 = s.FeatureIds.getD j 0 →
    s.CellPhases.getD i 0 = s.CellPhases.getD j 0

/-- Every element with a non-zero feature id has `CellPhases > 0`. -/
def EBSDSegmentFeatures.PhasePositive (s : EBSDSegmentFeatures) : Prop :=
  ∀ i : Nat, s.FeatureIds.getD i 0 ≠ 0 → 0 < s.CellPhases.getD i 0

/-! ## Arithmetic of the statistics filters -/

namespace Flt

/-- Addition `a + b`. -/
def add : Flt → Flt → Flt
  | fin a, fin b => fin (a + b)
  | fin _, pinf => pinf
  | fin _, ninf => ninf
  | pinf, fin _ => pinf
  | ninf, fin _ => ninf
  | pinf, pinf => pinf
  | ninf, ninf => ninf
  | _, _ => nan

/-- Division `a / b`; the sign of a zero divisor is not modelled. -/
def div : Flt → Flt → Flt
  | fin a, fin b =>
    if b = 0 then (if 0 < a then pinf else if a < 0 then ninf else nan) else fin (a / b)
  | fin _, pinf => fin 0
  | fin _, ninf => fin 0
  | pinf, fin b => if 0 ≤ b then pinf else ninf
  | ninf, fin b => if 0 ≤ b then ninf else pinf
  | _, _ => nan

/-- IEEE-754 comparison `a == b`. -/
def eq : Flt → Flt → Bool
  | fin a, fin b => decide (a = b)
  | pinf, pinf => true
  | ninf, ninf => true
  | _, _ => false

/-- IEEE-754 comparison `a >= b`: false as soon as one operand is NaN. -/
def ge : Flt → Flt → Bool
  | fin a, fin b => decide (b ≤ a)
  | fin _, ninf => true
  | pinf, fin _ => true
  | pinf, pinf => true
  | pinf, ninf => true
  | ninf, ninf => true
  | _, _ => false

/-- IEEE-754 comparison `a <= b`. -/
def le (a b : Flt) : Bool := ge b a

/-- The function `std::clamp(v, lo, hi)`, that is `(v < lo) ? lo : (hi < v) ? hi : v`. -/
def clamp (v lo hi : Flt) : Flt := if lt v lo then lo else if lt hi v then hi else v

/-- The increment `x++` of a binary32 counter.  A counter started at 0 takes the values
0, 1, ..., 2^24, on which the addition of 1 is exact below 2^24; at 2^24 the sum 2^24 + 1 lies
halfway between the neighbours 2^24 and 2^24 + 2 and is rounded to the even one, 2^24, so
that the counter stays there.  Other finite values are not reached by such a counter and are
incremented without rounding. -/
def increment : Flt → Flt
  | fin q => if q = 2 ^ 24 then fin q else fin (q + 1)
  | x => x

instance : Add Flt := ⟨add⟩

instance : Zero Flt := ⟨fin 0⟩

instance : AddCommMonoid Flt where
  add_assoc := by
    intro a b c
    show add (add a b) c = add a (add b c)
    cases a <;> cases b <;> cases c <;> simp [add, add_assoc]
  zero_add := by
    intro a
    show add (fin 0) a = a
    cases a <;> simp [add]
  add_zero := by
    intro a
    show add a (fin 0) = a
    cases a <;> simp [add]
  add_comm := by
    intro a b
    show add a b = add b a
    cases a <;> cases b <;> simp [add, add_comm]
  nsmul := nsmulRec
  nsmul_zero := fun _ => rfl
  nsmul_succ := fun _ _ => rfl

end Flt

/-- The product of two `int32_t` values, reduced to `int32_t`. -/
def mulInt32 (a b : Int) : Int := toInt32 ((a * b) % 2 ^ 32).toNat

/-! ## Traversal of the image by the statistics filters -/

/-- The element indices in the order of the triple loop `for col`, `for row`, `for plane`
of both statistics filters: `point = (plane * xPoints * yPoints) + (row * xPoints) + col`. -/
def gridPoints (xPoints yPoints zPoints : Nat) : List Nat :=
  (List.range xPoints).flatMap fun col =>
    (List.range yPoints).flatMap fun row =>
      (List.range zPoints).map fun plane => plane * xPoints * yPoints + row * xPoints + col

/-! ## FindFeatureReferenceMisorientations -/

/-- The EbsdLib and SIMPLib items that `FindFeatureReferenceMisorientations` uses: they are
outside the repository and enter as parameters. Entry `k` of `calculateMisorientation` is the
angle component `axisAngle[3]` of `m_OrientationOps[k]->calculateMisorientation(q1, q2)`;
`defaultQuat` is the default-constructed `QuatF q2`. -/
structure OrientationLib where
  calculateMisorientation : List (QuatF → QuatF → Flt)
  k_180OverPiD : Flt
  defaultQuat : QuatF

/-- The members of a `FindFeatureReferenceMisorientations` filter that `execute` reads or
writes. `AvgQuats` is the array behind `m_AvgQuatsPtr`, whose tuple count is the number of
features. -/
structure FindFeatureReferenceMisorientations where
  ReferenceOrientation : Int
  FeatureIds : List Int
  CellPhases : List Int
  CrystalStructures : List Nat
  Quats : List Flt
  AvgQuats : List Flt
  GBEuclideanDistances : List Flt
  FeatureAvgMisorientations : List Flt
  FeatureReferenceMisorientations : List Flt

namespace FindFeatureReferenceMisorientations

/-- Number of tuples of the feature-id array. -/
def totalPoints (s : FindFeatureReferenceMisorientations) : Nat := s.FeatureIds.length

/-- Number of tuples of the four-component array `AvgQuats`. -/
def totalFeatures (s : FindFeatureReferenceMisorientations) : Nat := s.AvgQuats.length / 4

/-- The body of the loop that selects the centers: `st` holds `m_Centers` and
`m_CenterDists`. -/
def centerStep (s : FindFeatureReferenceMisorientations) (st : List Nat × List Flt)
    (i : Nat) : List Nat × List Flt :=
  let gnum := (s.FeatureIds.getD i 0).toNat
  let dist := s.GBEuclideanDistances.getD i Flt.nan
  if Flt.ge dist (st.2.getD gnum Flt.nan) then (st.1.set gnum i, st.2.set gnum dist) else st

/-- The vectors `m_Centers` and `m_CenterDists` as the first part of `execute` leaves them:
both start at zeros, and the loop over the elements runs only when
`m_ReferenceOrientation == 1`. -/
def findCenters (s : FindFeatureReferenceMisorientations) : List Nat × List Flt :=
  let init : List Nat × List Flt :=
    (List.replicate s.totalFeatures 0, List.replicate s.totalFeatures (Flt.fin 0))
  if s.ReferenceOrientation = 1 then (List.range s.totalPoints).foldl s.centerStep init
  else init

/-- The reference quaternion `q2` of the element `point`. -/
def referenceQuat (e : OrientationLib) (s : FindFeatureReferenceMisorientations)
    (Centers : List Nat) (point : Nat) : QuatF :=
  if s.ReferenceOrientation = 0 then
    quatAt s.AvgQuats (s.FeatureIds.getD point 0).toNat
  else if s.ReferenceOrientation = 1 then
    quatAt s.AvgQuats (Centers.getD (s.FeatureIds.getD point 0).toNat 0)
  else e.defaultQuat

/-- The value `k_180OverPiD * axisAngle[3]` of the element `point`. -/
def misorientation (e : OrientationLib) (s : FindFeatureReferenceMisorientations)
    (Centers : List Nat) (point : Nat) : Flt :=
  let q1 := quatAt s.Quats point
  let q2 := referenceQuat e s Centers point
  let phase1 := s.CrystalStructures.getD (s.CellPhases.getD point 0).toNat 0
  Flt.mul e.k_180OverPiD ((e.calculateMisorientation.getD phase1 fun _ _ => Flt.nan) q1 q2)

/-- The body of the triple loop: `st` holds the per-element output array and `avgMiso`.
The count `avgMiso[idx + 0]++` is the increment of a `float` (`Flt.increment`); the sum is
accumulated without rounding. -/
def elementStep (e : OrientationLib) (s : FindFeatureReferenceMisorientations)
    (Centers : List Nat) (st : List Flt × List Flt) (point : Nat) : List Flt × List Flt :=
  let st1 : List Flt × List Flt :=
    if 0 < s.FeatureIds.getD point 0 ∧ 0 < s.CellPhases.getD point 0 then
      let ref := st.1.set point (misorientation e s Centers point)
      let idx := mulInt32 (s.FeatureIds.getD point 0) 2
      let avgMiso := st.2.set idx.toNat (Flt.increment (st.2.getD idx.toNat Flt.nan))
      (ref, avgMiso.set (idx + 1).toNat
        (avgMiso.getD (idx + 1).toNat Flt.nan + ref.getD point Flt.nan))
    else st
  if s.FeatureIds.getD point 0 = 0 ∨ s.CellPhases.getD point 0 = 0 then
    (st1.1.set point (Flt.fin 0), st1.2)
  else st1

/-- The body of the loop over the features. -/
def meanStep (avgMiso : List Flt) (avg : List Flt) (i : Nat) : List Flt :=
  let idx := toInt32 (i * 2)
  let avg := avg.set i (Flt.div (avgMiso.getD (idx + 1).toNat Flt.nan)
    (avgMiso.getD idx.toNat Flt.nan))
  if Flt.eq (avgMiso.getD idx.toNat Flt.nan) (Flt.fin 0) then avg.set i (Flt.fin 0) else avg

/-- The function `FindFeatureReferenceMisorientations::execute` on an image of
`xPoints * yPoints * zPoints` elements. `dataCheck` creates both output arrays with initial
value 0, and a volume of more than `maxUInt32` elements returns with the arrays as created. -/
def execute (e : OrientationLib) (xPoints yPoints zPoints : Nat)
    (s : FindFeatureReferenceMisorientations) : FindFeatureReferenceMisorientations :=
  if s.totalPoints > 4294967295 then
    { s with
      FeatureAvgMisorientations := List.replicate s.totalFeatures (Flt.fin 0)
      FeatureReferenceMisorientations := List.replicate s.totalPoints (Flt.fin 0) }
  else
    let Centers := s.findCenters.1
    let st := (gridPoints xPoints yPoints zPoints).foldl (elementStep e s Centers)
      (List.replicate s.totalPoints (Flt.fin 0),
        List.replicate (s.totalFeatures * 2) (Flt.fin 0))
    { s with
      FeatureReferenceMisorientations := st.1
      FeatureAvgMisorientations :=
        (List.range' 1 (s.totalFeatures - 1)).foldl (meanStep st.2)
          (List.replicate s.totalFeatures (Flt.fin 0)) }

end FindFeatureReferenceMisorientations

/-! ## FindFeatureReferenceCAxisMisorientations -/

/-- The EbsdLib, Eigen, SIMPLib and libm items that `FindFeatureReferenceCAxisMisorientations`
uses: they are outside the repository and enter as parameters. `cAxisDirection q` is the
product `OrientationMatrixToGMatrixTranspose(qu2om(q)) * cAxis`, `normalize` is
`Eigen::Vector3f::normalize`. -/
structure CAxisLib where
  cAxisDirection : QuatF → Vec3
  normalize : Vec3 → Vec3
  CosThetaBetweenVectors : Vec3 → Vec3 → Flt
  acosf : Flt → Flt
  sqrtf : Flt → Flt
  k_180OverPiF : Flt

/-- The members of a `FindFeatureReferenceCAxisMisorientations` filter that `execute` reads
or writes. -/
structure FindFeatureReferenceCAxisMisorientations where
  FeatureIds : List Int
  CellPhases : List Int
  Quats : List Flt
  AvgCAxes : List Flt
  FeatureAvgCAxisMisorientations : List Flt
  FeatureStdevCAxisMisorientations : List Flt
  FeatureReferenceCAxisMisorientations : List Flt

namespace FindFeatureReferenceCAxisMisorientations

/-- Number of tuples of the feature-id array. -/
def totalPoints (s : FindFeatureReferenceCAxisMisorientations) : Nat := s.FeatureIds.length

/-- Number of tuples of the three-component array `AvgCAxes`. -/
def totalFeatures (s : FindFeatureReferenceCAxisMisorientations) : Nat :=
  s.AvgCAxes.length / 3

/-- The value `w` of the element `point`: the angle between its c-axis and the average c-axis
of its feature, in degrees, reflected through 180 when above 90. -/
def misorientation (e : CAxisLib) (s : FindFeatureReferenceCAxisMisorientations)
    (point : Nat) : Flt :=
  let c1 := e.normalize (e.cAxisDirection (quatAt s.Quats point))
  let AvgCAxis := e.normalize (vecAt s.AvgCAxes (s.FeatureIds.getD point 0).toNat)
  let w := e.CosThetaBetweenVectors c1 AvgCAxis
  let w := Flt.clamp w (Flt.fin (-1)) (Flt.fin 1)
  let w := e.acosf w
  let w := Flt.mul w e.k_180OverPiF
  if Flt.gt w (Flt.fin 90) then Flt.sub (Flt.fin 180) w else w

/-- The body of the triple loop: `st` holds the per-element output array and `avgmiso`.
The count `avgmiso[index]++` is the increment of a `float` (`Flt.increment`); the sum is
accumulated without rounding. -/
def elementStep (e : CAxisLib) (s : FindFeatureReferenceCAxisMisorientations)
    (st : List Flt × List Flt) (point : Nat) : List Flt × List Flt :=
  let st1 : List Flt × List Flt :=
    if 0 < s.FeatureIds.getD point 0 ∧ 0 < s.CellPhases.getD point 0 then
      let w := misorientation e s point
      let index := toSizeT (mulInt32 (s.FeatureIds.getD point 0) 3)
      let avgmiso := st.2.set index (Flt.increment (st.2.getD index Flt.nan))
      (st.1.set point w, avgmiso.set (index + 1) (avgmiso.getD (index + 1) Flt.nan + w))
    else st
  if s.FeatureIds.getD point 0 = 0 ∨ s.CellPhases.getD point 0 = 0 then
    (st1.1.set point (Flt.fin 0), st1.2)
  else st1

/-- The body of the loop that computes the averages. -/
def meanStep (avgmiso : List Flt) (avg : List Flt) (i : Nat) : List Flt :=
  let index := i * 3
  if Flt.eq (avgmiso.getD index Flt.nan) (Flt.fin 0) then avg.set i (Flt.fin 0)
  else avg.set i (Flt.div (avgmiso.getD (index + 1) Flt.nan) (avgmiso.getD index Flt.nan))

/-- The body of the loop over all elements that accumulates the squared deviations. -/
def deviationStep (s : FindFeatureReferenceCAxisMisorientations) (ref avg : List Flt)
    (avgmiso : List Flt) (j : Nat) : List Flt :=
  let gNum := s.FeatureIds.getD j 0
  let d := Flt.sub (ref.getD j Flt.nan) (avg.getD gNum.toNat Flt.nan)
  let k := (mulInt32 gNum 3 + 2).toNat
  avgmiso.set k (avgmiso.getD k Flt.nan + Flt.mul d d)

/-- The body of the loop that computes the standard deviations. -/
def stdevStep (e : CAxisLib) (avgmiso : List Flt) (stdev : List Flt) (i : Nat) : List Flt :=
  let index := i * 3
  if Flt.eq (avgmiso.getD index Flt.nan) (Flt.fin 0) then stdev.set i (Flt.fin 0)
  else stdev.set i (e.sqrtf (Flt.mul (Flt.div (Flt.fin 1) (avgmiso.getD index Flt.nan))
    (avgmiso.getD (index + 2) Flt.nan)))

/-- The function `FindFeatureReferenceCAxisMisorientations::execute` on an image of
`xPoints * yPoints * zPoints` elements. `dataCheck` creates the three output arrays with
initial value 0, and a volume of more than `maxUInt32` elements returns with the arrays as
created. -/
def execute (e : CAxisLib) (xPoints yPoints zPoints : Nat)
    (s : FindFeatureReferenceCAxisMisorientations) : FindFeatureReferenceCAxisMisorientations :=
  if s.totalPoints > 4294967295 then
    { s with
      FeatureAvgCAxisMisorientations := List.replicate s.totalFeatures (Flt.fin 0)
      FeatureStdevCAxisMisorientations := List.replicate s.totalFeatures (Flt.fin 0)
      FeatureReferenceCAxisMisorientations := List.replicate s.totalPoints (Flt.fin 0) }
  else
    let st := (gridPoints xPoints yPoints zPoints).foldl (elementStep e s)
      (List.replicate s.totalPoints (Flt.fin 0),
        List.replicate (s.totalFeatures * 3) (Flt.fin 0))
    let avg := (List.range' 1 (s.totalFeatures - 1)).foldl (meanStep st.2)
      (List.replicate s.totalFeatures (Flt.fin 0))
    let avgmiso := (List.range s.totalPoints).foldl (deviationStep s st.1 avg) st.2
    { s with
      FeatureReferenceCAxisMisorientations := st.1
      FeatureAvgCAxisMisorientations := avg
      FeatureStdevCAxisMisorientations :=
        (List.range' 1 (s.totalFeatures - 1)).foldl (stdevStep e avgmiso)
          (List.replicate s.totalFeatures (Flt.fin 0)) }

end FindFeatureReferenceCAxisMisorientations

/-! ## Common form of the two statistics filters

The first pass of both filters has the same shape, with two or three accumulator slots per
feature; the definitions below state that shape once, and the description of the per-feature
mean that the two filters are compared with. -/

/-- The elements that count as members of feature `f`: those with `FeatureIds == f` and
`CellPhases > 0`, in increasing order. -/
def featureMembers (FeatureIds CellPhases : List Int) (f : Nat) : List Nat :=
  (List.range FeatureIds.length).filter fun i =>
    decide (FeatureIds.getD i 0 = (f : Int) ∧ 0 < CellPhases.getD i 0)

/-- The per-feature mean as the specification words it: the sum of the per-element scalars
over the members divided by the number of members when that number is positive, and 0 when
there is no member. -/
def featureMean (scalars : List Flt) (members : List Nat) : Flt :=
  if members.length = 0 then Flt.fin 0
  else Flt.div (members.map fun i => scalars.getD i Flt.nan).sum
    (Flt.fin (members.length : ℚ))

/-- The per-feature standard deviation as the specification words it: the square root of the
sum, over the members, of the squared deviation of the per-element scalar from the mean,
divided by the number of members. -/
def featureStdev (sqrtf : Flt → Flt) (scalars : List Flt) (mean : Flt)
    (members : List Nat) : Flt :=
  sqrtf (Flt.div
    (members.map fun i =>
      Flt.mul (Flt.sub (scalars.getD i Flt.nan) mean) (Flt.sub (scalars.getD i Flt.nan) mean)).sum
    (Flt.fin (members.length : ℚ)))

/-! ## Growth of a feature as reachability -/

/-- The elements reachable from `seed` by steps from an element `r` to a grid neighbour `n`
of `r` that the relation `E r n` admits. -/
inductive Reachable (E : Nat → Nat → Prop) (nx ny nz : Nat) (seed : Nat) : Nat → Prop
  | seed : Reachable E nx ny nz seed seed
  | step {r n : Nat} : Reachable E nx ny nz seed r → n ∈ neighbors nx ny nz r → E r n →
      Reachable E nx ny nz seed n

/-- A segmenter whose grouping predicate is an unassigned-neighbour test together with a
relation `edge` that no call of the segmenter changes. -/
structure Segmenter.Grouping {σ : Type} (seg : Segmenter σ) (ids : σ → List Int)
    (edge : σ → Nat → Nat → Prop) : Prop where
  group_iff : ∀ (s : σ) (referencepoint neighborpoint : Nat) (gnum : Int),
    (seg.determineGrouping s referencepoint neighborpoint gnum).2 = true ↔
      ((ids s).getD neighborpoint 0 = 0 ∧ edge s referencepoint neighborpoint)
  group_edge : ∀ (s : σ) (referencepoint neighborpoint : Nat) (gnum : Int) (a b : Nat),
    edge (seg.determineGrouping s referencepoint neighborpoint gnum).1 a b ↔ edge s a b
  seed_edge : ∀ (s : σ) (gnum nextSeed : Int) (a b : Nat),
    edge (seg.getSeed s gnum nextSeed).1 a b ↔ edge s a b

/-- The state of the growth of feature `g` from `seed` on `N` elements, in terms of the
feature ids `l` and the worklist `wl`: the worklist holds elements of the feature, the
elements of the feature are reachable from the seed, every id is 0 or `g`, and the admitted
neighbours of an element of the feature that is no longer on the worklist are in the
feature. -/
def Filling (E : Nat → Nat → Prop) (nx ny nz N : Nat) (seed : Nat) (g : Int) (l : List Int)
    (wl : List Nat) : Prop :=
  l.length = N ∧ (∀ p ∈ wl, p < N ∧ l.getD p 0 = g) ∧
  (∀ i : Nat, l.getD i 0 = g → Reachable E nx ny nz seed i) ∧ l.getD seed 0 = g ∧
  (∀ i : Nat, l.getD i 0 = 0 ∨ l.getD i 0 = g) ∧
  (∀ r : Nat, l.getD r 0 = g → r ∉ wl → ∀ n ∈ neighbors nx ny nz r, E r n → l.getD n 0 = g)

namespace EBSDSegmentFeatures

/-- The part of the test of `determineGrouping` that does not read the feature ids: both
crystal structures are within the operator table, the neighbour is not rejected by the mask,
and `w`, the misorientation for equal phases and `FLT_MAX` otherwise, is below the
tolerance. -/
def Groupable (s : EBSDSegmentFeatures) (referencepoint neighborpoint : Nat) : Prop :=
  ¬ (toSizeT (toInt32 (s.crystalStructure referencepoint)) ≥ s.OrientationOps.length ∨
    toSizeT (toInt32 (s.crystalStructure neighborpoint)) ≥ s.OrientationOps.length) ∧
  (!s.UseGoodVoxels || s.GoodVoxels.getD neighborpoint false) = true ∧
  Flt.lt (if s.CellPhases.getD referencepoint 0 = s.CellPhases.getD neighborpoint 0 then
      s.misorientation referencepoint neighborpoint else fltMax) s.MisoTolerance = true

end EBSDSegmentFeatures

namespace VectorSegmentFeatures

/-- The part of the test of `determineGrouping` that does not read the feature ids: the
neighbour is not rejected by the mask and the angle is below the tolerance. -/
def Groupable (m : SIMPLibMath) (s : VectorSegmentFeatures)
    (referencepoint neighborpoint : Nat) : Prop :=
  (!s.UseGoodVoxels || s.GoodVoxels.getD neighborpoint false) = true ∧
  Flt.lt (groupingAngle m s referencepoint neighborpoint) s.AngleToleranceRad = true

end VectorSegmentFeatures

/-! ## FindRelativeMotionBetweenSlices -/

/-- Conversion of an `int64_t` value to `int32_t`: reduction modulo `2^32` into
`[-2^31, 2^31)`. -/
def narrowInt32 (z : Int) : Int := toInt32 (z % 2 ^ 32).toNat

/-- The values of the loop variable of `for(v = lo; v <= hi; v++)`. -/
def closedRange (lo hi : Int) : List Int :=
  (List.range (hi + 1 - lo).toNat).map fun k => lo + (k : Int)

/-- The write `a[k] = v` into an allocated array; `none` reports a write outside the array. -/
def writeAt (a : List Int) (k : Nat) (v : Int) : Option (List Int) :=
  if k < a.length then some (a.set k v) else none

/-- The parameters of a `FindRelativeMotionBetweenSlices` filter that the set-up of the search
points reads. -/
structure FindRelativeMotionBetweenSlices where
  Plane : Nat
  PSize1 : Int
  PSize2 : Int
  SSize1 : Int
  SSize2 : Int
  SliceStep : Int

namespace FindRelativeMotionBetweenSlices

/-- Number of `int32_t` entries of `searchPoints`, created with `m_SSize1 * m_SSize2` tuples
of four components. -/
def searchPointsSize (f : FindRelativeMotionBetweenSlices) : Nat :=
  4 * toSizeT (narrowInt32 (f.SSize1 * f.SSize2))

/-- The body of the inner search loop of `execute` for the displacement `(i, j)`: `st` holds
`searchPoints` and `count`.  The three branches are the bodies under `m_Plane == 0`,
`m_Plane == 1` and `m_Plane == 2`; for another value of `m_Plane` no loop runs. -/
def storeSearchPoint (f : FindRelativeMotionBetweenSlices) (xP yP : Int)
    (st : List Int × Nat) (j i : Int) : Option (List Int × Nat) :=
  let count := st.2
  if f.Plane = 0 then
    let yStride := j * xP
    (writeAt st.1 (4 * count) (narrowInt32 (f.SliceStep * xP * yP + yStride + i))).bind
      fun sp => (writeAt sp (4 * count + 1) i).bind
      fun sp => (writeAt sp (4 * count + 2) j).bind
      fun sp => (writeAt sp (4 * count + 3) f.SliceStep).bind
      fun sp => some (sp, count + 1)
  else if f.Plane = 1 then
    let yStride := j * xP * yP
    (writeAt st.1 count (narrowInt32 (f.SliceStep * xP + yStride + i))).bind
      fun sp => (writeAt sp (4 * count + 1) i).bind
      fun sp => (writeAt sp (4 * count + 2) f.SliceStep).bind
      fun sp => (writeAt sp (4 * count + 3) j).bind
      fun sp => some (sp, count + 1)
  else if f.Plane = 2 then
    let yStride := j * xP * yP
    (writeAt st.1 count (narrowInt32 (f.SliceStep + yStride + i * xP))).bind
      fun sp => (writeAt sp (4 * count + 1) f.SliceStep).bind
      fun sp => (writeAt sp (4 * count + 2) i).bind
      fun sp => (writeAt sp (4 * count + 3) j).bind
      fun sp => some (sp, count + 1)
  else some st

/-- The two nested search loops of `execute`, `for(j = -(m_SSize2 / 2); j <= (m_SSize2 / 2); j++)`
and `for(i = -(m_SSize1 / 2); i <= (m_SSize1 / 2); i++)`, on the image dimensions `xP`, `yP`
and the array `fresh` as allocated: the final `searchPoints` and `numSearchPoints`, or `none`
when a write falls outside the array. -/
def searchPoints (f : FindRelativeMotionBetweenSlices) (xP yP : Int) (fresh : List Int) :
    Option (List Int × Nat) :=
  (closedRange (-(f.SSize2.tdiv 2)) (f.SSize2.tdiv 2)).foldlM
    (fun st j =>
      (closedRange (-(f.SSize1.tdiv 2)) (f.SSize1.tdiv 2)).foldlM
        (fun st i => storeSearchPoint f xP yP st j i) st)
    (fresh, 0)

/-- The displacements in the order of the two search loops, as pairs `(i, j)`: entry `k` is
the displacement with running index `k`. -/
def displacements (f : FindRelativeMotionBetweenSlices) : List (Int × Int) :=
  (closedRange (-(f.SSize2.tdiv 2)) (f.SSize2.tdiv 2)).flatMap fun j =>
    (closedRange (-(f.SSize1.tdiv 2)) (f.SSize1.tdiv 2)).map fun i => (i, j)

/-- The linear data offset of the displacement `(i, j)` in the plane of the filter, as the
three branches of `execute` compute it. -/
def dataOffset (f : FindRelativeMotionBetweenSlices) (xP yP : Int) (d : Int × Int) : Int :=
  if f.Plane = 0 then narrowInt32 (f.SliceStep * xP * yP + d.2 * xP + d.1)
  else if f.Plane = 1 then narrowInt32 (f.SliceStep * xP + d.2 * xP * yP + d.1)
  else narrowInt32 (f.SliceStep + d.2 * xP * yP + d.1 * xP)

end FindRelativeMotionBetweenSlices

/-! ## Array accesses of the relabelling

The body of `randomizeFeatureIds` once more, with every access to the table `gid` and to the
feature-id array checked against the bounds of the array. -/

/-- One iteration of the shuffle loop, with loop index `i` and draw `r`; `none` reports an
access `gid[i]` or `gid[r]` outside the table. -/
def shuffleStepChecked (totalFeatures : Nat) (gid : List Int) (i : Nat) (r : Int) :
    Option (List Int) :=
  if r ≥ (totalFeatures : Int) then
    some gid
  else if i < gid.length ∧ 0 ≤ r ∧ r.toNat < gid.length then
    let temp := gid.getD i 0
    some ((gid.set i (gid.getD r.toNat 0)).set r.toNat temp)
  else
    none

/-- The shuffle loop `for(i = 1; i < totalFeatures; i++)` with checked accesses. -/
def shuffledGidChecked (draw : Nat → Int) (totalFeatures : Nat) : Option (List Int) :=
  (List.range' 1 (totalFeatures - 1)).foldlM
    (fun gid i => shuffleStepChecked totalFeatures gid i (draw i)) (gidInit totalFeatures)

/-- The loop `for(i = 0; i < totalPoints; ++i) m_FeatureIds[i] = gid[m_FeatureIds[i]];` with
checked accesses: `none` reports an access `m_FeatureIds[i]` or `gid[m_FeatureIds[i]]` outside
its array. -/
def remapFeatureIdsChecked (gid : List Int) (totalPoints : Nat) (FeatureIds : List Int) :
    Option (List Int) :=
  (List.range totalPoints).foldlM
    (fun ids i =>
      if i < ids.length ∧ 0 ≤ ids.getD i 0 ∧ (ids.getD i 0).toNat < gid.length then
        some (ids.set i (gid.getD (ids.getD i 0).toNat 0))
      else
        none)
    FeatureIds

/-- The body of `randomizeFeatureIds(totalPoints, totalFeatures)` with checked accesses. -/
def randomizeIdsChecked (draw : Nat → Int) (totalPoints totalFeatures : Nat)
    (FeatureIds : List Int) : Option (List Int) :=
  (shuffledGidChecked draw totalFeatures).bind fun gid =>
    remapFeatureIdsChecked gid totalPoints FeatureIds

/-- The iterations of the shuffle loop that take the branch
`if(r >= totalFeatures) continue;`. -/
def skippedIterations (draw : Nat → Int) (totalFeatures : Nat) : List Nat :=
  (List.range' 1 (totalFeatures - 1)).filter fun i => decide (draw i ≥ (totalFeatures : Int))

/-! ## The values compared by the grouping predicates -/

/-- The value that `VectorSegmentFeatures::determineGrouping` passes to `acosf`: the `w`
returned by `GeometryMath::CosThetaBetweenVectors(v1, v2)` after the sign changes of `v1` and
`v2`. -/
def VectorSegmentFeatures.acosArgument (m : SIMPLibMath) (s : VectorSegmentFeatures)
    (referencepoint neighborpoint : Nat) : Flt :=
  let v1 := vecAt s.Vectors referencepoint
  let v2 := vecAt s.Vectors neighborpoint
  let v1 := if Flt.lt v1.z (Flt.fin 0) then negateVec v1 else v1
  let v2 := if Flt.lt v2.z (Flt.fin 0) then negateVec v2 else v2
  m.CosThetaBetweenVectors v1 v2

/-- The value `w` that `EBSDSegmentFeatures::determineGrouping` compares with the tolerance:
the misorientation when the two phases are equal, and `FLT_MAX` otherwise. -/
def EBSDSegmentFeatures.comparedAngle (s : EBSDSegmentFeatures)
    (referencepoint neighborpoint : Nat) : Flt :=
  if s.CellPhases.getD referencepoint 0 = s.CellPhases.getD neighborpoint 0 then
    s.misorientation referencepoint neighborpoint
  else
    fltMax

/-! ## Concrete inputs -/

namespace EBSDSegmentFeatures

/-- Three elements with phases 1, 0, 2 under a one-entry operator table, no mask; the first
element already belongs to feature 1. -/
def sample : EBSDSegmentFeatures :=
  { UseGoodVoxels := false, RandomizeFeatureIds := false,
    MisorientationTolerance := Flt.fin 5, MisoTolerance := Flt.fin 1,
    OrientationOps := [fun _ _ => Flt.fin 0], Quats := [], CellPhases := [1, 0, 2],
    GoodVoxels := [], CrystalStructures := [0, 0, 0], FeatureIds := [1, 0, 0],
    Active := [true, true], ErrorCode := 0 }

/-- Two unassigned elements of different phases (1 and 2), both phases of crystal structure 0
under a one-entry operator table, no mask, and a tolerance of `+infinity`. -/
def crossPhase : EBSDSegmentFeatures :=
  { UseGoodVoxels := false, RandomizeFeatureIds := false,
    MisorientationTolerance := Flt.pinf, MisoTolerance := Flt.pinf,
    OrientationOps := [fun _ _ => Flt.fin 0], Quats := [], CellPhases := [1, 2],
    GoodVoxels := [], CrystalStructures := [0, 0, 0], FeatureIds := [0, 0],
    Active := [true], ErrorCode := 0 }

end EBSDSegmentFeatures

namespace VectorSegmentFeatures

/-- Three elements carrying the vectors (0,0,1), (0,0,-1) and (1,0,0), no mask; the first
element already belongs to feature 1. -/
def sample : VectorSegmentFeatures :=
  { UseGoodVoxels := false, RandomizeFeatureIds := false, AngleTolerance := Flt.fin 1,
    AngleToleranceRad := Flt.fin (1 / 50),
    Vectors := [Flt.fin 0, Flt.fin 0, Flt.fin 1, Flt.fin 0, Flt.fin 0, Flt.fin (-1),
                Flt.fin 1, Flt.fin 0, Flt.fin 0],
    GoodVoxels := [], FeatureIds := [1, 0, 0], Active := [true, true], ErrorCode := 0 }

end VectorSegmentFeatures

/-- One element of phase 1, no mask, randomization off, as handed to `execute`. -/
def EBSDSegmentFeatures.single : EBSDSegmentFeatures :=
  { UseGoodVoxels := false, RandomizeFeatureIds := false,
    MisorientationTolerance := Flt.fin 5, MisoTolerance := Flt.fin 0,
    OrientationOps := [fun _ _ => Flt.fin 0], Quats := [], CellPhases := [1],
    GoodVoxels := [], CrystalStructures := [0, 0], FeatureIds := [0],
    Active := [], ErrorCode := 0 }

/-- Three unassigned elements with phases 1, 0, 2 in a row, no mask. -/
def EBSDSegmentFeatures.row : EBSDSegmentFeatures :=
  { UseGoodVoxels := false, RandomizeFeatureIds := false,
    MisorientationTolerance := Flt.fin 5, MisoTolerance := Flt.fin 1,
    OrientationOps := [fun _ _ => Flt.fin 0], Quats := [], CellPhases := [1, 0, 2],
    GoodVoxels := [], CrystalStructures := [0, 0, 0], FeatureIds := [0, 0, 0],
    Active := [true], ErrorCode := 0 }

/-- Three unassigned elements in a row carrying the vectors (0,0,1), (0,0,-1), (1,0,0). -/
def VectorSegmentFeatures.row : VectorSegmentFeatures :=
  { UseGoodVoxels := false, RandomizeFeatureIds := false, AngleTolerance := Flt.fin 1,
    AngleToleranceRad := Flt.fin (1 / 50),
    Vectors := [Flt.fin 0, Flt.fin 0, Flt.fin 1, Flt.fin 0, Flt.fin 0, Flt.fin (-1),
                Flt.fin 1, Flt.fin 0, Flt.fin 0],
    GoodVoxels := [], FeatureIds := [0, 0, 0], Active := [true], ErrorCode := 0 }

/-- Stand-ins for the library functions: a cosine of 1, an arc cosine of 0, and rational
approximations of pi and pi / 2. -/
def SIMPLibMath.sample : SIMPLibMath :=
  { CosThetaBetweenVectors := fun _ _ => Flt.fin 1, acosf := fun _ => Flt.fin 0,
    k_PiD := Flt.fin (355 / 113), k_PiOver2D := Flt.fin (355 / 226) }

/-- Element 0 (phase 1) belongs to feature 1, element 1 has phase 0 and is unassigned; the
crystal structure listed for phase 0 is inside the one-entry operator table; no mask; the
tolerance is `+infinity`. -/
def EBSDSegmentFeatures.phaseZeroNeighbour : EBSDSegmentFeatures :=
  { UseGoodVoxels := false, RandomizeFeatureIds := false,
    MisorientationTolerance := Flt.pinf, MisoTolerance := Flt.pinf,
    OrientationOps := [fun _ _ => Flt.fin 0], Quats := [], CellPhases := [1, 0],
    GoodVoxels := [], CrystalStructures := [0, 0], FeatureIds := [1, 0],
    Active := [true, true], ErrorCode := 0 }

/-- Three unassigned elements of phase 1 in a row, the middle one rejected by the mask; the
tolerance is not a number, so that no neighbour is ever grouped. -/
def EBSDSegmentFeatures.maskedRow : EBSDSegmentFeatures :=
  { UseGoodVoxels := true, RandomizeFeatureIds := false,
    MisorientationTolerance := Flt.nan, MisoTolerance := Flt.nan,
    OrientationOps := [fun _ _ => Flt.fin 0], Quats := [], CellPhases := [1, 1, 1],
    GoodVoxels := [true, false, true], CrystalStructures := [0, 0], FeatureIds := [0, 0, 0],
    Active := [true], ErrorCode := 0 }

/-- Three unassigned elements in a row, the middle one rejected by the mask. -/
def VectorSegmentFeatures.maskedRow : VectorSegmentFeatures :=
  { UseGoodVoxels := true, RandomizeFeatureIds := false, AngleTolerance := Flt.fin 1,
    AngleToleranceRad := Flt.nan,
    Vectors := [Flt.fin 0, Flt.fin 0, Flt.fin 1, Flt.fin 0, Flt.fin 0, Flt.fin (-1),
                Flt.fin 1, Flt.fin 0, Flt.fin 0],
    GoodVoxels := [true, false, true], FeatureIds := [0, 0, 0], Active := [true],
    ErrorCode := 0 }

/-- Stand-ins for the library items: one symmetry operator, whose angle is the difference of
the `w` components, and the factor 57 for `k_180OverPiD`. -/
def OrientationLib.sample : OrientationLib :=
  { calculateMisorientation := [fun q1 q2 => Flt.sub q1.w q2.w]
    k_180OverPiD := Flt.fin 57
    defaultQuat := { x := Flt.fin 0, y := Flt.fin 0, z := Flt.fin 0, w := Flt.fin 1 } }

/-- Two elements of feature 1 in center mode; element 0 is the farther from the boundary.
The array behind `m_AvgQuatsPtr` holds the tuples of features 0 and 1. -/
def FindFeatureReferenceMisorientations.centered : FindFeatureReferenceMisorientations :=
  { ReferenceOrientation := 1
    FeatureIds := [1, 1]
    CellPhases := [1, 1]
    CrystalStructures := [0, 0]
    Quats := [Flt.fin 0, Flt.fin 0, Flt.fin 0, Flt.fin 1,
      Flt.fin 1, Flt.fin 0, Flt.fin 0, Flt.fin 0]
    AvgQuats := [Flt.fin 5, Flt.fin 5, Flt.fin 5, Flt.fin 5,
      Flt.fin 7, Flt.fin 7, Flt.fin 7, Flt.fin 7]
    GBEuclideanDistances := [Flt.fin 2, Flt.fin 1]
    FeatureAvgMisorientations := []
    FeatureReferenceMisorientations := [] }

/-- Two elements in center mode: element 0 belongs to feature 0, and the only member of
feature 1, element 1, has a negative distance. -/
def FindFeatureReferenceMisorientations.negativeDistance :
    FindFeatureReferenceMisorientations :=
  { ReferenceOrientation := 1
    FeatureIds := [0, 1]
    CellPhases := [1, 1]
    CrystalStructures := [0, 0]
    Quats := List.replicate 8 (Flt.fin 0)
    AvgQuats := List.replicate 8 (Flt.fin 0)
    GBEuclideanDistances := [Flt.fin 0, Flt.fin (-1)]
    FeatureAvgMisorientations := []
    FeatureReferenceMisorientations := [] }

/-- Stand-ins for the library items of the c-axis filter: the direction is read off the
quaternion, `normalize` keeps its argument, the cosine is the product of the `z` components,
`acosf x` is `10 * (1 - x)`, `sqrtf` is exact on 0 and 100, and the factor of
`k_180OverPiF` is 1. -/
def CAxisLib.sample : CAxisLib :=
  { cAxisDirection := fun q => { x := q.x, y := q.y, z := q.z }
    normalize := fun v => v
    CosThetaBetweenVectors := fun a b => Flt.mul a.z b.z
    acosf := fun x => Flt.mul (Flt.fin 10) (Flt.sub (Flt.fin 1) x)
    sqrtf := fun x =>
      if x = Flt.fin 0 then Flt.fin 0 else if x = Flt.fin 100 then Flt.fin 10 else Flt.nan
    k_180OverPiF := Flt.fin 1 }

/-- Two elements of feature 1, the second of phase 0; the scalar of element 0 is 10 under
`CAxisLib.sample`. -/
def FindFeatureReferenceCAxisMisorientations.phaseZeroMember :
    FindFeatureReferenceCAxisMisorientations :=
  { FeatureIds := [1, 1]
    CellPhases := [1, 0]
    Quats := [Flt.fin 0, Flt.fin 0, Flt.fin 0, Flt.fin 1,
      Flt.fin 0, Flt.fin 0, Flt.fin 0, Flt.fin 1]
    AvgCAxes := [Flt.fin 0, Flt.fin 0, Flt.fin 0, Flt.fin 0, Flt.fin 0, Flt.fin 1]
    FeatureAvgCAxisMisorientations := []
    FeatureStdevCAxisMisorientations := []
    FeatureReferenceCAxisMisorientations := [] }

/-- Three unassigned elements of phase 1 in a row, all rejected by the mask. -/
def EBSDSegmentFeatures.allMasked : EBSDSegmentFeatures :=
  { UseGoodVoxels := true, RandomizeFeatureIds := true,
    MisorientationTolerance := Flt.fin 5, MisoTolerance := Flt.fin 0,
    OrientationOps := [fun _ _ => Flt.fin 0], Quats := [], CellPhases := [1, 1, 1],
    GoodVoxels := [false, false, false], CrystalStructures := [0, 0],
    FeatureIds := [0, 0, 0], Active := [], ErrorCode := 0 }

/-- Three unassigned elements in a row, all rejected by the mask. -/
def VectorSegmentFeatures.allMasked : VectorSegmentFeatures :=
  { UseGoodVoxels := true, RandomizeFeatureIds := true, AngleTolerance := Flt.fin 1,
    AngleToleranceRad := Flt.fin 0, Vectors := [], GoodVoxels := [false, false, false],
    FeatureIds := [0, 0, 0], Active := [], ErrorCode := 0 }

/-- A search window of 3 by 3 displacements in the XZ plane with slice step 1. -/
def FindRelativeMotionBetweenSlices.windowXZ : FindRelativeMotionBetweenSlices :=
  { Plane := 1, PSize1 := 2, PSize2 := 2, SSize1 := 3, SSize2 := 3, SliceStep := 1 }

/-- The same search window in the XY plane. -/
def FindRelativeMotionBetweenSlices.windowXY : FindRelativeMotionBetweenSlices :=
  { Plane := 0, PSize1 := 2, PSize2 := 2, SSize1 := 3, SSize2 := 3, SliceStep := 1 }

/-- The same search window in the YZ plane. -/
def FindRelativeMotionBetweenSlices.windowYZ : FindRelativeMotionBetweenSlices :=
  { Plane := 2, PSize1 := 2, PSize2 := 2, SSize1 := 3, SSize2 := 3, SliceStep := 1 }

/-- Search sizes 2 by 2 in the XY plane. -/
def FindRelativeMotionBetweenSlices.evenWindow : FindRelativeMotionBetweenSlices :=
  { Plane := 0, PSize1 := 2, PSize2 := 2, SSize1 := 2, SSize2 := 2, SliceStep := 1 }

/-- The sign of the scalar product of two vectors with finite components, NaN otherwise. -/
def dotSign (u v : Vec3) : Flt :=
  match u.x, u.y, u.z, v.x, v.y, v.z with
  | Flt.fin a, Flt.fin b, Flt.fin c, Flt.fin d, Flt.fin e, Flt.fin f =>
    if 0 < a * d + b * e + c * f then Flt.fin 1
    else if a * d + b * e + c * f < 0 then Flt.fin (-1)
    else Flt.fin 0
  | _, _, _, _, _, _ => Flt.nan

/-- Stand-ins for library functions without rounding: the cosine is the sign of the scalar
product, the arc cosine is the line through `acosf(1) = 0` and `acosf(-1) = pi`, and pi is
355 / 113. -/
def SIMPLibMath.exactSample : SIMPLibMath :=
  { CosThetaBetweenVectors := dotSign
    acosf := fun c => Flt.sub (Flt.fin (355 / 226)) (Flt.mul (Flt.fin (355 / 226)) c)
    k_PiD := Flt.fin (2 * (355 / 226))
    k_PiOver2D := Flt.fin (355 / 226) }

/-- Stand-ins for a library whose cosine overshoots 1 by one unit in the last place of a
`float`, and whose arc cosine is NaN outside `[-1, 1]`. -/
def SIMPLibMath.overshoot : SIMPLibMath :=
  { CosThetaBetweenVectors := fun _ _ => Flt.fin (1 + 1 / 8388608)
    acosf := fun c =>
      if Flt.lt c (Flt.fin (-1)) || Flt.lt (Flt.fin 1) c then Flt.nan else Flt.fin 0
    k_PiD := Flt.fin (355 / 113)
    k_PiOver2D := Flt.fin (355 / 226) }

/-- Two unassigned elements with the vectors (0,0,1) and (0,0,-1), no mask, and the angle
tolerance of 1 degree in radians (for pi = 355 / 113). -/
def VectorSegmentFeatures.antiparallel : VectorSegmentFeatures :=
  { UseGoodVoxels := false, RandomizeFeatureIds := false, AngleTolerance := Flt.fin 1,
    AngleToleranceRad := Flt.fin (71 / 4068),
    Vectors := [Flt.fin 0, Flt.fin 0, Flt.fin 1, Flt.fin 0, Flt.fin 0, Flt.fin (-1)],
    GoodVoxels := [], FeatureIds := [0, 0], Active := [true], ErrorCode := 0 }

/-- The state `antiparallel` with the vector of element 0 negated. -/
def VectorSegmentFeatures.antiparallelFlipped : VectorSegmentFeatures :=
  { VectorSegmentFeatures.antiparallel with
    Vectors := [Flt.fin 0, Flt.fin 0, Flt.fin (-1), Flt.fin 0, Flt.fin 0, Flt.fin (-1)] }

/-- The 3 by 3 by 1 grid of the specification: nine unassigned elements of phase 1 with
identical orientations, no mask, tolerance 5 degrees; the one symmetry operator answers the
angle 0 for equal quaternions and 10 degrees in radians otherwise (for pi = 355 / 113). -/
def EBSDSegmentFeatures.uniform9 : EBSDSegmentFeatures :=
  { UseGoodVoxels := false, RandomizeFeatureIds := false,
    MisorientationTolerance := Flt.fin 5, MisoTolerance := Flt.fin 0,
    OrientationOps := [fun q1 q2 => if q1.w = q2.w then Flt.fin 0 else Flt.fin (10 * (71 / 4068))],
    Quats := (List.range 9).flatMap fun _ => [Flt.fin 0, Flt.fin 0, Flt.fin 0, Flt.fin 1],
    CellPhases := List.replicate 9 1, GoodVoxels := [], CrystalStructures := [0, 0],
    FeatureIds := List.replicate 9 0, Active := [], ErrorCode := 0 }

/-- The grid `uniform9` with the orientation of the centre element, index 4, changed, so that
its misorientation to every other element is 10 degrees. -/
def EBSDSegmentFeatures.isolated9 : EBSDSegmentFeatures :=
  { EBSDSegmentFeatures.uniform9 with
    Quats := (List.range 9).flatMap fun i =>
      if i = 4 then [Flt.fin 1, Flt.fin 0, Flt.fin 0, Flt.fin 0]
      else [Flt.fin 0, Flt.fin 0, Flt.fin 0, Flt.fin 1] }

/-- The grid `isolated9` with the relabelling of the feature ids enabled, the default of the
filter. -/
def EBSDSegmentFeatures.isolated9Relabelled : EBSDSegmentFeatures :=
  { EBSDSegmentFeatures.isolated9 with RandomizeFeatureIds := true }

/-- Three elements of feature 1 in center mode with the boundary distances -1, 2, -3. -/
def FindFeatureReferenceMisorientations.mixedDistances :
    FindFeatureReferenceMisorientations :=
  { ReferenceOrientation := 1
    FeatureIds := [1, 1, 1]
    CellPhases := [1, 1, 1]
    CrystalStructures := [0, 0]
    Quats := List.replicate 12 (Flt.fin 0)
    AvgQuats := List.replicate 8 (Flt.fin 0)
    GBEuclideanDistances := [Flt.fin (-1), Flt.fin 2, Flt.fin (-3)]
    FeatureAvgMisorientations := []
    FeatureReferenceMisorientations := [] }

/-- Stand-ins holding the values of the binary32 evaluation at the arguments used in this
development.  `CosThetaBetweenVectors` divides the scalar product by the product of the two
`sqrtf` norms: for unit vectors along the axes the result is exact (1, 0 or -1), and for
(1,0,1) with itself it is `2 / (sqrtf(2) * sqrtf(2)) = 2 / (2 - 2^-23)`, which rounds to
`1 + 2^-23`.  `acosf(1)` is 0, `acosf(-1)` is the `float` nearest to pi, `13176795 / 2^22`,
and `acosf` is NaN above 1 and below -1; other arguments are not used and answer NaN.
`k_PiD` is the `double` nearest to pi, `884279719003555 / 2^48`, and `k_PiOver2D` its
half. -/
def SIMPLibMath.binary32 : SIMPLibMath :=
  { CosThetaBetweenVectors := fun u v =>
      if u = { x := Flt.fin 1, y := Flt.fin 0, z := Flt.fin 1 } ∧
          v = { x := Flt.fin 1, y := Flt.fin 0, z := Flt.fin 1 } then
        Flt.fin (1 + 1 / 8388608)
      else dotSign u v
    acosf := fun c =>
      if c = Flt.fin 1 then Flt.fin 0
      else if c = Flt.fin (-1) then Flt.fin (13176795 / 4194304)
      else Flt.nan
    k_PiD := Flt.fin (884279719003555 / 281474976710656)
    k_PiOver2D := Flt.fin (884279719003555 / 562949953421312) }

/-- Two unassigned elements with the vectors (1,0,1) and (-1,0,-1), no mask, and the angle
tolerance of 1 degree in radians (for pi = 355 / 113). -/
def VectorSegmentFeatures.diagonalAntiparallel : VectorSegmentFeatures :=
  { UseGoodVoxels := false, RandomizeFeatureIds := false, AngleTolerance := Flt.fin 1,
    AngleToleranceRad := Flt.fin (71 / 4068),
    Vectors := [Flt.fin 1, Flt.fin 0, Flt.fin 1, Flt.fin (-1), Flt.fin 0, Flt.fin (-1)],
    GoodVoxels := [], FeatureIds := [0, 0], Active := [true], ErrorCode := 0 }

/-- Two unassigned elements that both carry the vector (1,0,0), no mask, and the angle
tolerance 0. -/
def VectorSegmentFeatures.alignedX : VectorSegmentFeatures :=
  { UseGoodVoxels := false, RandomizeFeatureIds := false, AngleTolerance := Flt.fin 0,
    AngleToleranceRad := Flt.fin 0,
    Vectors := [Flt.fin 1, Flt.fin 0, Flt.fin 0, Flt.fin 1, Flt.fin 0, Flt.fin 0],
    GoodVoxels := [], FeatureIds := [0, 0], Active := [true], ErrorCode := 0 }

/-- The state `alignedX` with the vector of element 0 negated: (-1,0,0). -/
def VectorSegmentFeatures.alignedXFlipped : VectorSegmentFeatures :=
  { VectorSegmentFeatures.alignedX with
    Vectors := [Flt.fin (-1), Flt.fin 0, Flt.fin 0, Flt.fin 1, Flt.fin 0, Flt.fin 0] }

theorem toSizeT_of_nonneg {z : Int} (h0 : 0 ≤ z) (h1 : z < 2 ^ 64) : (toSizeT z : Int) = z := by
  unfold toSizeT
  rw [Int.emod_eq_of_lt h0 h1]
  exact Int.toNat_of_nonneg h0

theorem toSizeT_toInt32_lt_iff {c n : Nat} (hc : c < 2 ^ 32) (hn : n ≤ 2 ^ 31) :
    toSizeT (toInt32 c) < n ↔ c < n := by
  unfold toSizeT toInt32
  have e : c % 2 ^ 32 = c := Nat.mod_eq_of_lt hc
  rw [e]
  norm_num at hc hn ⊢
  split <;> omega

theorem toInt32_toNat_of_lt {c n : Nat} (hn : n ≤ 2 ^ 31) (h : c < n) :
    (toInt32 c).toNat = c := by
  unfold toInt32
  have hc : c < 2 ^ 32 := by
    have : (2 : Nat) ^ 31 < 2 ^ 32 := by norm_num
    omega
  have e : c % 2 ^ 32 = c := Nat.mod_eq_of_lt hc
  rw [e]
  norm_num at hn ⊢
  split <;> omega

theorem length_resizeAttributeArrays (Active : List Bool) (n : Nat) :
    (resizeAttributeArrays Active n).length = n := by
  unfold resizeAttributeArrays
  simp only [List.length_take, List.length_append, List.length_replicate]
  omega

/-! ## Reads and writes of arrays -/

theorem getD_set_self {α : Type} {l : List α} {i : Nat} (h : i < l.length) (a d : α) :
    (l.set i a).getD i d = a := by
  simp [List.getD_eq_getElem?_getD, List.getElem?_set, h]

theorem getD_set_ne {α : Type} {l : List α} {i j : Nat} (h : i ≠ j) (a d : α) :
    (l.set i a).getD j d = l.getD j d := by
  simp [List.getD_eq_getElem?_getD, List.getElem?_set, h]

/-! ## EBSDSegmentFeatures -/

namespace EBSDSegmentFeatures

theorem getSeedLoop_spec (s : EBSDSegmentFeatures) :
    ∀ (fuel randpoint : Nat), s.totalPoints - randpoint ≤ fuel →
      (s.getSeedLoop fuel randpoint = -1 ∧
          ∀ i : Nat, randpoint ≤ i → i < s.totalPoints → ¬ s.Seedable i) ∨
      (∃ i : Nat, s.getSeedLoop fuel randpoint = (i : Int) ∧ randpoint ≤ i ∧ i < s.totalPoints ∧
          s.Seedable i ∧ ∀ j : Nat, randpoint ≤ j → j < i → ¬ s.Seedable j) := by
  intro fuel
  induction fuel with
  | zero =>
    intro randpoint hf
    left
    refine ⟨rfl, ?_⟩
    intro i hi hlt
    omega
  | succ fuel ih =>
    intro randpoint hf
    unfold getSeedLoop
    by_cases hlt : randpoint < s.totalPoints
    · simp only [hlt, if_true]
      have step : ¬ s.Seedable randpoint →
          ((s.getSeedLoop fuel (randpoint + 1) = -1 ∧
            ∀ i : Nat, randpoint ≤ i → i < s.totalPoints → ¬ s.Seedable i) ∨
          (∃ i : Nat, s.getSeedLoop fuel (randpoint + 1) = (i : Int) ∧ randpoint ≤ i ∧
            i < s.totalPoints ∧ s.Seedable i ∧
            ∀ j : Nat, randpoint ≤ j → j < i → ¬ s.Seedable j)) := by
        intro hns
        rcases ih (randpoint + 1) (by omega) with ⟨h1, h2⟩ | ⟨i, h1, h2, h3, h4, h5⟩
        · left
          refine ⟨h1, ?_⟩
          intro i hi hil
          rcases Nat.eq_or_lt_of_le hi with heq | hgt
          · subst heq; exact hns
          · exact h2 i hgt hil
        · right
          refine ⟨i, h1, by omega, h3, h4, ?_⟩
          intro j hj hji
          rcases Nat.eq_or_lt_of_le hj with heq | hgt
          · subst heq; exact hns
          · exact h5 j hgt hji
      by_cases hz : s.FeatureIds.getD randpoint 0 = 0
      · simp only [hz, if_true]
        by_cases hc : ((!s.UseGoodVoxels || s.GoodVoxels.getD randpoint false)
            && decide (s.CellPhases.getD randpoint 0 > 0)) = true
        · simp only [hc, if_true]
          right
          refine ⟨randpoint, rfl, le_refl _, hlt, ?_, ?_⟩
          · simp only [Bool.and_eq_true, Bool.or_eq_true, Bool.not_eq_true', decide_eq_true_eq] at hc
            exact ⟨hz, hc.1, hc.2⟩
          · intro j hj hji
            omega
        · simp only [hc]
          apply step
          intro hs
          apply hc
          simp only [Bool.and_eq_true, Bool.or_eq_true, Bool.not_eq_true', decide_eq_true_eq]
          exact ⟨hs.2.1, hs.2.2⟩
      · simp only [hz, if_false]
        apply step
        intro hs
        exact hz hs.1
    · simp only [hlt, if_false]
      left
      refine ⟨trivial, ?_⟩
      intro i hi hil
      omega

theorem getSeed_snd (s : EBSDSegmentFeatures) (gnum nextSeed : Int) :
    (s.getSeed gnum nextSeed).2 =
      s.getSeedLoop (s.totalPoints - toSizeT nextSeed) (toSizeT nextSeed) := by
  unfold getSeed
  simp only
  split <;> rfl

/-- C1: for every state and every `nextSeed` with `0 ≤ nextSeed` (an `int64_t`, so below
`2^63`), `getSeed` returns the smallest index `i` with `nextSeed ≤ i < totalPoints` whose
element is unassigned, passes the mask test and has a positive phase; it returns `-1` exactly
when there is no such index; and it returns nothing else. -/
theorem getSeed_smallest_seedable (s : EBSDSegmentFeatures) (gnum nextSeed : Int)
    (h0 : 0 ≤ nextSeed) (h1 : nextSeed < 2 ^ 63) :
    (∀ i : Nat, (s.getSeed gnum nextSeed).2 = (i : Int) ↔
        (nextSeed ≤ (i : Int) ∧ i < s.totalPoints ∧ s.Seedable i ∧
          ∀ j : Nat, nextSeed ≤ (j : Int) → j < i → ¬ s.Seedable j)) ∧
    ((s.getSeed gnum nextSeed).2 = -1 ↔
        ¬ ∃ i : Nat, nextSeed ≤ (i : Int) ∧ i < s.totalPoints ∧ s.Seedable i) ∧
    ((s.getSeed gnum nextSeed).2 = -1 ∨ ∃ i : Nat, (s.getSeed gnum nextSeed).2 = (i : Int)) := by
  have hz : (toSizeT nextSeed : Int) = nextSeed := toSizeT_of_nonneg h0 (by omega)
  rw [getSeed_snd]
  rcases getSeedLoop_spec s (s.totalPoints - toSizeT nextSeed) (toSizeT nextSeed) (le_refl _)
    with ⟨hr, hnone⟩ | ⟨k, hr, hk1, hk2, hk3, hk4⟩
  · rw [hr]
    refine ⟨?_, ?_, Or.inl rfl⟩
    · intro i
      constructor
      · intro h; omega
      · rintro ⟨hi1, hi2, hi3, _⟩
        exact absurd hi3 (hnone i (by omega) hi2)
    · constructor
      · rintro _ ⟨i, hi1, hi2, hi3⟩
        exact hnone i (by omega) hi2 hi3
      · intro _; rfl
  · rw [hr]
    refine ⟨?_, ?_, Or.inr ⟨k, rfl⟩⟩
    · intro i
      constructor
      · intro h
        have hik : k = i := by exact_mod_cast h
        subst hik
        refine ⟨by omega, hk2, hk3, ?_⟩
        intro j hj hjk
        exact hk4 j (by omega) hjk
      · rintro ⟨hi1, hi2, hi3, hi4⟩
        rcases Nat.lt_trichotomy k i with hlt | heq | hgt
        · exact absurd hk3 (hi4 k (by omega) hlt)
        · rw [heq]
        · exact absurd hi3 (hk4 i (by omega) hgt)
    · constructor
      · intro h; omega
      · intro h
        exact absurd ⟨k, by omega, hk2, hk3⟩ h

/-- Witness of C1 on `sample`: scanning from index 0, the first seed is element 2. -/
theorem getSeed_smallest_seedable_witness : (sample.getSeed 2 0).2 = 2 := by
  have h := (getSeed_smallest_seedable sample 2 0 (by decide) (by decide)).1 2
  refine h.mpr ⟨by decide, by decide, by decide, ?_⟩
  intro j _ hj
  interval_cases j <;> decide

/-- C2, as stated, fails: with a tolerance of `+infinity` the sentinel `FLT_MAX` that stands
for the angle of two elements of different phases is below the tolerance, and the neighbour
is grouped although `CellPhases[ref] != CellPhases[nbr]`. -/
theorem determineGrouping_iff_counterexample :
    ¬ ((crossPhase.determineGrouping 0 1 7).2 = true ↔
        (crossPhase.crystalStructure 0 < crossPhase.OrientationOps.length ∧
          crossPhase.crystalStructure 1 < crossPhase.OrientationOps.length) ∧
        crossPhase.FeatureIds.getD 1 0 = 0 ∧
        (crossPhase.UseGoodVoxels = false ∨ crossPhase.GoodVoxels.getD 1 false = true) ∧
        crossPhase.CellPhases.getD 0 0 = crossPhase.CellPhases.getD 1 0 ∧
        Flt.lt (crossPhase.misorientation 0 1) crossPhase.MisoTolerance = true) := by
  intro h
  have ht : (crossPhase.determineGrouping 0 1 7).2 = true := by decide
  have hp := (h.mp ht).2.2.2.1
  revert hp
  decide

/-- C2 (amended): whenever the tolerance is not above the `FLT_MAX` sentinel (every tolerance
but `+infinity`), `determineGrouping` returns `true` if and only if the crystal-structure
indices of both elements are inside the operator table, the neighbour is unassigned, the mask
does not reject it, both elements have the same phase, and their misorientation angle is
strictly below the tolerance.  The crystal structures are `uint32_t` values and the table has
at most `2^31` entries. -/
theorem determineGrouping_iff (s : EBSDSegmentFeatures) (referencepoint neighborpoint : Nat)
    (gnum : Int) (hops : s.OrientationOps.length ≤ 2 ^ 31)
    (h1 : s.crystalStructure referencepoint < 2 ^ 32)
    (h2 : s.crystalStructure neighborpoint < 2 ^ 32)
    (htol : Flt.lt fltMax s.MisoTolerance = false) :
    (s.determineGrouping referencepoint neighborpoint gnum).2 = true ↔
      (s.crystalStructure referencepoint < s.OrientationOps.length ∧
        s.crystalStructure neighborpoint < s.OrientationOps.length) ∧
      s.FeatureIds.getD neighborpoint 0 = 0 ∧
      (s.UseGoodVoxels = false ∨ s.GoodVoxels.getD neighborpoint false = true) ∧
      s.CellPhases.getD referencepoint 0 = s.CellPhases.getD neighborpoint 0 ∧
      Flt.lt (s.misorientation referencepoint neighborpoint) s.MisoTolerance = true := by
  have e1 := toSizeT_toInt32_lt_iff h1 hops
  have e2 := toSizeT_toInt32_lt_iff h2 hops
  unfold determineGrouping
  simp only [ge_iff_le]
  by_cases hr : s.crystalStructure referencepoint < s.OrientationOps.length
  · by_cases hn : s.crystalStructure neighborpoint < s.OrientationOps.length
    · have a1 : ¬ (s.OrientationOps.length ≤ toSizeT (toInt32 (s.crystalStructure referencepoint)) ∨
          s.OrientationOps.length ≤ toSizeT (toInt32 (s.crystalStructure neighborpoint))) := by
        have := e1.mpr hr
        have := e2.mpr hn
        omega
      rw [if_neg a1]
      by_cases hz : s.FeatureIds.getD neighborpoint 0 = 0
      · by_cases hm : (!s.UseGoodVoxels || s.GoodVoxels.getD neighborpoint false) = true
        · have hm2 : s.UseGoodVoxels = false ∨ s.GoodVoxels.getD neighborpoint false = true := by
            simpa using hm
          rw [if_pos ⟨hz, hm⟩]
          by_cases hp : s.CellPhases.getD referencepoint 0 = s.CellPhases.getD neighborpoint 0
          · rw [if_pos hp]
            by_cases hw : Flt.lt (s.misorientation referencepoint neighborpoint) s.MisoTolerance = true
            · rw [if_pos hw]
              simp only [true_iff]
              exact ⟨⟨hr, hn⟩, hz, hm2, hp, hw⟩
            · rw [if_neg hw]
              simp only [Bool.false_eq_true, false_iff]
              rintro ⟨_, _, _, _, h⟩
              exact hw h
          · rw [if_neg hp, htol]
            simp only [Bool.false_eq_true, if_false, false_iff]
            rintro ⟨_, _, _, h, _⟩
            exact hp h
        · rw [if_neg (fun h => hm h.2)]
          simp only [Bool.false_eq_true, false_iff]
          rintro ⟨_, _, h, _⟩
          apply hm
          simpa using h
      · rw [if_neg (fun h => hz h.1)]
        simp only [Bool.false_eq_true, false_iff]
        rintro ⟨_, h, _⟩
        exact hz h
    · have a1 : (s.OrientationOps.length ≤ toSizeT (toInt32 (s.crystalStructure referencepoint)) ∨
          s.OrientationOps.length ≤ toSizeT (toInt32 (s.crystalStructure neighborpoint))) := by
        right
        have := mt e2.mp hn
        omega
      rw [if_pos a1]
      simp only [Bool.false_eq_true, false_iff]
      rintro ⟨⟨_, h⟩, _⟩
      exact hn h
  · have a1 : (s.OrientationOps.length ≤ toSizeT (toInt32 (s.crystalStructure referencepoint)) ∨
        s.OrientationOps.length ≤ toSizeT (toInt32 (s.crystalStructure neighborpoint))) := by
      left
      have := mt e1.mp hr
      omega
    rw [if_pos a1]
    simp only [Bool.false_eq_true, false_iff]
    rintro ⟨⟨h, _⟩, _⟩
    exact hr h

/-- Witness of C2 (amended) on `sample`: reference 0 (phase 1) and neighbour 2 (phase 2) are
not grouped under the finite tolerance 1. -/
theorem determineGrouping_iff_witness : (sample.determineGrouping 0 2 1).2 ≠ true := by
  intro h
  have hp := ((determineGrouping_iff sample 0 2 1 (by decide) (by decide) (by decide)
    (by norm_num [fltMax, sample, Flt.lt])).mp h).2.2.2.1
  revert hp
  decide

/-- The two outcomes of `determineGrouping`: nothing changes and `false` is returned, or the
neighbour was unassigned and accepted by the mask, is stamped with `gnum`, and `true` is
returned. -/
theorem determineGrouping_cases (s : EBSDSegmentFeatures) (referencepoint neighborpoint : Nat)
    (gnum : Int) :
    s.determineGrouping referencepoint neighborpoint gnum = (s, false) ∨
    (s.FeatureIds.getD neighborpoint 0 = 0 ∧
      (s.UseGoodVoxels = false ∨ s.GoodVoxels.getD neighborpoint false = true) ∧
      s.determineGrouping referencepoint neighborpoint gnum =
        ({ s with FeatureIds := s.FeatureIds.set neighborpoint gnum }, true)) := by
  unfold determineGrouping
  simp only
  generalize (if s.CellPhases.getD referencepoint 0 = s.CellPhases.getD neighborpoint 0 then
      s.misorientation referencepoint neighborpoint else fltMax) = w
  split
  · exact Or.inl rfl
  · split
    · rename_i h
      split
      · exact Or.inr ⟨h.1, by simpa using h.2, rfl⟩
      · exact Or.inl rfl
    · exact Or.inl rfl

/-- The two outcomes of `getSeed`: no seed and only the error code cleared, or the least
seedable index from `nextSeed` on, stamped with `gnum`, with the feature arrays resized. -/
theorem getSeed_cases (s : EBSDSegmentFeatures) (gnum nextSeed : Int) :
    ((s.getSeed gnum nextSeed).2 = -1 ∧ (s.getSeed gnum nextSeed).1 = { s with ErrorCode := 0 } ∧
        ∀ i : Nat, toSizeT nextSeed ≤ i → i < s.totalPoints → ¬ s.Seedable i) ∨
    (∃ i : Nat, (s.getSeed gnum nextSeed).2 = (i : Int) ∧ toSizeT nextSeed ≤ i ∧
        i < s.totalPoints ∧ s.Seedable i ∧
        (∀ j : Nat, toSizeT nextSeed ≤ j → j < i → ¬ s.Seedable j) ∧
        (s.getSeed gnum nextSeed).1 =
          { s with FeatureIds := s.FeatureIds.set i gnum,
                   Active := resizeAttributeArrays s.Active (toSizeT (gnum + 1)),
                   ErrorCode := 0 }) := by
  unfold getSeed
  simp only
  rcases getSeedLoop_spec s (s.totalPoints - toSizeT nextSeed) (toSizeT nextSeed) (le_refl _)
    with ⟨hr, hnone⟩ | ⟨k, hr, hk1, hk2, hk3, hk4⟩
  · left
    rw [hr]
    exact ⟨rfl, rfl, hnone⟩
  · right
    rw [hr]
    have hk0 : (k : Int) ≥ 0 := Int.natCast_nonneg k
    refine ⟨k, ?_, hk1, hk2, hk3, hk4, ?_⟩
    · rw [if_pos hk0]
    · rw [if_pos hk0]
      simp only [Int.toNat_ofNat]

end EBSDSegmentFeatures

/-! ## VectorSegmentFeatures -/

namespace VectorSegmentFeatures

theorem vec_getSeedLoop_spec (s : VectorSegmentFeatures) :
    ∀ (fuel randpoint : Nat), s.totalPoints - randpoint ≤ fuel →
      (s.getSeedLoop fuel randpoint = -1 ∧
          ∀ i : Nat, randpoint ≤ i → i < s.totalPoints → ¬ s.Seedable i) ∨
      (∃ i : Nat, s.getSeedLoop fuel randpoint = (i : Int) ∧ randpoint ≤ i ∧ i < s.totalPoints ∧
          s.Seedable i ∧ ∀ j : Nat, randpoint ≤ j → j < i → ¬ s.Seedable j) := by
  intro fuel
  induction fuel with
  | zero =>
    intro randpoint hf
    left
    refine ⟨rfl, ?_⟩
    intro i hi hlt
    omega
  | succ fuel ih =>
    intro randpoint hf
    unfold getSeedLoop
    by_cases hlt : randpoint < s.totalPoints
    · simp only [hlt, if_true]
      have step : ¬ s.Seedable randpoint →
          ((s.getSeedLoop fuel (randpoint + 1) = -1 ∧
            ∀ i : Nat, randpoint ≤ i → i < s.totalPoints → ¬ s.Seedable i) ∨
          (∃ i : Nat, s.getSeedLoop fuel (randpoint + 1) = (i : Int) ∧ randpoint ≤ i ∧
            i < s.totalPoints ∧ s.Seedable i ∧
            ∀ j : Nat, randpoint ≤ j → j < i → ¬ s.Seedable j)) := by
        intro hns
        rcases ih (randpoint + 1) (by omega) with ⟨h1, h2⟩ | ⟨i, h1, h2, h3, h4, h5⟩
        · left
          refine ⟨h1, ?_⟩
          intro i hi hil
          rcases Nat.eq_or_lt_of_le hi with heq | hgt
          · subst heq; exact hns
          · exact h2 i hgt hil
        · right
          refine ⟨i, h1, by omega, h3, h4, ?_⟩
          intro j hj hji
          rcases Nat.eq_or_lt_of_le hj with heq | hgt
          · subst heq; exact hns
          · exact h5 j hgt hji
      by_cases hz : s.FeatureIds.getD randpoint 0 = 0
      · simp only [hz, if_true]
        by_cases hc : (!s.UseGoodVoxels || s.GoodVoxels.getD randpoint false) = true
        · simp only [hc, if_true]
          right
          refine ⟨randpoint, rfl, le_refl _, hlt, ?_, ?_⟩
          · simp only [Bool.or_eq_true, Bool.not_eq_true'] at hc
            exact ⟨hz, hc⟩
          · intro j hj hji
            omega
        · simp only [hc]
          apply step
          intro hs
          apply hc
          simp only [Bool.or_eq_true, Bool.not_eq_true']
          exact hs.2
      · simp only [hz, if_false]
        apply step
        intro hs
        exact hz hs.1
    · simp only [hlt, if_false]
      left
      refine ⟨trivial, ?_⟩
      intro i hi hil
      omega

/-- The two outcomes of `VectorSegmentFeatures::getSeed`. -/
theorem vec_getSeed_cases (s : VectorSegmentFeatures) (gnum nextSeed : Int) :
    ((s.getSeed gnum nextSeed).2 = -1 ∧ (s.getSeed gnum nextSeed).1 = { s with ErrorCode := 0 } ∧
        ∀ i : Nat, toSizeT nextSeed ≤ i → i < s.totalPoints → ¬ s.Seedable i) ∨
    (∃ i : Nat, (s.getSeed gnum nextSeed).2 = (i : Int) ∧ toSizeT nextSeed ≤ i ∧
        i < s.totalPoints ∧ s.Seedable i ∧
        (∀ j : Nat, toSizeT nextSeed ≤ j → j < i → ¬ s.Seedable j) ∧
        (s.getSeed gnum nextSeed).1 =
          { s with FeatureIds := s.FeatureIds.set i gnum,
                   Active := resizeAttributeArrays s.Active (toSizeT (gnum + 1)),
                   ErrorCode := 0 }) := by
  unfold getSeed
  simp only
  rcases vec_getSeedLoop_spec s (s.totalPoints - toSizeT nextSeed) (toSizeT nextSeed) (le_refl _)
    with ⟨hr, hnone⟩ | ⟨k, hr, hk1, hk2, hk3, hk4⟩
  · left
    rw [hr]
    exact ⟨rfl, rfl, hnone⟩
  · right
    rw [hr]
    have hk0 : (k : Int) ≥ 0 := Int.natCast_nonneg k
    refine ⟨k, ?_, hk1, hk2, hk3, hk4, ?_⟩
    · rw [if_pos hk0]
    · rw [if_pos hk0]
      simp only [Int.toNat_ofNat]

/-- C3: `VectorSegmentFeatures::determineGrouping` returns `true` if and only if the neighbour
is unassigned, the mask does not reject it, and the folded angle
`fold (acosf (CosThetaBetweenVectors (p v_ref) (p v_nbr)))` is strictly below
`AngleToleranceRad`, where `p = polarity` negates a vector exactly when its third component is
negative and `fold w` is `pi - w` when `w > pi / 2` and `w` otherwise. -/
theorem determineGrouping_iff_folded_angle (m : SIMPLibMath) (s : VectorSegmentFeatures)
    (referencepoint neighborpoint : Nat) (gnum : Int) :
    (determineGrouping m s referencepoint neighborpoint gnum).2 = true ↔
      s.FeatureIds.getD neighborpoint 0 = 0 ∧
      (s.UseGoodVoxels = false ∨ s.GoodVoxels.getD neighborpoint false = true) ∧
      Flt.lt
        (fold m (m.acosf (m.CosThetaBetweenVectors (polarity (vecAt s.Vectors referencepoint))
          (polarity (vecAt s.Vectors neighborpoint)))))
        s.AngleToleranceRad = true := by
  have hangle : groupingAngle m s referencepoint neighborpoint =
      fold m (m.acosf (m.CosThetaBetweenVectors (polarity (vecAt s.Vectors referencepoint))
          (polarity (vecAt s.Vectors neighborpoint)))) := rfl
  rw [← hangle]
  unfold determineGrouping
  by_cases hz : s.FeatureIds.getD neighborpoint 0 = 0
  · by_cases hm : (!s.UseGoodVoxels || s.GoodVoxels.getD neighborpoint false) = true
    · have hm2 : s.UseGoodVoxels = false ∨ s.GoodVoxels.getD neighborpoint false = true := by
        simpa using hm
      rw [if_pos ⟨hz, hm⟩]
      by_cases hw : Flt.lt (groupingAngle m s referencepoint neighborpoint)
          s.AngleToleranceRad = true
      · rw [if_pos hw]
        simp only [true_iff]
        exact ⟨hz, hm2, hw⟩
      · rw [if_neg hw]
        simp only [Bool.false_eq_true, false_iff]
        rintro ⟨_, _, h⟩
        exact hw h
    · rw [if_neg (fun h => hm h.2)]
      simp only [Bool.false_eq_true, false_iff]
      rintro ⟨_, h, _⟩
      apply hm
      simpa using h
  · rw [if_neg (fun h => hz h.1)]
    simp only [Bool.false_eq_true, false_iff]
    rintro ⟨h, _⟩
    exact hz h

/-- The two outcomes of `VectorSegmentFeatures::determineGrouping`. -/
theorem vec_determineGrouping_cases (m : SIMPLibMath) (s : VectorSegmentFeatures)
    (referencepoint neighborpoint : Nat) (gnum : Int) :
    s.determineGrouping m referencepoint neighborpoint gnum = (s, false) ∨
    (s.FeatureIds.getD neighborpoint 0 = 0 ∧
      (s.UseGoodVoxels = false ∨ s.GoodVoxels.getD neighborpoint false = true) ∧
      s.determineGrouping m referencepoint neighborpoint gnum =
        ({ s with FeatureIds := s.FeatureIds.set neighborpoint gnum }, true)) := by
  unfold determineGrouping
  split
  · rename_i h
    split
    · exact Or.inr ⟨h.1, by simpa using h.2, rfl⟩
    · exact Or.inl rfl
  · exact Or.inl rfl

end VectorSegmentFeatures

/-! ## Frame conditions of both segmenters -/

/-- C4: for both segmenters, when `determineGrouping` returns `true` the neighbour was
unassigned (`FeatureIds[nbr] == 0`) and the new feature ids are the old ones with `gnum`
written at index `nbr`; when it returns `false` the feature ids are unchanged; and in every
case every entry other than `nbr` keeps its value. -/
theorem determineGrouping_frame (m : SIMPLibMath) (se : EBSDSegmentFeatures)
    (sv : VectorSegmentFeatures) (referencepoint neighborpoint : Nat) (gnum : Int) :
    (((se.determineGrouping referencepoint neighborpoint gnum).2 = true →
        se.FeatureIds.getD neighborpoint 0 = 0 ∧
        (se.determineGrouping referencepoint neighborpoint gnum).1.FeatureIds =
          se.FeatureIds.set neighborpoint gnum) ∧
      ((se.determineGrouping referencepoint neighborpoint gnum).2 = false →
        (se.determineGrouping referencepoint neighborpoint gnum).1.FeatureIds = se.FeatureIds) ∧
      (∀ i : Nat, i ≠ neighborpoint →
        (se.determineGrouping referencepoint neighborpoint gnum).1.FeatureIds.getD i 0 =
          se.FeatureIds.getD i 0)) ∧
    (((sv.determineGrouping m referencepoint neighborpoint gnum).2 = true →
        sv.FeatureIds.getD neighborpoint 0 = 0 ∧
        (sv.determineGrouping m referencepoint neighborpoint gnum).1.FeatureIds =
          sv.FeatureIds.set neighborpoint gnum) ∧
      ((sv.determineGrouping m referencepoint neighborpoint gnum).2 = false →
        (sv.determineGrouping m referencepoint neighborpoint gnum).1.FeatureIds = sv.FeatureIds) ∧
      (∀ i : Nat, i ≠ neighborpoint →
        (sv.determineGrouping m referencepoint neighborpoint gnum).1.FeatureIds.getD i 0 =
          sv.FeatureIds.getD i 0)) := by
  constructor
  · rcases se.determineGrouping_cases referencepoint neighborpoint gnum with h | ⟨hz, _, h⟩
    · rw [h]
      simp
    · rw [h]
      refine ⟨fun _ => ⟨hz, rfl⟩, fun h => by simp at h, ?_⟩
      intro i hi
      exact getD_set_ne (Ne.symm hi) _ _
  · rcases sv.vec_determineGrouping_cases m referencepoint neighborpoint gnum with h | ⟨hz, _, h⟩
    · rw [h]
      simp
    · rw [h]
      refine ⟨fun _ => ⟨hz, rfl⟩, fun h => by simp at h, ?_⟩
      intro i hi
      exact getD_set_ne (Ne.symm hi) _ _

/-- C5: for both segmenters and every feature id `gnum` with `0 ≤ gnum` and `gnum + 1` in the
`int32_t` range, when `getSeed` returns a seed `s ≥ 0` then `s` is an element index, afterwards
`FeatureIds[s] == gnum`, every other entry is unchanged and `Active` has exactly `gnum + 1`
tuples; when it returns `-1` the feature ids and the size of `Active` are unchanged. -/
theorem getSeed_frame (se : EBSDSegmentFeatures) (sv : VectorSegmentFeatures)
    (gnum nextSeed : Int) (hg0 : 0 ≤ gnum) (hg1 : gnum + 1 < 2 ^ 31) :
    ((0 ≤ (se.getSeed gnum nextSeed).2 →
        (se.getSeed gnum nextSeed).2.toNat < se.totalPoints ∧
        (se.getSeed gnum nextSeed).1.FeatureIds.getD (se.getSeed gnum nextSeed).2.toNat 0 = gnum ∧
        (∀ j : Nat, j ≠ (se.getSeed gnum nextSeed).2.toNat →
          (se.getSeed gnum nextSeed).1.FeatureIds.getD j 0 = se.FeatureIds.getD j 0) ∧
        ((se.getSeed gnum nextSeed).1.Active.length : Int) = gnum + 1) ∧
      ((se.getSeed gnum nextSeed).2 = -1 →
        (se.getSeed gnum nextSeed).1.FeatureIds = se.FeatureIds ∧
        (se.getSeed gnum nextSeed).1.Active.length = se.Active.length)) ∧
    ((0 ≤ (sv.getSeed gnum nextSeed).2 →
        (sv.getSeed gnum nextSeed).2.toNat < sv.totalPoints ∧
        (sv.getSeed gnum nextSeed).1.FeatureIds.getD (sv.getSeed gnum nextSeed).2.toNat 0 = gnum ∧
        (∀ j : Nat, j ≠ (sv.getSeed gnum nextSeed).2.toNat →
          (sv.getSeed gnum nextSeed).1.FeatureIds.getD j 0 = sv.FeatureIds.getD j 0) ∧
        ((sv.getSeed gnum nextSeed).1.Active.length : Int) = gnum + 1) ∧
      ((sv.getSeed gnum nextSeed).2 = -1 →
        (sv.getSeed gnum nextSeed).1.FeatureIds = sv.FeatureIds ∧
        (sv.getSeed gnum nextSeed).1.Active.length = sv.Active.length)) := by
  have hsz : (toSizeT (gnum + 1) : Int) = gnum + 1 :=
    toSizeT_of_nonneg (by omega) (by omega)
  constructor
  · rcases se.getSeed_cases gnum nextSeed with ⟨hr, hs, _⟩ | ⟨i, hr, _, hi, _, _, hs⟩
    · rw [hr, hs]
      exact ⟨fun h => absurd h (by decide), fun _ => ⟨rfl, rfl⟩⟩
    · rw [hr, hs]
      refine ⟨fun _ => ?_, fun h => by omega⟩
      simp only [Int.toNat_ofNat]
      refine ⟨hi, getD_set_self hi _ _, fun j hj => getD_set_ne (Ne.symm hj) _ _, ?_⟩
      rw [length_resizeAttributeArrays]
      exact hsz
  · rcases sv.vec_getSeed_cases gnum nextSeed with ⟨hr, hs, _⟩ | ⟨i, hr, _, hi, _, _, hs⟩
    · rw [hr, hs]
      exact ⟨fun h => absurd h (by decide), fun _ => ⟨rfl, rfl⟩⟩
    · rw [hr, hs]
      refine ⟨fun _ => ?_, fun h => by omega⟩
      simp only [Int.toNat_ofNat]
      refine ⟨hi, getD_set_self hi _ _, fun j hj => getD_set_ne (Ne.symm hj) _ _, ?_⟩
      rw [length_resizeAttributeArrays]
      exact hsz

/-- Witness of C5: on the two sample states `getSeed 2 0` stamps element 2 (orientation
segmenter) and element 1 (vector segmenter), and `Active` gets 3 tuples. -/
theorem getSeed_frame_witness :
    (EBSDSegmentFeatures.sample.getSeed 2 0).1.FeatureIds = [1, 0, 2] ∧
    ((EBSDSegmentFeatures.sample.getSeed 2 0).1.Active.length : Int) = 2 + 1 ∧
    ((VectorSegmentFeatures.sample.getSeed 2 0).1.Active.length : Int) = 2 + 1 :=
  ⟨by decide,
   ((getSeed_frame EBSDSegmentFeatures.sample VectorSegmentFeatures.sample 2 0 (by decide)
      (by decide)).1.1 (by decide)).2.2.2,
   ((getSeed_frame EBSDSegmentFeatures.sample VectorSegmentFeatures.sample 2 0 (by decide)
      (by decide)).2.1 (by decide)).2.2.2⟩

/-! ## Random relabelling -/

theorem swap_perm (l : List Int) {i r : Nat} (hi : i < l.length) (hr : r < l.length) :
    ((l.set i (l.getD r 0)).set r (l.getD i 0)).Perm l := by
  rw [List.getD_eq_getElem l 0 hi, List.getD_eq_getElem l 0 hr]
  rw [List.perm_iff_count]
  intro b
  have hr' : r < (l.set i l[r]).length := by simpa using hr
  rw [List.count_set _ _ _ _ hr', List.count_set _ _ _ _ hi]
  have e : (l.set i l[r])[r] = l[r] := by
    rw [List.getElem_set]
    split <;> rfl
  rw [e]
  have hci : l[i] = b → 1 ≤ l.count b := by
    intro h
    exact List.count_pos_iff.mpr (h ▸ List.getElem_mem hi)
  simp only [beq_iff_eq]
  split_ifs <;> omega

theorem foldl_invariant {α β : Type} (P : β → Prop) (f : β → α → β) (l : List α) (b : β)
    (hb : P b) (hstep : ∀ x ∈ l, ∀ c, P c → P (f c x)) : P (l.foldl f b) := by
  induction l generalizing b with
  | nil => exact hb
  | cons x xs ih =>
    simp only [List.foldl_cons]
    apply ih
    · exact hstep x (List.mem_cons_self _ _) b hb
    · intro y hy c hc
      exact hstep y (List.mem_cons_of_mem _ hy) c hc

theorem getElem?_foldl_set_range' (f : Nat → Int) (n : Nat) (g : List Int) (j : Nat) :
    ((List.range' 1 n).foldl (fun gid i => gid.set i (f i)) g)[j]? =
      if 1 ≤ j ∧ j < 1 + n ∧ j < g.length then some (f j) else g[j]? := by
  induction n with
  | zero =>
    simp only [List.range'_zero, List.foldl_nil]
    rw [if_neg (by omega)]
  | succ n ih =>
    rw [List.range'_concat, List.foldl_append]
    simp only [List.foldl_cons, List.foldl_nil, one_mul]
    rw [List.getElem?_set]
    have hlen : ((List.range' 1 n).foldl (fun gid i => gid.set i (f i)) g).length = g.length :=
      foldl_invariant (fun c : List Int => c.length = g.length) _ _ _ rfl
        (fun x _ c hc => by simpa using hc)
    rw [hlen, ih]
    by_cases hj : 1 + n = j
    · subst hj
      rw [if_pos rfl]
      by_cases hl : 1 + n < g.length
      · rw [if_pos hl, if_pos (by omega)]
      · rw [if_neg hl, if_neg (by omega)]
        exact (List.getElem?_eq_none (by omega)).symm
    · rw [if_neg hj]
      by_cases h1 : 1 ≤ j ∧ j < 1 + n ∧ j < g.length
      · rw [if_pos h1, if_pos (by omega)]
      · rw [if_neg h1, if_neg (by omega)]

theorem gidInit_eq (tf : Nat) : gidInit tf = (List.range tf).map Int.ofNat := by
  apply List.ext_getElem?
  intro j
  unfold gidInit
  rw [getElem?_foldl_set_range']
  simp only [List.length_set, List.length_replicate, List.getElem?_map]
  by_cases hj : j < tf
  · rw [List.getElem?_range hj]
    by_cases h0 : j = 0
    · subst h0
      simp [List.getElem?_set, hj]
    · rw [if_pos (by omega)]
      rfl
  · rw [if_neg (by omega)]
    rw [List.getElem?_eq_none (by simpa using hj), List.getElem?_eq_none (by simpa using hj)]
    rfl

theorem shuffleStep_perm (tf : Nat) (gid : List Int) (i : Nat) (r : Int)
    (hlen : gid.length = tf) (hi : i < tf) (hr : 0 ≤ r) :
    (shuffleStep tf gid i r).Perm gid := by
  unfold shuffleStep
  split
  · exact List.Perm.refl _
  · rename_i h
    have hr2 : r.toNat < gid.length := by omega
    exact swap_perm gid (by omega) hr2

theorem shuffleStep_zero (tf : Nat) (gid : List Int) (i : Nat) (r : Int)
    (hi : 1 ≤ i) (hr : 1 ≤ r) : (shuffleStep tf gid i r)[0]? = gid[0]? := by
  unfold shuffleStep
  split
  · rfl
  · simp only
    rw [List.getElem?_set, if_neg (by omega), List.getElem?_set, if_neg (by omega)]

theorem shuffledGid_spec (draw : Nat → Int) (tf : Nat)
    (hdraw : ∀ i : Nat, 1 ≤ i → i < tf → 1 ≤ draw i ∧ draw i ≤ (tf : Int) - 1) :
    (shuffledGid draw tf).Perm ((List.range tf).map Int.ofNat) ∧
    (shuffledGid draw tf).length = tf ∧
    (shuffledGid draw tf)[0]? = ((List.range tf).map Int.ofNat)[0]? := by
  unfold shuffledGid
  apply foldl_invariant (fun g : List Int => g.Perm ((List.range tf).map Int.ofNat) ∧
    g.length = tf ∧ g[0]? = ((List.range tf).map Int.ofNat)[0]?)
  · rw [gidInit_eq]
    exact ⟨List.Perm.refl _, by simp, rfl⟩
  · intro i hi c ⟨hp, hl, h0⟩
    rw [List.mem_range'] at hi
    obtain ⟨k, hk, rfl⟩ := hi
    have hd := hdraw (1 + 1 * k) (by omega) (by omega)
    have hpstep := shuffleStep_perm tf c (1 + 1 * k) (draw (1 + 1 * k)) hl (by omega) (by omega)
    refine ⟨hpstep.trans hp, ?_, ?_⟩
    · rw [hpstep.length_eq, hl]
    · rw [shuffleStep_zero tf c _ _ (by omega) hd.1, h0]

theorem getElem?_remapFeatureIds (gid : List Int) (n : Nat) (ids : List Int) :
    ∀ j : Nat, (remapFeatureIds gid n ids)[j]? =
      if j < n then (ids[j]?).map (fun v => gid.getD v.toNat 0) else ids[j]? := by
  unfold remapFeatureIds
  induction n with
  | zero => simp
  | succ n ih =>
    intro j
    rw [List.range_succ, List.foldl_append]
    simp only [List.foldl_cons, List.foldl_nil]
    have hn := ih n
    rw [if_neg (lt_irrefl n)] at hn
    have hlen : ((List.range n).foldl
        (fun ids i => ids.set i (gid.getD (ids.getD i 0).toNat 0)) ids).length = ids.length :=
      foldl_invariant (fun c : List Int => c.length = ids.length) _ _ _ rfl
        (fun x _ c hc => by simpa using hc)
    have hgetD : ((List.range n).foldl
        (fun ids i => ids.set i (gid.getD (ids.getD i 0).toNat 0)) ids).getD n 0 =
          ids.getD n 0 := by
      rw [List.getD_eq_getElem?_getD, hn, ← List.getD_eq_getElem?_getD]
    rw [List.getElem?_set, hlen, ih j, hgetD]
    by_cases hj : n = j
    · subst hj
      rw [if_pos rfl, if_pos (Nat.lt_succ_self n)]
      by_cases hl : n < ids.length
      · rw [if_pos hl, List.getElem?_eq_getElem hl, List.getD_eq_getElem ids 0 hl]
        rfl
      · rw [if_neg hl, List.getElem?_eq_none (by omega)]
        rfl
    · rw [if_neg hj]
      by_cases h1 : j < n
      · rw [if_pos h1, if_pos (by omega)]
      · rw [if_neg h1, if_neg (by omega)]

theorem randomizeIds_eq_map (draw : Nat → Int) (tf : Nat) (ids : List Int) :
    randomizeIds draw ids.length tf ids =
      ids.map (fun v => (shuffledGid draw tf).getD v.toNat 0) := by
  apply List.ext_getElem?
  intro j
  unfold randomizeIds
  rw [getElem?_remapFeatureIds, List.getElem?_map]
  by_cases hj : j < ids.length
  · rw [if_pos hj]
  · rw [if_neg hj, List.getElem?_eq_none (by omega)]
    rfl

/-- Properties of a relabelling table that is a permutation of `0 .. tf-1` fixing 0. -/
theorem relabel_props (gid : List Int) (tf : Nat)
    (hp : gid.Perm ((List.range tf).map Int.ofNat)) (hl : gid.length = tf)
    (h0 : gid[0]? = ((List.range tf).map Int.ofNat)[0]?) :
    gid.getD (0 : Int).toNat 0 = 0 ∧
    (∀ v : Int, 0 ≤ v → v < tf → 0 ≤ gid.getD v.toNat 0 ∧ gid.getD v.toNat 0 < tf) ∧
    (∀ v w : Int, 0 ≤ v → v < tf → 0 ≤ w → w < tf →
      gid.getD v.toNat 0 = gid.getD w.toNat 0 → v = w) ∧
    (∀ k : Int, 0 ≤ k → k < tf → ∃ v : Int, 0 ≤ v ∧ v < tf ∧ gid.getD v.toNat 0 = k) := by
  have hnd : gid.Nodup := by
    rw [hp.nodup_iff]
    exact (List.nodup_range tf).map (fun a b h => by simpa using h)
  have hmem : ∀ x : Int, x ∈ gid ↔ 0 ≤ x ∧ x < tf := by
    intro x
    rw [hp.mem_iff, List.mem_map]
    constructor
    · rintro ⟨a, ha, rfl⟩
      rw [List.mem_range] at ha
      exact ⟨Int.natCast_nonneg a, Int.ofNat_lt.mpr ha⟩
    · rintro ⟨hx0, hx1⟩
      refine ⟨x.toNat, ?_, ?_⟩
      · rw [List.mem_range]; omega
      · exact Int.toNat_of_nonneg hx0
  refine ⟨?_, ?_, ?_, ?_⟩
  · rw [List.getD_eq_getElem?_getD]
    show (gid[0]?).getD 0 = 0
    rw [h0]
    cases tf with
    | zero => rfl
    | succ n => simp [List.getElem?_range]
  · intro v hv0 hv1
    have hv : v.toNat < gid.length := by omega
    rw [List.getD_eq_getElem gid 0 hv]
    exact (hmem _).mp (List.getElem_mem hv)
  · intro v w hv0 hv1 hw0 hw1 h
    have hv : v.toNat < gid.length := by omega
    have hw : w.toNat < gid.length := by omega
    rw [List.getD_eq_getElem gid 0 hv, List.getD_eq_getElem gid 0 hw] at h
    have := (hnd.getElem_inj_iff).mp h
    omega
  · intro k hk0 hk1
    obtain ⟨n, hn, hnk⟩ := List.mem_iff_getElem.mp ((hmem k).mpr ⟨hk0, hk1⟩)
    refine ⟨(n : Int), Int.natCast_nonneg n, by omega, ?_⟩
    rw [Int.toNat_ofNat, List.getD_eq_getElem gid 0 hn]
    exact hnk


/-- C9: for every `totalFeatures ≥ 2` and every sequence of draws, each within
`[1, totalFeatures - 1]`, the table `gid` after the swap loop of `randomizeFeatureIds` is a
permutation of `0, ..., totalFeatures - 1`, and `gid[0] == 0`. -/
theorem shuffledGid_permutation (draw : Nat → Int) (totalFeatures : Nat)
    (htf : 2 ≤ totalFeatures)
    (hdraw : ∀ i : Nat, 1 ≤ i → i < totalFeatures →
      1 ≤ draw i ∧ draw i ≤ (totalFeatures : Int) - 1) :
    (shuffledGid draw totalFeatures).Perm ((List.range totalFeatures).map Int.ofNat) ∧
    (shuffledGid draw totalFeatures)[0]? = some 0 := by
  obtain ⟨hp, _, h0⟩ := shuffledGid_spec draw totalFeatures hdraw
  refine ⟨hp, ?_⟩
  rw [h0, List.getElem?_map, List.getElem?_range (by omega)]
  rfl

/-- Witness of C9: three features and the draws 2, 2. -/
theorem shuffledGid_permutation_witness :
    (shuffledGid (fun _ => 2) 3).Perm [0, 1, 2] ∧ (shuffledGid (fun _ => 2) 3)[0]? = some 0 :=
  shuffledGid_permutation (fun _ => 2) 3 (by decide)
    (fun _ _ _ => ⟨by norm_num, by norm_num⟩)

/-- C10: `randomizeFeatureIds` of either filter replaces the feature ids by `randomizeIds`;
for every feature-id array whose values all lie in `[0, totalFeatures)` and every sequence of
draws (each within `[1, totalFeatures - 1]`), after the relabelling of all elements
(a) an element is 0 exactly when it was 0 before, (b) two elements carry the same id exactly
when they did before, and (c) if the non-zero ids present before were exactly
`1 .. totalFeatures - 1`, the non-zero ids present afterwards are exactly those again. -/
theorem randomizeFeatureIds_topology (draw : Nat → Int) (totalFeatures : Nat)
    (ids : List Int)
    (hdraw : ∀ i : Nat, 1 ≤ i → i < totalFeatures →
      1 ≤ draw i ∧ draw i ≤ (totalFeatures : Int) - 1)
    (hids : ∀ v ∈ ids, 0 ≤ v ∧ v < (totalFeatures : Int)) :
    (∀ (s : EBSDSegmentFeatures) (totalPoints : Nat),
      (s.randomizeFeatureIds draw totalPoints totalFeatures).FeatureIds =
        randomizeIds draw totalPoints totalFeatures s.FeatureIds) ∧
    (∀ (s : VectorSegmentFeatures) (totalPoints : Nat),
      (s.randomizeFeatureIds draw totalPoints totalFeatures).FeatureIds =
        randomizeIds draw totalPoints totalFeatures s.FeatureIds) ∧
    (randomizeIds draw ids.length totalFeatures ids).length = ids.length ∧
    (∀ i : Nat, i < ids.length →
      ((randomizeIds draw ids.length totalFeatures ids).getD i 0 = 0 ↔ ids.getD i 0 = 0)) ∧
    (∀ i j : Nat, i < ids.length → j < ids.length →
      ((randomizeIds draw ids.length totalFeatures ids).getD i 0 =
          (randomizeIds draw ids.length totalFeatures ids).getD j 0 ↔
        ids.getD i 0 = ids.getD j 0)) ∧
    ((∀ k : Int, (1 ≤ k ∧ k < (totalFeatures : Int)) ↔ (k ≠ 0 ∧ k ∈ ids)) →
      ∀ k : Int, (1 ≤ k ∧ k < (totalFeatures : Int)) ↔
        (k ≠ 0 ∧ k ∈ randomizeIds draw ids.length totalFeatures ids)) := by
  obtain ⟨hp, hl, h0⟩ := shuffledGid_spec draw totalFeatures hdraw
  obtain ⟨f0, frange, finj, fsurj⟩ := relabel_props _ totalFeatures hp hl h0
  have hmap := randomizeIds_eq_map draw totalFeatures ids
  have hget : ∀ i : Nat, i < ids.length →
      (randomizeIds draw ids.length totalFeatures ids).getD i 0 =
        (shuffledGid draw totalFeatures).getD (ids.getD i 0).toNat 0 := by
    intro i hi
    rw [hmap, List.getD_eq_getElem _ 0 (by simpa using hi), List.getD_eq_getElem ids 0 hi,
      List.getElem_map]
  have hin : ∀ i : Nat, i < ids.length →
      0 ≤ ids.getD i 0 ∧ ids.getD i 0 < (totalFeatures : Int) := by
    intro i hi
    rw [List.getD_eq_getElem ids 0 hi]
    exact hids _ (List.getElem_mem hi)
  refine ⟨fun _ _ => rfl, fun _ _ => rfl, ?_, ?_, ?_, ?_⟩
  · rw [hmap, List.length_map]
  · intro i hi
    rw [hget i hi]
    constructor
    · intro h
      have hz : (0 : Int) < totalFeatures := lt_of_le_of_lt (hin i hi).1 (hin i hi).2
      exact finj _ 0 (hin i hi).1 (hin i hi).2 (le_refl 0) hz (h.trans f0.symm)
    · intro h
      rw [h]
      exact f0
  · intro i j hi hj
    rw [hget i hi, hget j hj]
    constructor
    · exact finj _ _ (hin i hi).1 (hin i hi).2 (hin j hj).1 (hin j hj).2
    · intro h
      rw [h]
  · intro hall k
    constructor
    · rintro ⟨hk1, hk2⟩
      refine ⟨by omega, ?_⟩
      obtain ⟨v, hv0, hv1, hv⟩ := fsurj k (by omega) hk2
      have hvne : v ≠ 0 := by
        rintro rfl
        rw [f0] at hv
        omega
      have hvmem : v ∈ ids := ((hall v).mp ⟨by omega, hv1⟩).2
      rw [hmap, List.mem_map]
      exact ⟨v, hvmem, hv⟩
    · rintro ⟨hk0, hk⟩
      rw [hmap, List.mem_map] at hk
      obtain ⟨v, hvmem, rfl⟩ := hk
      have hr := frange v (hids v hvmem).1 (hids v hvmem).2
      exact ⟨by omega, hr.2⟩

/-- Witness of C10: the ids `[1, 0, 2, 1]` of three features under the draws 2, 2 become
`[2, 0, 1, 2]`; the zero stays and equal ids stay equal. -/
theorem randomizeFeatureIds_topology_witness :
    (randomizeIds (fun _ => 2) 4 3 [1, 0, 2, 1]).getD 1 0 = 0 ∧
    (randomizeIds (fun _ => 2) 4 3 [1, 0, 2, 1]).getD 0 0 =
      (randomizeIds (fun _ => 2) 4 3 [1, 0, 2, 1]).getD 3 0 :=
  have h := randomizeFeatureIds_topology (fun _ => 2) 3 [1, 0, 2, 1]
    (fun _ _ _ => ⟨by norm_num, by norm_num⟩) (by decide)
  ⟨(h.2.2.2.1 1 (by decide)).mpr rfl, (h.2.2.2.2.1 0 3 (by decide) (by decide)).mpr rfl⟩

/-! ## The region-growing scheduler -/

theorem neighbors_lt (nx ny nz p : Nat) (hp : p < nx * ny * nz) :
    ∀ n ∈ neighbors nx ny nz p, n < nx * ny * nz := by
  have hnx : 0 < nx := by
    rcases Nat.eq_zero_or_pos nx with h | h
    · subst h; simp at hp
    · exact h
  have hny : 0 < ny := by
    rcases Nat.eq_zero_or_pos ny with h | h
    · subst h; simp at hp
    · exact h
  have hxy : 0 < nx * ny := Nat.mul_pos hnx hny
  -- decomposition of p
  have hcol : p % nx < nx := Nat.mod_lt _ hnx
  have hdm : nx * (p / nx) + p % nx = p := Nat.div_add_mod p nx
  have ha : p / nx < ny * nz := by
    rw [Nat.div_lt_iff_lt_mul hnx]
    calc p < nx * ny * nz := hp
      _ = ny * nz * nx := by ring
  have hplane : p / (nx * ny) < nz := by
    rw [Nat.div_lt_iff_lt_mul hxy]
    calc p < nx * ny * nz := hp
      _ = nz * (nx * ny) := by ring
  have hdiv : p / (nx * ny) = p / nx / ny := (Nat.div_div_eq_div_mul p nx ny).symm
  have hrow : ny * (p / nx / ny) + p / nx % ny = p / nx := Nat.div_add_mod (p / nx) ny
  intro n hn
  unfold neighbors at hn
  simp only [List.mem_append, List.mem_ite_nil_right, List.mem_singleton] at hn
  rcases hn with ((((⟨_, rfl⟩ | ⟨_, rfl⟩) | ⟨_, rfl⟩) | ⟨h, rfl⟩) | ⟨h, rfl⟩) | ⟨h, rfl⟩
  · omega
  · omega
  · omega
  · -- p + 1
    have h1 : nx * (p / nx + 1) ≤ nx * (ny * nz) := Nat.mul_le_mul_left nx ha
    have h2 : nx * (ny * nz) = nx * ny * nz := by ring
    have h3 : nx * (p / nx + 1) = nx * (p / nx) + nx := by ring
    omega
  · -- p + nx
    have hr : p / nx + 1 < ny * nz := by
      have h4 : ny * (p / nx / ny + 1) ≤ ny * nz := Nat.mul_le_mul_left ny (by omega)
      have h5 : ny * (p / nx / ny + 1) = ny * (p / nx / ny) + ny := by ring
      omega
    have h1 : nx * (p / nx + 2) ≤ nx * (ny * nz) := Nat.mul_le_mul_left nx hr
    have h2 : nx * (ny * nz) = nx * ny * nz := by ring
    have h3 : nx * (p / nx + 2) = nx * (p / nx) + nx + nx := by ring
    omega
  · -- p + nx * ny
    have h1 : (nx * ny) * (p / (nx * ny) + 2) ≤ (nx * ny) * nz := Nat.mul_le_mul_left _ h
    have h3 : (nx * ny) * (p / (nx * ny) + 2) = (nx * ny) * (p / (nx * ny)) + nx * ny + nx * ny := by
      ring
    have h4 : (nx * ny) * (p / (nx * ny)) + p % (nx * ny) = p := Nat.div_add_mod p (nx * ny)
    have h5 : p % (nx * ny) < nx * ny := Nat.mod_lt _ hxy
    omega

section Scheduler

variable {σ : Type} {seg : Segmenter σ} {ids : σ → List Int} {cnt : σ → Nat}
  {adm : σ → Nat → Prop}

theorem Stamped.refl (gnum : Int) (s : σ) : Stamped ids cnt adm gnum s s :=
  ⟨rfl, fun _ => Or.inl rfl, rfl, fun _ => Iff.rfl⟩

theorem Stamped.trans {gnum : Int} {s1 s2 s3 : σ} (h12 : Stamped ids cnt adm gnum s1 s2)
    (h23 : Stamped ids cnt adm gnum s2 s3) : Stamped ids cnt adm gnum s1 s3 := by
  obtain ⟨l12, i12, c12, a12⟩ := h12
  obtain ⟨l23, i23, c23, a23⟩ := h23
  refine ⟨l23.trans l12, ?_, c23.trans c12, fun i => (a23 i).trans (a12 i)⟩
  intro i
  rcases i23 i with h | ⟨h0, hg⟩
  · rcases i12 i with h' | ⟨h0', hg'⟩
    · exact Or.inl (h.trans h')
    · exact Or.inr ⟨h0', h.trans hg'⟩
  · rcases i12 i with h' | ⟨h0', hg'⟩
    · exact Or.inr ⟨by rw [← h']; exact h0, hg⟩
    · exact Or.inr ⟨h0', hg⟩

theorem count_zero_set {l : List Int} {n : Nat} {g : Int} (hn : n < l.length)
    (h0 : l.getD n 0 = 0) (hg : g ≠ 0) : (l.set n g).count 0 + 1 = l.count 0 := by
  rw [List.count_set _ _ _ _ hn]
  rw [List.getD_eq_getElem l 0 hn] at h0
  have hpos : 1 ≤ l.count 0 := List.count_pos_iff.mpr (h0 ▸ List.getElem_mem hn)
  simp only [h0, beq_self_eq_true, if_true, beq_iff_eq, hg, if_false]
  omega

/-- One call of `determineGrouping` during growth. -/
theorem lawful_group_step (L : seg.Lawful ids cnt adm) (s : σ) (r n : Nat) (g : Int)
    (hn : n < (ids s).length) (hg : g ≠ 0) :
    Stamped ids cnt adm g s (seg.determineGrouping s r n g).1 ∧
    (ids (seg.determineGrouping s r n g).1).count 0 +
      (if (seg.determineGrouping s r n g).2 then 1 else 0) = (ids s).count 0 := by
  have hc := L.determineGrouping_cnt s r n g
  have ha := L.determineGrouping_adm s r n g
  rcases L.determineGrouping_views s r n g with ⟨hf, hi⟩ | ⟨ht, h0, hi⟩
  · refine ⟨⟨by rw [hi], fun i => Or.inl (by rw [hi]), hc, ha⟩, ?_⟩
    rw [hf, hi]
    rfl
  · refine ⟨⟨by rw [hi, List.length_set], ?_, hc, ha⟩, ?_⟩
    · intro i
      rw [hi]
      by_cases hin : n = i
      · subst hin
        exact Or.inr ⟨h0, getD_set_self hn _ _⟩
      · exact Or.inl (getD_set_ne hin _ _)
    · rw [ht, hi]
      exact count_zero_set hn h0 hg

theorem lawful_growNeighbors (L : seg.Lawful ids cnt adm) (g : Int) (hg : g ≠ 0)
    (cur : Nat) (N : Nat) :
    ∀ (nbrs : List Nat) (s : σ) (wl : List Nat), (ids s).length = N →
      (∀ n ∈ nbrs, n < N) → (∀ p ∈ wl, p < N) →
      Stamped ids cnt adm g s (growNeighbors seg g cur nbrs s wl).1 ∧
      (growNeighbors seg g cur nbrs s wl).2.length +
        (ids (growNeighbors seg g cur nbrs s wl).1).count 0 = wl.length + (ids s).count 0 ∧
      (∀ p ∈ (growNeighbors seg g cur nbrs s wl).2, p < N) := by
  intro nbrs
  induction nbrs with
  | nil =>
    intro s wl _ _ hwl
    exact ⟨Stamped.refl g s, rfl, hwl⟩
  | cons n rest ih =>
    intro s wl hlen hn hwl
    have hnN : n < N := hn n (List.mem_cons_self _ _)
    obtain ⟨hst, hcount⟩ := lawful_group_step L s cur n g (by omega) hg
    have hunf : growNeighbors seg g cur (n :: rest) s wl =
        growNeighbors seg g cur rest (seg.determineGrouping s cur n g).1
          (if (seg.determineGrouping s cur n g).2 then wl ++ [n] else wl) := rfl
    rw [hunf]
    have hwl2 : ∀ p ∈ (if (seg.determineGrouping s cur n g).2 then wl ++ [n] else wl),
        p < N := by
      intro p hp
      split at hp
      · rcases List.mem_append.mp hp with h | h
        · exact hwl p h
        · rw [List.mem_singleton] at h
          omega
      · exact hwl p hp
    obtain ⟨h1, h2, h3⟩ := ih (seg.determineGrouping s cur n g).1 _ (hst.1.trans hlen)
      (fun m hm => hn m (List.mem_cons_of_mem _ hm)) hwl2
    refine ⟨hst.trans h1, ?_, h3⟩
    rw [h2]
    split
    · rename_i ht
      rw [ht] at hcount
      simp only [if_true] at hcount
      rw [List.length_append, List.length_singleton]
      omega
    · rename_i hf
      simp only [hf, Bool.false_eq_true, if_false] at hcount
      omega

theorem lawful_floodFill (L : seg.Lawful ids cnt adm) (nx ny nz : Nat) (g : Int)
    (hg : g ≠ 0) :
    ∀ (fuel : Nat) (s : σ) (wl : List Nat), (ids s).length = nx * ny * nz →
      (∀ p ∈ wl, p < nx * ny * nz) → wl.length + (ids s).count 0 ≤ fuel →
      ∃ s2, floodFill seg nx ny nz g fuel s wl = some s2 ∧ Stamped ids cnt adm g s s2 := by
  intro fuel
  induction fuel with
  | zero =>
    intro s wl _ _ hf
    have : wl = [] := List.eq_nil_of_length_eq_zero (by omega)
    subst this
    exact ⟨s, rfl, Stamped.refl g s⟩
  | succ fuel ih =>
    intro s wl hlen hwl hf
    cases wl with
    | nil => exact ⟨s, rfl, Stamped.refl g s⟩
    | cons p rest =>
      have hp : p < nx * ny * nz := hwl p (List.mem_cons_self _ _)
      obtain ⟨h1, h2, h3⟩ := lawful_growNeighbors L g hg p (nx * ny * nz)
        (neighbors nx ny nz p) s rest hlen (neighbors_lt nx ny nz p hp)
        (fun q hq => hwl q (List.mem_cons_of_mem _ hq))
      have hunf : floodFill seg nx ny nz g (fuel + 1) s (p :: rest) =
          floodFill seg nx ny nz g fuel
            (growNeighbors seg g p (neighbors nx ny nz p) s rest).1
            (growNeighbors seg g p (neighbors nx ny nz p) s rest).2 := rfl
      rw [hunf]
      obtain ⟨s2, hs2, hst⟩ := ih _ _ (h1.1.trans hlen) h3 (by
        rw [h2]
        simp only [List.length_cons] at hf
        omega)
      exact ⟨s2, hs2, h1.trans hst⟩

/-- The outer loop returns, and keeps the invariants of the run: ids lie in `[0, gnum)`, every
id in `[1, gnum)` is present, admissible elements below the search start are assigned, and
(under the side condition `C`, which switches this part on) the per-feature arrays have
`gnum` tuples. -/
theorem lawful_segmentLoop (L : seg.Lawful ids cnt adm) (nx ny nz : Nat)
    (hN : nx * ny * nz < 2 ^ 63) (C : Prop) :
    ∀ (fuel : Nat) (s : σ) (g ns : Int), (ids s).length = nx * ny * nz →
      1 ≤ g → g ≤ ns + 1 → 0 ≤ ns → ns ≤ (nx * ny * nz : Nat) →
      nx * ny * nz - ns.toNat + 1 ≤ fuel →
      (∀ i : Nat, i < nx * ny * nz → 0 ≤ (ids s).getD i 0 ∧ (ids s).getD i 0 < g) →
      (∀ k : Int, 1 ≤ k → k < g → ∃ i : Nat, i < nx * ny * nz ∧ (ids s).getD i 0 = k) →
      (∀ i : Nat, i < nx * ny * nz → (i : Int) < ns → adm s i → (ids s).getD i 0 ≠ 0) →
      (C → (cnt s : Int) = g) →
      ∃ (s2 : σ) (g2 : Int),
        segmentLoop seg nx ny nz (nx * ny * nz + 1) fuel s g ns = some (s2, g2) ∧
        1 ≤ g2 ∧ (ids s2).length = nx * ny * nz ∧
        (∀ i : Nat, i < nx * ny * nz → 0 ≤ (ids s2).getD i 0 ∧ (ids s2).getD i 0 < g2) ∧
        (∀ k : Int, 1 ≤ k → k < g2 → ∃ i : Nat, i < nx * ny * nz ∧ (ids s2).getD i 0 = k) ∧
        (∀ i : Nat, i < nx * ny * nz → adm s2 i → (ids s2).getD i 0 ≠ 0) ∧
        (C → (cnt s2 : Int) = g2) ∧ (∀ i : Nat, adm s2 i ↔ adm s i) ∧
        g2 ≤ (nx * ny * nz : Nat) + 1 ∧
        (∃ (s0 : σ) (ns0 : Int), (seg.getSeed s0 g2 ns0).2 = -1 ∧
          s2 = (seg.getSeed s0 g2 ns0).1) := by
  intro fuel
  induction fuel with
  | zero =>
    intro s g ns _ _ _ _ _ hf
    omega
  | succ fuel ih =>
    intro s g ns hlen hg1 hgns hns0 hnsN hfuel hrange hpresent hcover hcnt
    have hunf : segmentLoop seg nx ny nz (nx * ny * nz + 1) (fuel + 1) s g ns =
        (if (seg.getSeed s g ns).2 ≥ 0 then
          match floodFill seg nx ny nz g (nx * ny * nz + 1) (seg.getSeed s g ns).1
              [(seg.getSeed s g ns).2.toNat] with
          | none => none
          | some s2 => segmentLoop seg nx ny nz (nx * ny * nz + 1) fuel s2 (g + 1)
              ((seg.getSeed s g ns).2 + 1)
        else some ((seg.getSeed s g ns).1, g)) := rfl
    have hsz : (toSizeT ns : Int) = ns := toSizeT_of_nonneg hns0 (by omega)
    have hadm := L.getSeed_adm s g ns
    rw [hunf]
    rcases L.getSeed_views s g ns with ⟨hr, hi, hc, hno⟩ | ⟨i, hr, hi1, hi2, hi3, hi, hc, hno⟩
    · rw [hr, if_neg (by decide)]
      refine ⟨_, g, rfl, hg1, by rw [hi, hlen], ?_, ?_, ?_, ?_, hadm, by omega,
        ⟨s, ns, hr, rfl⟩⟩
      · rw [hi]; exact hrange
      · rw [hi]; exact hpresent
      · intro j hj ha
        rw [hi]
        have ha' := (hadm j).mp ha
        by_cases hjn : (j : Int) < ns
        · exact hcover j hj hjn ha'
        · exact hno j (by omega) (by omega) ha'
      · intro hC
        rw [hc]
        exact hcnt hC
    · have hi0 : (i : Int) ≥ 0 := Int.natCast_nonneg i
      rw [hr, if_pos hi0, Int.toNat_ofNat]
      have hiN : i < nx * ny * nz := by omega
      have hlen1 : (ids (seg.getSeed s g ns).1).length = nx * ny * nz := by
        rw [hi, List.length_set, hlen]
      obtain ⟨s2, hs2, hlen2, hst, hc2, ha2⟩ := lawful_floodFill L nx ny nz g (by omega)
        (nx * ny * nz + 1) (seg.getSeed s g ns).1 [i] hlen1
        (fun p hp => by rw [List.mem_singleton] at hp; omega)
        (by
          have := List.count_le_length (0 : Int) (ids (seg.getSeed s g ns).1)
          rw [hlen1] at this
          simp only [List.length_singleton]
          omega)
      rw [hs2]
      simp only
      -- the ids after the seed and after growth
      have hid1 : ∀ j : Nat, j ≠ i →
          (ids (seg.getSeed s g ns).1).getD j 0 = (ids s).getD j 0 := by
        intro j hj
        rw [hi]
        exact getD_set_ne (Ne.symm hj) _ _
      have hid1i : (ids (seg.getSeed s g ns).1).getD i 0 = g := by
        rw [hi]
        exact getD_set_self hi2 _ _
      have hszg : (toSizeT (g + 1) : Int) = g + 1 := toSizeT_of_nonneg (by omega) (by omega)
      obtain ⟨s3, g3, hrun, h1, h2, h3, h4, h5, h6, h7, h8, h9⟩ := ih s2 (g + 1) ((i : Int) + 1)
        (hlen2.trans hlen1) (by omega) (by omega) (by omega) (by omega) (by omega)
        (by
          intro j hj
          rcases hst j with h | ⟨_, h⟩
          · rw [h]
            by_cases hji : j = i
            · subst hji
              rw [hid1i]
              omega
            · rw [hid1 j hji]
              have := hrange j hj
              omega
          · rw [h]
            omega)
        (by
          intro k hk1 hk2
          by_cases hkg : k = g
          · subst hkg
            refine ⟨i, hiN, ?_⟩
            rcases hst i with h | ⟨h0, _⟩
            · rw [h, hid1i]
            · rw [hid1i] at h0
              omega
          · obtain ⟨j, hj, hjk⟩ := hpresent k hk1 (by omega)
            refine ⟨j, hj, ?_⟩
            have hji : j ≠ i := by
              rintro rfl
              rw [hi3] at hjk
              omega
            rcases hst j with h | ⟨h0, _⟩
            · rw [h, hid1 j hji, hjk]
            · rw [hid1 j hji, hjk] at h0
              omega)
        (by
          intro j hj hjn ha
          have ha' : adm s j := (hadm j).mp ((ha2 j).mp ha)
          have hne1 : (ids (seg.getSeed s g ns).1).getD j 0 ≠ 0 := by
            by_cases hji : j = i
            · subst hji
              rw [hid1i]
              omega
            · rw [hid1 j hji]
              by_cases hjns : (j : Int) < ns
              · exact hcover j hj hjns ha'
              · exact hno j (by omega) (by omega) ha'
          rcases hst j with h | ⟨h0, _⟩
          · rw [h]
            exact hne1
          · exact absurd h0 hne1)
        (by
          intro _
          rw [hc2, hc, hszg])
      exact ⟨s3, g3, hrun, h1, h2, h3, h4, h5, h6,
        fun j => (h7 j).trans ((ha2 j).trans (hadm j)), h8, h9⟩

end Scheduler

/-! ## Runs of the scheduler with the two segmenters -/

/-- The scheduler returns on every grid whose cell arrays match the geometry, from all-zero
feature ids; the run ends with ids in `[0, gnum)`, every id in `[1, gnum)` present, every
admissible element assigned, and its last step is a call of `getSeed` that returned `-1`. -/
theorem scheduler_completes {σ : Type} {seg : Segmenter σ} {ids : σ → List Int} {cnt : σ → Nat}
    {adm : σ → Nat → Prop} (L : seg.Lawful ids cnt adm) (nx ny nz : Nat)
    (hN : nx * ny * nz < 2 ^ 63) (C : Prop) (s : σ) (hlen : (ids s).length = nx * ny * nz)
    (hzero : ∀ i : Nat, i < nx * ny * nz → (ids s).getD i 0 = 0)
    (hcnt : C → (cnt s : Int) = 1) :
    ∃ (s2 : σ) (g2 : Int),
      SegmentFeatures.execute seg nx ny nz s = some (s2, g2) ∧
      1 ≤ g2 ∧ (ids s2).length = nx * ny * nz ∧
      (∀ i : Nat, i < nx * ny * nz → 0 ≤ (ids s2).getD i 0 ∧ (ids s2).getD i 0 < g2) ∧
      (∀ k : Int, 1 ≤ k → k < g2 → ∃ i : Nat, i < nx * ny * nz ∧ (ids s2).getD i 0 = k) ∧
      (∀ i : Nat, i < nx * ny * nz → adm s2 i → (ids s2).getD i 0 ≠ 0) ∧
      (C → (cnt s2 : Int) = g2) ∧ (∀ i : Nat, adm s2 i ↔ adm s i) ∧
      g2 ≤ (nx * ny * nz : Nat) + 1 ∧
      (∃ (s0 : σ) (ns0 : Int), (seg.getSeed s0 g2 ns0).2 = -1 ∧
        s2 = (seg.getSeed s0 g2 ns0).1) := by
  unfold SegmentFeatures.execute
  apply lawful_segmentLoop L nx ny nz hN C (nx * ny * nz + 1) s 1 0 hlen (le_refl 1)
    (by omega) (le_refl 0) (by omega) (by simp)
  · intro i hi
    rw [hzero i hi]
    omega
  · intro k hk1 hk2
    omega
  · intro i _ hi
    omega
  · exact hcnt

/-- The orientation segmenter keeps the contract of the scheduler. -/
theorem ebsd_lawful : EBSDSegmentFeatures.segmenter.Lawful
    (fun s => s.FeatureIds) (fun s => s.Active.length) EBSDSegmentFeatures.Admissible where
  getSeed_views := by
    intro s gnum nextSeed
    show ((s.getSeed gnum nextSeed).2 = -1 ∧ _) ∨ _
    rcases s.getSeed_cases gnum nextSeed with ⟨hr, hs, hno⟩ | ⟨i, hr, h1, h2, h3, h4, hs⟩
    · left
      refine ⟨hr, ?_, ?_, ?_⟩
      · show (s.getSeed gnum nextSeed).1.FeatureIds = _
        rw [hs]
      · show (s.getSeed gnum nextSeed).1.Active.length = _
        rw [hs]
      · intro i hi1 hi2 ha h0
        exact hno i hi1 hi2 ⟨h0, ha.1, ha.2⟩
    · right
      refine ⟨i, hr, h1, h2, h3.1, ?_, ?_, ?_⟩
      · show (s.getSeed gnum nextSeed).1.FeatureIds = _
        rw [hs]
      · show (s.getSeed gnum nextSeed).1.Active.length = _
        rw [hs]
        exact length_resizeAttributeArrays _ _
      · intro j hj1 hj2 ha h0
        exact h4 j hj1 hj2 ⟨h0, ha.1, ha.2⟩
  getSeed_adm := by
    intro s gnum nextSeed i
    show EBSDSegmentFeatures.Admissible (s.getSeed gnum nextSeed).1 i ↔ _
    rcases s.getSeed_cases gnum nextSeed with ⟨_, hs, _⟩ | ⟨_, _, _, _, _, _, hs⟩ <;>
    · rw [hs]
      exact Iff.rfl
  determineGrouping_views := by
    intro s r n g
    show ((s.determineGrouping r n g).2 = false ∧ (s.determineGrouping r n g).1.FeatureIds = _) ∨
      ((s.determineGrouping r n g).2 = true ∧ _ ∧ (s.determineGrouping r n g).1.FeatureIds = _)
    rcases s.determineGrouping_cases r n g with h | ⟨h0, _, h⟩
    · left; rw [h]; exact ⟨rfl, rfl⟩
    · right; rw [h]; exact ⟨rfl, h0, rfl⟩
  determineGrouping_cnt := by
    intro s r n g
    show (s.determineGrouping r n g).1.Active.length = _
    rcases s.determineGrouping_cases r n g with h | ⟨_, _, h⟩ <;> rw [h]
  determineGrouping_adm := by
    intro s r n g i
    show EBSDSegmentFeatures.Admissible (s.determineGrouping r n g).1 i ↔ _
    rcases s.determineGrouping_cases r n g with h | ⟨_, _, h⟩
    · rw [h]
    · rw [h]
      exact Iff.rfl

/-- The vector segmenter keeps the contract of the scheduler. -/
theorem vector_lawful (m : SIMPLibMath) : (VectorSegmentFeatures.segmenter m).Lawful
    (fun s => s.FeatureIds) (fun s => s.Active.length) VectorSegmentFeatures.Admissible where
  getSeed_views := by
    intro s gnum nextSeed
    show ((s.getSeed gnum nextSeed).2 = -1 ∧ _) ∨ _
    rcases s.vec_getSeed_cases gnum nextSeed with ⟨hr, hs, hno⟩ | ⟨i, hr, h1, h2, h3, h4, hs⟩
    · left
      refine ⟨hr, ?_, ?_, ?_⟩
      · show (s.getSeed gnum nextSeed).1.FeatureIds = _
        rw [hs]
      · show (s.getSeed gnum nextSeed).1.Active.length = _
        rw [hs]
      · intro i hi1 hi2 ha h0
        exact hno i hi1 hi2 ⟨h0, ha⟩
    · right
      refine ⟨i, hr, h1, h2, h3.1, ?_, ?_, ?_⟩
      · show (s.getSeed gnum nextSeed).1.FeatureIds = _
        rw [hs]
      · show (s.getSeed gnum nextSeed).1.Active.length = _
        rw [hs]
        exact length_resizeAttributeArrays _ _
      · intro j hj1 hj2 ha h0
        exact h4 j hj1 hj2 ⟨h0, ha⟩
  getSeed_adm := by
    intro s gnum nextSeed i
    show VectorSegmentFeatures.Admissible (s.getSeed gnum nextSeed).1 i ↔ _
    rcases s.vec_getSeed_cases gnum nextSeed with ⟨_, hs, _⟩ | ⟨_, _, _, _, _, _, hs⟩ <;>
    · rw [hs]
      exact Iff.rfl
  determineGrouping_views := by
    intro s r n g
    show ((s.determineGrouping m r n g).2 = false ∧
        (s.determineGrouping m r n g).1.FeatureIds = _) ∨
      ((s.determineGrouping m r n g).2 = true ∧ _ ∧
        (s.determineGrouping m r n g).1.FeatureIds = _)
    rcases s.vec_determineGrouping_cases m r n g with h | ⟨h0, _, h⟩
    · left; rw [h]; exact ⟨rfl, rfl⟩
    · right; rw [h]; exact ⟨rfl, h0, rfl⟩
  determineGrouping_cnt := by
    intro s r n g
    show (s.determineGrouping m r n g).1.Active.length = _
    rcases s.vec_determineGrouping_cases m r n g with h | ⟨_, _, h⟩ <;> rw [h]
  determineGrouping_adm := by
    intro s r n g i
    show VectorSegmentFeatures.Admissible (s.determineGrouping m r n g).1 i ↔ _
    rcases s.vec_determineGrouping_cases m r n g with h | ⟨_, _, h⟩
    · rw [h]
    · rw [h]
      exact Iff.rfl

/-- The run of a lawful segmenter from all-zero feature ids and one-tuple per-feature arrays
finds some number `N` of seeds and ends with the non-zero ids `1 .. N` and `N + 1` tuples. -/
theorem lawful_density {σ : Type} {seg : Segmenter σ} {ids : σ → List Int} {cnt : σ → Nat}
    {adm : σ → Nat → Prop} (L : seg.Lawful ids cnt adm) (nx ny nz : Nat)
    (hN : nx * ny * nz < 2 ^ 63) (s : σ) (hlen : (ids s).length = nx * ny * nz)
    (hzero : ∀ v ∈ ids s, v = 0) (hcnt : cnt s = 1) :
    ∃ (s2 : σ) (N : Nat),
      SegmentFeatures.execute seg nx ny nz s = some (s2, (N : Int) + 1) ∧
      (∀ k : Int, (k ≠ 0 ∧ k ∈ ids s2) ↔ (1 ≤ k ∧ k ≤ (N : Int))) ∧
      cnt s2 = N + 1 ∧ N ≤ nx * ny * nz ∧
      (∃ (s0 : σ) (ns0 : Int), (seg.getSeed s0 ((N : Int) + 1) ns0).2 = -1 ∧
        s2 = (seg.getSeed s0 ((N : Int) + 1) ns0).1) := by
  obtain ⟨s2, g2, hrun, hg, hlen2, hrange, hpresent, _, hc, _, hle, hlast⟩ :=
    scheduler_completes L nx ny nz hN True s hlen
      (by
        intro i hi
        have hi2 : i < (ids s).length := by omega
        rw [List.getD_eq_getElem _ 0 hi2]
        exact hzero _ (List.getElem_mem hi2))
      (fun _ => by rw [hcnt]; rfl)
  have hg2 : g2 = ((g2 - 1).toNat : Int) + 1 := by omega
  refine ⟨s2, (g2 - 1).toNat, by rw [← hg2]; exact hrun, ?_, ?_, by omega,
    by rw [← hg2]; exact hlast⟩
  · intro k
    constructor
    · rintro ⟨hk0, hk⟩
      obtain ⟨i, hi, rfl⟩ := List.mem_iff_getElem.mp hk
      have := hrange i (by rw [← hlen2]; exact hi)
      rw [List.getD_eq_getElem _ 0 hi] at this
      omega
    · rintro ⟨hk1, hk2⟩
      obtain ⟨i, hi, hik⟩ := hpresent k hk1 (by omega)
      have hi2 : i < (ids s2).length := by rw [hlen2]; exact hi
      rw [List.getD_eq_getElem _ 0 hi2] at hik
      exact ⟨by omega, hik ▸ List.getElem_mem hi2⟩
  · have := hc trivial
    omega

/-- C6 (coverage): on every grid whose number of elements `nx * ny * nz` is the number of
tuples of the cell arrays (below `2^63`), the orientation-based segmentation run started from
all-zero feature ids completes, and afterwards every element with `CellPhases > 0` that the
mask does not exclude has `FeatureIds > 0`. -/
theorem segmentation_covers_admissible (s : EBSDSegmentFeatures) (nx ny nz : Nat)
    (hdim : nx * ny * nz = s.totalPoints) (hsize : s.totalPoints < 2 ^ 63)
    (hzero : ∀ i : Nat, i < s.totalPoints → s.FeatureIds.getD i 0 = 0) :
    ∃ (s2 : EBSDSegmentFeatures) (gnum : Int),
      SegmentFeatures.execute EBSDSegmentFeatures.segmenter nx ny nz s = some (s2, gnum) ∧
      ∀ i : Nat, i < s.totalPoints → 0 < s.CellPhases.getD i 0 →
        (s.UseGoodVoxels = false ∨ s.GoodVoxels.getD i false = true) →
        0 < s2.FeatureIds.getD i 0 := by
  obtain ⟨s2, g2, hrun, _, _, hrange, _, hcover, _, hadm, _, _⟩ :=
    scheduler_completes ebsd_lawful nx ny nz (by omega) False s hdim.symm
      (by rw [hdim]; exact hzero) (fun h => h.elim)
  refine ⟨s2, g2, hrun, ?_⟩
  intro i hi hph hmask
  have h1 := hcover i (by omega) ((hadm i).mpr ⟨hmask, hph⟩)
  have h2 := (hrange i (by omega)).1
  exact lt_of_le_of_ne h2 (Ne.symm h1)

/-- C7 (density): for both segmenters, the run started from all-zero feature ids and
one-tuple per-feature arrays completes with some number `N` of seeds found (the feature
counter ends at `N + 1`); without randomization the non-zero values present in `FeatureIds`
are then exactly `1, ..., N`, and `Active` has `N + 1` tuples. -/
theorem segmentation_ids_dense (m : SIMPLibMath) (se : EBSDSegmentFeatures) (sv : VectorSegmentFeatures)
    (nx ny nz : Nat) (hsize : nx * ny * nz < 2 ^ 63)
    (hdime : nx * ny * nz = se.totalPoints) (hdimv : nx * ny * nz = sv.totalPoints)
    (hzeroe : ∀ v ∈ se.FeatureIds, v = 0) (hzerov : ∀ v ∈ sv.FeatureIds, v = 0)
    (hacte : se.Active.length = 1) (hactv : sv.Active.length = 1) :
    (∃ (s2 : EBSDSegmentFeatures) (N : Nat),
      SegmentFeatures.execute EBSDSegmentFeatures.segmenter nx ny nz se =
        some (s2, (N : Int) + 1) ∧
      (∀ k : Int, (k ≠ 0 ∧ k ∈ s2.FeatureIds) ↔ (1 ≤ k ∧ k ≤ (N : Int))) ∧
      s2.Active.length = N + 1) ∧
    (∃ (s2 : VectorSegmentFeatures) (N : Nat),
      SegmentFeatures.execute (VectorSegmentFeatures.segmenter m) nx ny nz sv =
        some (s2, (N : Int) + 1) ∧
      (∀ k : Int, (k ≠ 0 ∧ k ∈ s2.FeatureIds) ↔ (1 ≤ k ∧ k ≤ (N : Int))) ∧
      s2.Active.length = N + 1) := by
  constructor
  · obtain ⟨s2, N, h1, h2, h3, _, _⟩ :=
      lawful_density ebsd_lawful nx ny nz hsize se hdime.symm hzeroe hacte
    exact ⟨s2, N, h1, h2, h3⟩
  · obtain ⟨s2, N, h1, h2, h3, _, _⟩ :=
      lawful_density (vector_lawful m) nx ny nz hsize sv hdimv.symm hzerov hactv
    exact ⟨s2, N, h1, h2, h3⟩

theorem mem_replicate_zero (n : Nat) : ∀ v ∈ List.replicate n (0 : Int), v = 0 := by
  intro v hv
  exact (List.mem_replicate.mp hv).2

theorem ebsd_getSeed_errorCode (s : EBSDSegmentFeatures) (gnum nextSeed : Int) :
    (s.getSeed gnum nextSeed).1.ErrorCode = 0 := by
  rcases s.getSeed_cases gnum nextSeed with ⟨_, hs, _⟩ | ⟨_, _, _, _, _, _, hs⟩ <;> rw [hs]

theorem vector_getSeed_errorCode (s : VectorSegmentFeatures) (gnum nextSeed : Int) :
    (s.getSeed gnum nextSeed).1.ErrorCode = 0 := by
  rcases s.vec_getSeed_cases gnum nextSeed with ⟨_, hs, _⟩ | ⟨_, _, _, _, _, _, hs⟩ <;> rw [hs]

/-- C8 (amended): for both filters and every run, with `N` the number of features found by
the growth (so that the per-feature arrays, which include the slot of id 0, have `N + 1`
tuples): if `N = 0`, `execute` sets error code `-87000` and returns the state after growth,
without randomizing; if `N ≥ 1` (one feature suffices), `execute` returns with error code 0.
The grid has fewer than `2^31 - 1` elements, so that every count fits `int32_t`. -/
theorem execute_error_iff_no_feature (k_PiOver180D : Flt) (m : SIMPLibMath) (nx ny nz : Nat)
    (draw : Nat → Int) (se : EBSDSegmentFeatures) (sv : VectorSegmentFeatures)
    (hsize : nx * ny * nz + 1 < 2 ^ 31)
    (hdime : nx * ny * nz = se.totalPoints) (hdimv : nx * ny * nz = sv.totalPoints) :
    (∃ (s2 : EBSDSegmentFeatures) (N : Nat),
      SegmentFeatures.execute EBSDSegmentFeatures.segmenter nx ny nz
        (se.beforeGrowth k_PiOver180D) = some (s2, (N : Int) + 1) ∧
      s2.Active.length = N + 1 ∧
      (N = 0 → se.execute k_PiOver180D nx ny nz draw = some { s2 with ErrorCode := -87000 }) ∧
      (1 ≤ N → ∃ s3, se.execute k_PiOver180D nx ny nz draw = some s3 ∧ s3.ErrorCode = 0)) ∧
    (∃ (s2 : VectorSegmentFeatures) (N : Nat),
      SegmentFeatures.execute (VectorSegmentFeatures.segmenter m) nx ny nz
        (sv.beforeGrowth m) = some (s2, (N : Int) + 1) ∧
      s2.Active.length = N + 1 ∧
      (N = 0 → sv.execute m nx ny nz draw = some { s2 with ErrorCode := -87000 }) ∧
      (1 ≤ N → ∃ s3, sv.execute m nx ny nz draw = some s3 ∧ s3.ErrorCode = 0)) := by
  have hsize2 : nx * ny * nz < 2 ^ 63 := by
    have : (2 : Nat) ^ 31 < 2 ^ 63 := by norm_num
    omega
  constructor
  · obtain ⟨s2, N, hrun, _, hcnt, _, s0, ns0, _, hlast⟩ :=
      lawful_density ebsd_lawful nx ny nz hsize2 (se.beforeGrowth k_PiOver180D)
        (by
          show (List.replicate se.FeatureIds.length (0 : Int)).length = _
          rw [List.length_replicate]
          exact hdime.symm)
        (mem_replicate_zero _) (length_resizeAttributeArrays _ _)
    have hcnt2 : s2.Active.length = N + 1 := hcnt
    have herr : s2.ErrorCode = 0 := by
      rw [hlast]
      exact ebsd_getSeed_errorCode _ _ _
    refine ⟨s2, N, hrun, hcnt2, ?_, ?_⟩
    · intro hN0
      unfold EBSDSegmentFeatures.execute
      rw [hrun]
      simp only
      rw [if_pos (by rw [hcnt2, hN0]; decide)]
    · intro hN1
      unfold EBSDSegmentFeatures.execute
      rw [hrun]
      simp only
      rw [if_neg (by rw [hcnt2]; push_cast; omega)]
      split
      · exact ⟨_, rfl, herr⟩
      · exact ⟨_, rfl, herr⟩
  · obtain ⟨s2, N, hrun, _, hcnt, hNle, s0, ns0, _, hlast⟩ :=
      lawful_density (vector_lawful m) nx ny nz hsize2 (sv.beforeGrowth m)
        (by
          show (List.replicate sv.FeatureIds.length (0 : Int)).length = _
          rw [List.length_replicate]
          exact hdimv.symm)
        (mem_replicate_zero _) (length_resizeAttributeArrays _ _)
    have hcnt2 : s2.Active.length = N + 1 := hcnt
    have herr : s2.ErrorCode = 0 := by
      rw [hlast]
      exact vector_getSeed_errorCode _ _ _
    have h32 : toInt32 s2.Active.length = (N : Int) + 1 := by
      rw [hcnt2]
      unfold toInt32
      have e : (N + 1) % 2 ^ 32 = N + 1 := Nat.mod_eq_of_lt (by
        have : (2 : Nat) ^ 31 < 2 ^ 32 := by norm_num
        omega)
      rw [e, if_pos (by omega)]
      push_cast
      rfl
    refine ⟨s2, N, hrun, hcnt2, ?_, ?_⟩
    · intro hN0
      unfold VectorSegmentFeatures.execute
      rw [hrun]
      simp only
      rw [h32, if_pos (by rw [hN0]; decide)]
    · intro hN1
      unfold VectorSegmentFeatures.execute
      rw [hrun]
      simp only
      rw [h32, if_neg (by omega)]
      split
      · exact ⟨_, rfl, herr⟩
      · exact ⟨_, rfl, herr⟩


/-- C8, as stated, fails: on a single element of phase 1 the growth finds exactly one feature
(the feature counter ends at 2, the feature ids are `[1]`), which is fewer than 2 features,
and yet `execute` returns with error code 0 instead of `-87000`. -/
theorem execute_error_counterexample :
    (EBSDSegmentFeatures.single.execute (Flt.fin (1 / 57)) 1 1 1 (fun _ => 1)).map
      (fun s => (s.FeatureIds, s.Active.length, s.ErrorCode)) = some ([1], 2, 0) ∧
    ¬ (((SegmentFeatures.execute EBSDSegmentFeatures.segmenter 1 1 1
          (EBSDSegmentFeatures.single.beforeGrowth (Flt.fin (1 / 57)))).map Prod.snd).getD 0 - 1
          < 2 →
        (EBSDSegmentFeatures.single.execute (Flt.fin (1 / 57)) 1 1 1 (fun _ => 1)).map
          (fun s => s.ErrorCode) = some (-87000)) := by
  constructor <;> decide

/-- Witness of C6 on `row`: the run completes and element 2 (phase 2) is assigned. -/
theorem segmentation_covers_admissible_witness :
    ∃ (s2 : EBSDSegmentFeatures) (gnum : Int),
      SegmentFeatures.execute EBSDSegmentFeatures.segmenter 3 1 1 EBSDSegmentFeatures.row =
        some (s2, gnum) ∧ 0 < s2.FeatureIds.getD 2 0 := by
  obtain ⟨s2, g, h, hc⟩ := segmentation_covers_admissible EBSDSegmentFeatures.row 3 1 1
    (by decide) (by decide) (by decide)
  exact ⟨s2, g, h, hc 2 (by decide) (by decide) (by decide)⟩

/-- Witness of C7 on the two `row` inputs. -/
theorem segmentation_ids_dense_witness :
    ∃ (s2 : VectorSegmentFeatures) (N : Nat),
      SegmentFeatures.execute (VectorSegmentFeatures.segmenter SIMPLibMath.sample) 3 1 1
        VectorSegmentFeatures.row = some (s2, (N : Int) + 1) ∧ s2.Active.length = N + 1 := by
  obtain ⟨_, s2, N, h1, _, h3⟩ := segmentation_ids_dense SIMPLibMath.sample
    EBSDSegmentFeatures.row VectorSegmentFeatures.row 3 1 1 (by decide) (by decide) (by decide)
    (by decide) (by decide) (by decide) (by decide)
  exact ⟨s2, N, h1, h3⟩

/-- Witness of C8 (amended) on the two `row` inputs. -/
theorem execute_error_iff_no_feature_witness :
    ∃ (s2 : EBSDSegmentFeatures) (N : Nat),
      SegmentFeatures.execute EBSDSegmentFeatures.segmenter 3 1 1
        (EBSDSegmentFeatures.row.beforeGrowth (Flt.fin (1 / 57))) = some (s2, (N : Int) + 1) ∧
      s2.Active.length = N + 1 := by
  obtain ⟨⟨s2, N, h1, h2, _⟩, _⟩ := execute_error_iff_no_feature (Flt.fin (1 / 57))
    SIMPLibMath.sample 3 1 1 (fun _ => 1) EBSDSegmentFeatures.row VectorSegmentFeatures.row
    (by decide) (by decide) (by decide)
  exact ⟨s2, N, h1, h2⟩

/-! ## Uniformity of the relabelling -/

/-- C11: the code at the failing input `totalFeatures = 4`: of the 27 sequences of three
draws from `[1, 3]`, four leave the table at the identity `[0, 1, 2, 3]` and five produce
`[0, 2, 3, 1]`, so the permutations of `1 .. 3` are not produced equally often. -/
theorem shuffle_counts_differ :
    (drawSequences 3 3).length = 27 ∧
    sequencesProducing 4 [0, 1, 2, 3] = 4 ∧ sequencesProducing 4 [0, 2, 3, 1] = 5 := by
  decide

/-! ## Invariant rules for the scheduler -/

section Invariants

variable {σ : Type} (seg : Segmenter σ) (nx ny nz : Nat)

/-- Invariant rule for the treatment of one popped element. -/
theorem growNeighbors_invariant (g : Int) (J : σ → Prop) (R : σ → Nat → Prop) (cur : Nat)
    (hgroup : ∀ (s : σ) (n : Nat), J s → R s cur → n ∈ neighbors nx ny nz cur →
      J (seg.determineGrouping s cur n g).1 ∧
      (∀ q : Nat, R s q → R (seg.determineGrouping s cur n g).1 q) ∧
      ((seg.determineGrouping s cur n g).2 = true → R (seg.determineGrouping s cur n g).1 n)) :
    ∀ (nbrs : List Nat) (s : σ) (wl : List Nat),
      (∀ n ∈ nbrs, n ∈ neighbors nx ny nz cur) → J s → R s cur → (∀ p ∈ wl, R s p) →
      J (growNeighbors seg g cur nbrs s wl).1 ∧
      (∀ p ∈ (growNeighbors seg g cur nbrs s wl).2, R (growNeighbors seg g cur nbrs s wl).1 p) := by
  intro nbrs
  induction nbrs with
  | nil =>
    intro s wl _ hJ _ hwl
    exact ⟨hJ, hwl⟩
  | cons n rest ih =>
    intro s wl hn hJ hR hwl
    obtain ⟨hJ2, hkeep, hnew⟩ := hgroup s n hJ hR (hn n (List.mem_cons_self _ _))
    have hunf : growNeighbors seg g cur (n :: rest) s wl =
        growNeighbors seg g cur rest (seg.determineGrouping s cur n g).1
          (if (seg.determineGrouping s cur n g).2 then wl ++ [n] else wl) := rfl
    rw [hunf]
    apply ih _ _ (fun m hm => hn m (List.mem_cons_of_mem _ hm)) hJ2 (hkeep cur hR)
    intro p hp
    split at hp
    · rename_i ht
      rcases List.mem_append.mp hp with h | h
      · exact hkeep p (hwl p h)
      · rw [List.mem_singleton] at h
        subst h
        exact hnew ht
    · exact hkeep p (hwl p hp)

/-- Invariant rule for the growth of one feature. -/
theorem floodFill_invariant (g : Int) (J : σ → Prop) (R : σ → Nat → Prop)
    (hgroup : ∀ (s : σ) (r n : Nat), J s → R s r → n ∈ neighbors nx ny nz r →
      J (seg.determineGrouping s r n g).1 ∧
      (∀ q : Nat, R s q → R (seg.determineGrouping s r n g).1 q) ∧
      ((seg.determineGrouping s r n g).2 = true → R (seg.determineGrouping s r n g).1 n)) :
    ∀ (fuel : Nat) (s : σ) (wl : List Nat) (s2 : σ), J s → (∀ p ∈ wl, R s p) →
      floodFill seg nx ny nz g fuel s wl = some s2 → J s2 := by
  intro fuel
  induction fuel with
  | zero =>
    intro s wl s2 hJ _ h
    cases wl with
    | nil =>
      have : s = s2 := by simpa [floodFill] using h
      exact this ▸ hJ
    | cons p rest => simp [floodFill] at h
  | succ fuel ih =>
    intro s wl s2 hJ hwl h
    cases wl with
    | nil =>
      have : s = s2 := by simpa [floodFill] using h
      exact this ▸ hJ
    | cons p rest =>
      have hunf : floodFill seg nx ny nz g (fuel + 1) s (p :: rest) =
          floodFill seg nx ny nz g fuel
            (growNeighbors seg g p (neighbors nx ny nz p) s rest).1
            (growNeighbors seg g p (neighbors nx ny nz p) s rest).2 := rfl
      rw [hunf] at h
      obtain ⟨hJ2, hwl2⟩ := growNeighbors_invariant seg nx ny nz g J R p
        (fun s n => hgroup s p n) (neighbors nx ny nz p) s rest (fun n hn => hn) hJ
        (hwl p (List.mem_cons_self _ _)) (fun q hq => hwl q (List.mem_cons_of_mem _ hq))
      exact ih _ _ s2 hJ2 hwl2 h

/-- Invariant rule for the outer loop: `I g` holds between features, before the seed of
feature `g` is searched; `J g` holds during the growth of feature `g`; `R g s p` says that `p`
may be a reference element of feature `g` in state `s`. -/
theorem segmentLoop_invariant (fillFuel : Nat) (I J : Int → σ → Prop)
    (R : Int → σ → Nat → Prop)
    (hseed : ∀ (g : Int) (s : σ) (ns : Int), I g s → 0 ≤ (seg.getSeed s g ns).2 →
      J g (seg.getSeed s g ns).1 ∧ R g (seg.getSeed s g ns).1 (seg.getSeed s g ns).2.toNat)
    (hnone : ∀ (g : Int) (s : σ) (ns : Int), I g s → ¬ 0 ≤ (seg.getSeed s g ns).2 →
      I g (seg.getSeed s g ns).1)
    (hgroup : ∀ (g : Int) (s : σ) (r n : Nat), J g s → R g s r → n ∈ neighbors nx ny nz r →
      J g (seg.determineGrouping s r n g).1 ∧
      (∀ q : Nat, R g s q → R g (seg.determineGrouping s r n g).1 q) ∧
      ((seg.determineGrouping s r n g).2 = true → R g (seg.determineGrouping s r n g).1 n))
    (hnext : ∀ (g : Int) (s : σ), J g s → I (g + 1) s) :
    ∀ (fuel : Nat) (s : σ) (g ns : Int) (out : σ × Int), I g s →
      segmentLoop seg nx ny nz fillFuel fuel s g ns = some out → I out.2 out.1 := by
  intro fuel
  induction fuel with
  | zero =>
    intro s g ns out _ h
    simp [segmentLoop] at h
  | succ fuel ih =>
    intro s g ns out hI h
    have hunf : segmentLoop seg nx ny nz fillFuel (fuel + 1) s g ns =
        (if (seg.getSeed s g ns).2 ≥ 0 then
          match floodFill seg nx ny nz g fillFuel (seg.getSeed s g ns).1
              [(seg.getSeed s g ns).2.toNat] with
          | none => none
          | some s2 => segmentLoop seg nx ny nz fillFuel fuel s2 (g + 1)
              ((seg.getSeed s g ns).2 + 1)
        else some ((seg.getSeed s g ns).1, g)) := rfl
    rw [hunf] at h
    by_cases hs : 0 ≤ (seg.getSeed s g ns).2
    · rw [if_pos hs] at h
      obtain ⟨hJ, hR⟩ := hseed g s ns hI hs
      cases hff : floodFill seg nx ny nz g fillFuel (seg.getSeed s g ns).1
          [(seg.getSeed s g ns).2.toNat] with
      | none =>
        rw [hff] at h
        simp at h
      | some s2 =>
        rw [hff] at h
        simp only at h
        have hJ2 := floodFill_invariant seg nx ny nz g (J g) (R g) (hgroup g) fillFuel _ _ s2 hJ
          (fun p hp => by rw [List.mem_singleton] at hp; subst hp; exact hR) hff
        exact ih s2 (g + 1) _ out (hnext g s2 hJ2) h
    · rw [if_neg hs] at h
      have : out = ((seg.getSeed s g ns).1, g) := by
        simpa using h.symm
      rw [this]
      exact hnone g s ns hI hs

end Invariants
/-! ## Exclusion invariants of the segmenters -/


theorem getD_eq_zero_of_forall_mem {l : List Int} (h : ∀ v ∈ l, v = 0) (i : Nat) :
    l.getD i 0 = 0 := by
  by_cases hi : i < l.length
  · rw [List.getD_eq_getElem _ 0 hi]
    exact h _ (List.getElem_mem hi)
  · rw [List.getD_eq_getElem?_getD, List.getElem?_eq_none (by omega)]
    rfl

theorem ebsd_getSeed_maskRespected (s : EBSDSegmentFeatures) (gnum nextSeed : Int)
    (hu : s.UseGoodVoxels = true) (h : s.MaskRespected) :
    (s.getSeed gnum nextSeed).1.MaskRespected := by
  rcases s.getSeed_cases gnum nextSeed with ⟨_, hs, _⟩ | ⟨i, _, _, _, hseed, _, hs⟩
  · rw [hs]; exact h
  · rw [hs]
    intro j hj
    show s.GoodVoxels.getD j false = true
    by_cases hji : j = i
    · subst hji
      rcases hseed.2.1 with hf | ht
      · rw [hu] at hf; exact absurd hf (by decide)
      · exact ht
    · apply h j
      have : (s.FeatureIds.set i gnum).getD j 0 ≠ 0 := hj
      rwa [getD_set_ne (Ne.symm hji)] at this

theorem ebsd_determineGrouping_maskRespected (s : EBSDSegmentFeatures) (r n : Nat) (gnum : Int)
    (hu : s.UseGoodVoxels = true) (h : s.MaskRespected) :
    (s.determineGrouping r n gnum).1.MaskRespected := by
  rcases s.determineGrouping_cases r n gnum with hs | ⟨_, hm, hs⟩
  · rw [hs]; exact h
  · rw [hs]
    intro j hj
    show s.GoodVoxels.getD j false = true
    by_cases hjn : j = n
    · subst hjn
      rcases hm with hf | ht
      · rw [hu] at hf; exact absurd hf (by decide)
      · exact ht
    · apply h j
      have : (s.FeatureIds.set n gnum).getD j 0 ≠ 0 := hj
      rwa [getD_set_ne (Ne.symm hjn)] at this

theorem vector_getSeed_maskRespected (s : VectorSegmentFeatures) (gnum nextSeed : Int)
    (hu : s.UseGoodVoxels = true) (h : s.MaskRespected) :
    (s.getSeed gnum nextSeed).1.MaskRespected := by
  rcases s.vec_getSeed_cases gnum nextSeed with ⟨_, hs, _⟩ | ⟨i, _, _, _, hseed, _, hs⟩
  · rw [hs]; exact h
  · rw [hs]
    intro j hj
    show s.GoodVoxels.getD j false = true
    by_cases hji : j = i
    · subst hji
      rcases hseed.2 with hf | ht
      · rw [hu] at hf; exact absurd hf (by decide)
      · exact ht
    · apply h j
      have : (s.FeatureIds.set i gnum).getD j 0 ≠ 0 := hj
      rwa [getD_set_ne (Ne.symm hji)] at this

theorem vector_determineGrouping_maskRespected (m : SIMPLibMath) (s : VectorSegmentFeatures)
    (r n : Nat) (gnum : Int) (hu : s.UseGoodVoxels = true) (h : s.MaskRespected) :
    (s.determineGrouping m r n gnum).1.MaskRespected := by
  rcases s.vec_determineGrouping_cases m r n gnum with hs | ⟨_, hm, hs⟩
  · rw [hs]; exact h
  · rw [hs]
    intro j hj
    show s.GoodVoxels.getD j false = true
    by_cases hjn : j = n
    · subst hjn
      rcases hm with hf | ht
      · rw [hu] at hf; exact absurd hf (by decide)
      · exact ht
    · apply h j
      have : (s.FeatureIds.set n gnum).getD j 0 ≠ 0 := hj
      rwa [getD_set_ne (Ne.symm hjn)] at this

/-- The fields that neither `getSeed` nor `determineGrouping` writes. -/
theorem ebsd_getSeed_static (s : EBSDSegmentFeatures) (gnum nextSeed : Int) :
    (s.getSeed gnum nextSeed).1.UseGoodVoxels = s.UseGoodVoxels ∧
    (s.getSeed gnum nextSeed).1.GoodVoxels = s.GoodVoxels ∧
    (s.getSeed gnum nextSeed).1.CellPhases = s.CellPhases ∧
    (s.getSeed gnum nextSeed).1.MisoTolerance = s.MisoTolerance ∧
    (s.getSeed gnum nextSeed).1.FeatureIds.length = s.FeatureIds.length := by
  rcases s.getSeed_cases gnum nextSeed with ⟨_, hs, _⟩ | ⟨i, _, _, _, _, _, hs⟩
  · rw [hs]; exact ⟨rfl, rfl, rfl, rfl, rfl⟩
  · rw [hs]; exact ⟨rfl, rfl, rfl, rfl, List.length_set _ _ _⟩

theorem ebsd_determineGrouping_static (s : EBSDSegmentFeatures) (r n : Nat) (gnum : Int) :
    (s.determineGrouping r n gnum).1.UseGoodVoxels = s.UseGoodVoxels ∧
    (s.determineGrouping r n gnum).1.GoodVoxels = s.GoodVoxels ∧
    (s.determineGrouping r n gnum).1.CellPhases = s.CellPhases ∧
    (s.determineGrouping r n gnum).1.MisoTolerance = s.MisoTolerance ∧
    (s.determineGrouping r n gnum).1.FeatureIds.length = s.FeatureIds.length := by
  rcases s.determineGrouping_cases r n gnum with hs | ⟨_, _, hs⟩
  · rw [hs]; exact ⟨rfl, rfl, rfl, rfl, rfl⟩
  · rw [hs]; exact ⟨rfl, rfl, rfl, rfl, List.length_set _ _ _⟩

theorem vector_getSeed_static (s : VectorSegmentFeatures) (gnum nextSeed : Int) :
    (s.getSeed gnum nextSeed).1.UseGoodVoxels = s.UseGoodVoxels ∧
    (s.getSeed gnum nextSeed).1.GoodVoxels = s.GoodVoxels ∧
    (s.getSeed gnum nextSeed).1.Vectors = s.Vectors ∧
    (s.getSeed gnum nextSeed).1.AngleToleranceRad = s.AngleToleranceRad ∧
    (s.getSeed gnum nextSeed).1.FeatureIds.length = s.FeatureIds.length := by
  rcases s.vec_getSeed_cases gnum nextSeed with ⟨_, hs, _⟩ | ⟨i, _, _, _, _, _, hs⟩
  · rw [hs]; exact ⟨rfl, rfl, rfl, rfl, rfl⟩
  · rw [hs]; exact ⟨rfl, rfl, rfl, rfl, List.length_set _ _ _⟩

theorem vector_determineGrouping_static (m : SIMPLibMath) (s : VectorSegmentFeatures)
    (r n : Nat) (gnum : Int) :
    (s.determineGrouping m r n gnum).1.UseGoodVoxels = s.UseGoodVoxels ∧
    (s.determineGrouping m r n gnum).1.GoodVoxels = s.GoodVoxels ∧
    (s.determineGrouping m r n gnum).1.Vectors = s.Vectors ∧
    (s.determineGrouping m r n gnum).1.AngleToleranceRad = s.AngleToleranceRad ∧
    (s.determineGrouping m r n gnum).1.FeatureIds.length = s.FeatureIds.length := by
  rcases s.vec_determineGrouping_cases m r n gnum with hs | ⟨_, _, hs⟩
  · rw [hs]; exact ⟨rfl, rfl, rfl, rfl, rfl⟩
  · rw [hs]; exact ⟨rfl, rfl, rfl, rfl, List.length_set _ _ _⟩

/-- C12 (mask exclusion): with mask use enabled, the predicate "every element with
`FeatureIds != 0` has `GoodVoxels == true`" is preserved by `getSeed` and by
`determineGrouping` of both segmenters, for all arguments; hence the run started from all-zero
feature ids completes and leaves every element with `GoodVoxels == false` at feature id 0
(never seeded, never absorbed). -/
theorem mask_exclusion_invariant (m : SIMPLibMath) (se : EBSDSegmentFeatures)
    (sv : VectorSegmentFeatures) :
    (∀ (gnum nextSeed : Int) (r n : Nat), se.UseGoodVoxels = true → se.MaskRespected →
      (se.getSeed gnum nextSeed).1.MaskRespected ∧
      (se.determineGrouping r n gnum).1.MaskRespected) ∧
    (∀ (gnum nextSeed : Int) (r n : Nat), sv.UseGoodVoxels = true → sv.MaskRespected →
      (sv.getSeed gnum nextSeed).1.MaskRespected ∧
      (sv.determineGrouping m r n gnum).1.MaskRespected) ∧
    (∀ nx ny nz : Nat, se.UseGoodVoxels = true → nx * ny * nz = se.totalPoints →
      se.totalPoints < 2 ^ 63 → (∀ v ∈ se.FeatureIds, v = 0) →
      ∃ (s2 : EBSDSegmentFeatures) (g2 : Int),
        SegmentFeatures.execute EBSDSegmentFeatures.segmenter nx ny nz se = some (s2, g2) ∧
        ∀ i : Nat, se.GoodVoxels.getD i false = false → s2.FeatureIds.getD i 0 = 0) ∧
    (∀ nx ny nz : Nat, sv.UseGoodVoxels = true → nx * ny * nz = sv.totalPoints →
      sv.totalPoints < 2 ^ 63 → (∀ v ∈ sv.FeatureIds, v = 0) →
      ∃ (s2 : VectorSegmentFeatures) (g2 : Int),
        SegmentFeatures.execute (VectorSegmentFeatures.segmenter m) nx ny nz sv =
          some (s2, g2) ∧
        ∀ i : Nat, sv.GoodVoxels.getD i false = false → s2.FeatureIds.getD i 0 = 0) := by
  refine ⟨?_, ?_, ?_, ?_⟩
  · intro gnum nextSeed r n hu h
    exact ⟨ebsd_getSeed_maskRespected se gnum nextSeed hu h,
      ebsd_determineGrouping_maskRespected se r n gnum hu h⟩
  · intro gnum nextSeed r n hu h
    exact ⟨vector_getSeed_maskRespected sv gnum nextSeed hu h,
      vector_determineGrouping_maskRespected m sv r n gnum hu h⟩
  · intro nx ny nz hu hdim hsize hzero
    obtain ⟨s2, g2, hrun, _⟩ := scheduler_completes ebsd_lawful nx ny nz (by omega) False se
      hdim.symm (fun i _ => getD_eq_zero_of_forall_mem hzero i) (fun h => h.elim)
    refine ⟨s2, g2, hrun, ?_⟩
    have hinv := segmentLoop_invariant EBSDSegmentFeatures.segmenter nx ny nz _
      (fun _ s => s.UseGoodVoxels = true ∧ s.GoodVoxels = se.GoodVoxels ∧ s.MaskRespected)
      (fun _ s => s.UseGoodVoxels = true ∧ s.GoodVoxels = se.GoodVoxels ∧ s.MaskRespected)
      (fun _ _ _ => True)
      (fun g s ns ⟨h1, h2, h3⟩ _ =>
        ⟨⟨(ebsd_getSeed_static s g ns).1.trans h1, (ebsd_getSeed_static s g ns).2.1.trans h2,
          ebsd_getSeed_maskRespected s g ns h1 h3⟩, trivial⟩)
      (fun g s ns ⟨h1, h2, h3⟩ _ =>
        ⟨(ebsd_getSeed_static s g ns).1.trans h1, (ebsd_getSeed_static s g ns).2.1.trans h2,
          ebsd_getSeed_maskRespected s g ns h1 h3⟩)
      (fun g s r n ⟨h1, h2, h3⟩ _ _ =>
        ⟨⟨(ebsd_determineGrouping_static s r n g).1.trans h1,
          (ebsd_determineGrouping_static s r n g).2.1.trans h2,
          ebsd_determineGrouping_maskRespected s r n g h1 h3⟩, fun _ _ => trivial,
          fun _ => trivial⟩)
      (fun _ _ h => h) _ se 1 0 (s2, g2)
      ⟨hu, rfl, fun i hi => absurd (getD_eq_zero_of_forall_mem hzero i) hi⟩ hrun
    obtain ⟨_, hG, hM⟩ := hinv
    intro i hi
    by_contra hne
    have := hM i hne
    rw [hG, hi] at this
    exact absurd this (by decide)
  · intro nx ny nz hu hdim hsize hzero
    obtain ⟨s2, g2, hrun, _⟩ := scheduler_completes (vector_lawful m) nx ny nz (by omega) False
      sv hdim.symm (fun i _ => getD_eq_zero_of_forall_mem hzero i) (fun h => h.elim)
    refine ⟨s2, g2, hrun, ?_⟩
    have hinv := segmentLoop_invariant (VectorSegmentFeatures.segmenter m) nx ny nz _
      (fun _ s => s.UseGoodVoxels = true ∧ s.GoodVoxels = sv.GoodVoxels ∧ s.MaskRespected)
      (fun _ s => s.UseGoodVoxels = true ∧ s.GoodVoxels = sv.GoodVoxels ∧ s.MaskRespected)
      (fun _ _ _ => True)
      (fun g s ns ⟨h1, h2, h3⟩ _ =>
        ⟨⟨(vector_getSeed_static s g ns).1.trans h1, (vector_getSeed_static s g ns).2.1.trans h2,
          vector_getSeed_maskRespected s g ns h1 h3⟩, trivial⟩)
      (fun g s ns ⟨h1, h2, h3⟩ _ =>
        ⟨(vector_getSeed_static s g ns).1.trans h1, (vector_getSeed_static s g ns).2.1.trans h2,
          vector_getSeed_maskRespected s g ns h1 h3⟩)
      (fun g s r n ⟨h1, h2, h3⟩ _ _ =>
        ⟨⟨(vector_determineGrouping_static m s r n g).1.trans h1,
          (vector_determineGrouping_static m s r n g).2.1.trans h2,
          vector_determineGrouping_maskRespected m s r n g h1 h3⟩, fun _ _ => trivial,
          fun _ => trivial⟩)
      (fun _ _ h => h) _ sv 1 0 (s2, g2)
      ⟨hu, rfl, fun i hi => absurd (getD_eq_zero_of_forall_mem hzero i) hi⟩ hrun
    obtain ⟨_, hG, hM⟩ := hinv
    intro i hi
    by_contra hne
    have := hM i hne
    rw [hG, hi] at this
    exact absurd this (by decide)

theorem ebsd_determineGrouping_same_phase (s : EBSDSegmentFeatures) (r n : Nat) (gnum : Int)
    (htol : Flt.lt fltMax s.MisoTolerance = false)
    (h : (s.determineGrouping r n gnum).2 = true) :
    s.CellPhases.getD r 0 = s.CellPhases.getD n 0 := by
  unfold EBSDSegmentFeatures.determineGrouping at h
  simp only at h
  split at h
  · simp at h
  · split at h
    · by_contra hp
      rw [if_neg hp, htol] at h
      simp at h
    · simp at h

theorem ebsd_determineGrouping_false (s : EBSDSegmentFeatures) (r n : Nat) (gnum : Int)
    (h : (s.determineGrouping r n gnum).2 ≠ true) : s.determineGrouping r n gnum = (s, false) := by
  rcases s.determineGrouping_cases r n gnum with hs | ⟨_, _, hs⟩
  · exact hs
  · rw [hs] at h
    exact absurd rfl h

theorem ebsd_getSeed_phasePositive (s : EBSDSegmentFeatures) (gnum nextSeed : Int)
    (h : s.PhasePositive) : (s.getSeed gnum nextSeed).1.PhasePositive := by
  rcases s.getSeed_cases gnum nextSeed with ⟨_, hs, _⟩ | ⟨i, _, _, _, hseed, _, hs⟩
  · rw [hs]; exact h
  · rw [hs]
    intro j hj
    show 0 < s.CellPhases.getD j 0
    by_cases hji : j = i
    · subst hji
      exact hseed.2.2
    · apply h j
      have : (s.FeatureIds.set i gnum).getD j 0 ≠ 0 := hj
      rwa [getD_set_ne (Ne.symm hji)] at this

theorem ebsd_determineGrouping_phasePositive (s : EBSDSegmentFeatures) (r n : Nat) (gnum : Int)
    (htol : Flt.lt fltMax s.MisoTolerance = false) (h : s.PhasePositive)
    (hr : s.FeatureIds.getD r 0 ≠ 0) : (s.determineGrouping r n gnum).1.PhasePositive := by
  by_cases ht : (s.determineGrouping r n gnum).2 = true
  · have hph := ebsd_determineGrouping_same_phase s r n gnum htol ht
    rcases s.determineGrouping_cases r n gnum with hs | ⟨_, _, hs⟩
    · rw [hs]; exact h
    · rw [hs]
      intro j hj
      show 0 < s.CellPhases.getD j 0
      by_cases hjn : j = n
      · subst hjn
        rw [← hph]
        exact h r hr
      · apply h j
        have : (s.FeatureIds.set n gnum).getD j 0 ≠ 0 := hj
        rwa [getD_set_ne (Ne.symm hjn)] at this
  · rw [ebsd_determineGrouping_false s r n gnum ht]
    exact h

/-- C13, as stated, fails: on `phaseZeroNeighbour` the predicate holds and the reference
element 0 has a non-zero feature id, but under the tolerance `+infinity` the call
`determineGrouping(0, 1, 1)` stamps element 1, whose phase is 0. -/
theorem phase_exclusion_counterexample :
    EBSDSegmentFeatures.phaseZeroNeighbour.PhasePositive ∧
    EBSDSegmentFeatures.phaseZeroNeighbour.FeatureIds.getD 0 0 ≠ 0 ∧
    ¬ (EBSDSegmentFeatures.phaseZeroNeighbour.determineGrouping 0 1 1).1.PhasePositive := by
  refine ⟨?_, by decide, ?_⟩
  · intro i hi
    match i with
    | 0 => decide
    | 1 => exact absurd rfl hi
    | (k + 2) => exact absurd rfl hi
  · intro h
    have := h 1 (by decide)
    revert this
    decide

/-- C13 (amended): the predicate "every element with `FeatureIds != 0` has `CellPhases > 0`"
is preserved by `getSeed`, and, whenever the tolerance is not above the `FLT_MAX` sentinel
(every tolerance but `+infinity`), by every call `determineGrouping(ref, nbr, gnum)` whose
reference element already has a non-zero feature id; hence, under such a tolerance, the run
started from all-zero feature ids completes and leaves no element of phase 0 or of negative
phase with a non-zero feature id. -/
theorem phase_exclusion_invariant (se : EBSDSegmentFeatures) :
    (∀ (gnum nextSeed : Int), se.PhasePositive → (se.getSeed gnum nextSeed).1.PhasePositive) ∧
    (∀ (r n : Nat) (gnum : Int), Flt.lt fltMax se.MisoTolerance = false → se.PhasePositive →
      se.FeatureIds.getD r 0 ≠ 0 → (se.determineGrouping r n gnum).1.PhasePositive) ∧
    (∀ nx ny nz : Nat, Flt.lt fltMax se.MisoTolerance = false →
      nx * ny * nz = se.totalPoints → se.totalPoints < 2 ^ 63 → (∀ v ∈ se.FeatureIds, v = 0) →
      ∃ (s2 : EBSDSegmentFeatures) (g2 : Int),
        SegmentFeatures.execute EBSDSegmentFeatures.segmenter nx ny nz se = some (s2, g2) ∧
        ∀ i : Nat, s2.FeatureIds.getD i 0 ≠ 0 → 0 < se.CellPhases.getD i 0) := by
  refine ⟨fun g ns h => ebsd_getSeed_phasePositive se g ns h,
    fun r n g htol h hr => ebsd_determineGrouping_phasePositive se r n g htol h hr, ?_⟩
  intro nx ny nz htol hdim hsize hzero
  obtain ⟨s2, g2, hrun, _⟩ := scheduler_completes ebsd_lawful nx ny nz (by omega) False se
    hdim.symm (fun i _ => getD_eq_zero_of_forall_mem hzero i) (fun h => h.elim)
  refine ⟨s2, g2, hrun, ?_⟩
  have hinv := segmentLoop_invariant EBSDSegmentFeatures.segmenter nx ny nz _
    (fun g s => 1 ≤ g ∧ s.CellPhases = se.CellPhases ∧ s.MisoTolerance = se.MisoTolerance ∧
      s.FeatureIds.length = nx * ny * nz ∧ s.PhasePositive)
    (fun g s => 1 ≤ g ∧ s.CellPhases = se.CellPhases ∧ s.MisoTolerance = se.MisoTolerance ∧
      s.FeatureIds.length = nx * ny * nz ∧ s.PhasePositive)
    (fun _ s p => p < nx * ny * nz ∧ s.FeatureIds.getD p 0 ≠ 0)
    (by
      rintro g s ns ⟨hg, h1, h2, h3, h4⟩ hseed
      obtain ⟨_, _, e1, e2, e3⟩ := ebsd_getSeed_static s g ns
      refine ⟨⟨hg, e1.trans h1, e2.trans h2, e3.trans h3,
        ebsd_getSeed_phasePositive s g ns h4⟩, ?_⟩
      show (s.getSeed g ns).2.toNat < nx * ny * nz ∧
        (s.getSeed g ns).1.FeatureIds.getD (s.getSeed g ns).2.toNat 0 ≠ 0
      rcases s.getSeed_cases g ns with ⟨hr, _, _⟩ | ⟨i, hr, _, hi, _, _, hs⟩
      · have hseed' : 0 ≤ (s.getSeed g ns).2 := hseed
        rw [hr] at hseed'
        exact absurd hseed' (by decide)
      · rw [hr, hs, Int.toNat_ofNat]
        have hi' : i < s.FeatureIds.length := hi
        refine ⟨by omega, ?_⟩
        show (s.FeatureIds.set i g).getD i 0 ≠ 0
        rw [getD_set_self hi']
        omega)
    (by
      rintro g s ns ⟨hg, h1, h2, h3, h4⟩ _
      obtain ⟨_, _, e1, e2, e3⟩ := ebsd_getSeed_static s g ns
      exact ⟨hg, e1.trans h1, e2.trans h2, e3.trans h3, ebsd_getSeed_phasePositive s g ns h4⟩)
    (by
      rintro g s r n ⟨hg, h1, h2, h3, h4⟩ ⟨hr, hr0⟩ hn
      obtain ⟨_, _, e1, e2, e3⟩ := ebsd_determineGrouping_static s r n g
      have hnN : n < nx * ny * nz := neighbors_lt nx ny nz r hr n hn
      refine ⟨⟨hg, e1.trans h1, e2.trans h2, e3.trans h3,
        ebsd_determineGrouping_phasePositive s r n g (by rw [h2]; exact htol) h4 hr0⟩, ?_, ?_⟩
      · rintro q ⟨hq, hq0⟩
        refine ⟨hq, ?_⟩
        show (s.determineGrouping r n g).1.FeatureIds.getD q 0 ≠ 0
        rcases s.determineGrouping_cases r n g with hs | ⟨h0, _, hs⟩
        · rw [hs]; exact hq0
        · rw [hs]
          show (s.FeatureIds.set n g).getD q 0 ≠ 0
          have hqn : n ≠ q := by
            rintro rfl
            exact hq0 h0
          rw [getD_set_ne hqn]
          exact hq0
      · intro ht
        refine ⟨hnN, ?_⟩
        show (s.determineGrouping r n g).1.FeatureIds.getD n 0 ≠ 0
        rcases s.determineGrouping_cases r n g with hs | ⟨h0, _, hs⟩
        · have ht' : (s.determineGrouping r n g).2 = true := ht
          rw [hs] at ht'
          simp at ht'
        · rw [hs]
          show (s.FeatureIds.set n g).getD n 0 ≠ 0
          rw [getD_set_self (by omega)]
          omega)
    (by
      rintro g s ⟨hg, h⟩
      exact ⟨by omega, h⟩)
    _ se 1 0 (s2, g2)
    ⟨le_refl 1, rfl, rfl, hdim.symm,
      fun i hi => absurd (getD_eq_zero_of_forall_mem hzero i) hi⟩ hrun
  obtain ⟨_, hC, _, _, hP⟩ := hinv
  intro i hi
  have := hP i hi
  rwa [hC] at this

/-- C14, as stated, fails: the two elements of `crossPhase` have different phases, and under
the tolerance `+infinity` the call `determineGrouping(0, 1, 7)` returns `true` and changes
`FeatureIds[1]` from 0 to 7. -/
theorem cross_phase_counterexample :
    EBSDSegmentFeatures.crossPhase.CellPhases.getD 0 0 ≠
      EBSDSegmentFeatures.crossPhase.CellPhases.getD 1 0 ∧
    (EBSDSegmentFeatures.crossPhase.determineGrouping 0 1 7).2 = true ∧
    (EBSDSegmentFeatures.crossPhase.determineGrouping 0 1 7).1.FeatureIds.getD 1 0 = 7 ∧
    EBSDSegmentFeatures.crossPhase.FeatureIds.getD 1 0 = 0 := by
  decide

/-- C14 (amended): for every reference and neighbour with `CellPhases[ref] != CellPhases[nbr]`
and every tolerance that is not above the `FLT_MAX` sentinel (every tolerance but
`+infinity`), `determineGrouping` returns `false` and leaves the state, hence
`FeatureIds[nbr]`, unchanged; consequently, under such a tolerance, after the run started from
all-zero feature ids all elements of one feature have the same phase. -/
theorem cross_phase_never_merged (se : EBSDSegmentFeatures) :
    (∀ (r n : Nat) (gnum : Int), Flt.lt fltMax se.MisoTolerance = false →
      se.CellPhases.getD r 0 ≠ se.CellPhases.getD n 0 →
      se.determineGrouping r n gnum = (se, false)) ∧
    (∀ nx ny nz : Nat, Flt.lt fltMax se.MisoTolerance = false →
      nx * ny * nz = se.totalPoints → se.totalPoints < 2 ^ 63 → (∀ v ∈ se.FeatureIds, v = 0) →
      ∃ (s2 : EBSDSegmentFeatures) (g2 : Int),
        SegmentFeatures.execute EBSDSegmentFeatures.segmenter nx ny nz se = some (s2, g2) ∧
        ∀ i j : Nat, s2.FeatureIds.getD i 0 ≠ 0 →
          s2.FeatureIds.getD i 0 = s2.FeatureIds.getD j 0 →
          se.CellPhases.getD i 0 = se.CellPhases.getD j 0) := by
  constructor
  · intro r n gnum htol hph
    apply ebsd_determineGrouping_false
    intro ht
    exact hph (ebsd_determineGrouping_same_phase se r n gnum htol ht)
  intro nx ny nz htol hdim hsize hzero
  obtain ⟨s2, g2, hrun, _⟩ := scheduler_completes ebsd_lawful nx ny nz (by omega) False se
    hdim.symm (fun i _ => getD_eq_zero_of_forall_mem hzero i) (fun h => h.elim)
  refine ⟨s2, g2, hrun, ?_⟩
  have hinv := segmentLoop_invariant EBSDSegmentFeatures.segmenter nx ny nz _
    (fun g s => 1 ≤ g ∧ s.CellPhases = se.CellPhases ∧ s.MisoTolerance = se.MisoTolerance ∧
      s.FeatureIds.length = nx * ny * nz ∧ (∀ i : Nat, s.FeatureIds.getD i 0 < g) ∧
      s.SinglePhaseFeatures)
    (fun g s => 1 ≤ g ∧ s.CellPhases = se.CellPhases ∧ s.MisoTolerance = se.MisoTolerance ∧
      s.FeatureIds.length = nx * ny * nz ∧ (∀ i : Nat, s.FeatureIds.getD i 0 ≤ g) ∧
      s.SinglePhaseFeatures)
    (fun g s p => p < nx * ny * nz ∧ s.FeatureIds.getD p 0 = g)
    (by
      rintro g s ns ⟨hg, h1, h2, h3, h4, h5⟩ hseed
      obtain ⟨_, _, e1, e2, e3⟩ := ebsd_getSeed_static s g ns
      show (_ ∧ _ ∧ _ ∧ _ ∧ (∀ i : Nat, (s.getSeed g ns).1.FeatureIds.getD i 0 ≤ g) ∧
        (s.getSeed g ns).1.SinglePhaseFeatures) ∧
        ((s.getSeed g ns).2.toNat < nx * ny * nz ∧
          (s.getSeed g ns).1.FeatureIds.getD (s.getSeed g ns).2.toNat 0 = g)
      rcases s.getSeed_cases g ns with ⟨hr, _, _⟩ | ⟨i, hr, _, hi, _, _, hs⟩
      · have hseed' : 0 ≤ (s.getSeed g ns).2 := hseed
        rw [hr] at hseed'
        exact absurd hseed' (by decide)
      · have hi' : i < s.FeatureIds.length := hi
        have hget : ∀ j : Nat, j ≠ i →
            (s.getSeed g ns).1.FeatureIds.getD j 0 = s.FeatureIds.getD j 0 := by
          intro j hj
          rw [hs]
          exact getD_set_ne (Ne.symm hj) _ _
        have hgeti : (s.getSeed g ns).1.FeatureIds.getD i 0 = g := by
          rw [hs]
          exact getD_set_self hi' _ _
        have hph : (s.getSeed g ns).1.CellPhases = s.CellPhases := e1
        refine ⟨⟨hg, e1.trans h1, e2.trans h2, e3.trans h3, ?_, ?_⟩, ?_⟩
        · intro j
          by_cases hj : j = i
          · rw [hj, hgeti]
          · rw [hget j hj]
            exact le_of_lt (h4 j)
        · intro a b ha hab
          rw [hph]
          by_cases hai : a = i
          · by_cases hbi : b = i
            · rw [hai, hbi]
            · rw [hai, hgeti, hget b hbi] at hab
              have := h4 b
              omega
          · by_cases hbi : b = i
            · rw [hbi, hgeti, hget a hai] at hab
              have := h4 a
              omega
            · rw [hget a hai] at ha
              rw [hget a hai, hget b hbi] at hab
              exact h5 a b ha hab
        · rw [hr, Int.toNat_ofNat]
          exact ⟨by omega, hgeti⟩)
    (by
      rintro g s ns ⟨hg, h1, h2, h3, h4, h5⟩ hseed
      obtain ⟨_, _, e1, e2, e3⟩ := ebsd_getSeed_static s g ns
      show _ ∧ _ ∧ _ ∧ _ ∧ (∀ i : Nat, (s.getSeed g ns).1.FeatureIds.getD i 0 < g) ∧
        (s.getSeed g ns).1.SinglePhaseFeatures
      rcases s.getSeed_cases g ns with ⟨hr, hs, _⟩ | ⟨i, hr, _, hi, _, _, hs⟩
      · refine ⟨hg, e1.trans h1, e2.trans h2, e3.trans h3, ?_, ?_⟩
        · rw [hs]; exact h4
        · rw [hs]; exact h5
      · have hseed' : ¬ 0 ≤ (s.getSeed g ns).2 := hseed
        rw [hr] at hseed'
        exact absurd (Int.natCast_nonneg i) hseed')
    (by
      rintro g s r n ⟨hg, h1, h2, h3, h4, h5⟩ ⟨hr, hrg⟩ hn
      obtain ⟨_, _, e1, e2, e3⟩ := ebsd_determineGrouping_static s r n g
      have hnN : n < nx * ny * nz := neighbors_lt nx ny nz r hr n hn
      show (_ ∧ _ ∧ _ ∧ _ ∧ (∀ i : Nat, (s.determineGrouping r n g).1.FeatureIds.getD i 0 ≤ g) ∧
        (s.determineGrouping r n g).1.SinglePhaseFeatures) ∧
        (∀ q : Nat, q < nx * ny * nz ∧ s.FeatureIds.getD q 0 = g →
          q < nx * ny * nz ∧ (s.determineGrouping r n g).1.FeatureIds.getD q 0 = g) ∧
        ((s.determineGrouping r n g).2 = true →
          n < nx * ny * nz ∧ (s.determineGrouping r n g).1.FeatureIds.getD n 0 = g)
      by_cases ht : (s.determineGrouping r n g).2 = true
      · have hph := ebsd_determineGrouping_same_phase s r n g (by rw [h2]; exact htol) ht
        rcases s.determineGrouping_cases r n g with hs | ⟨h0, _, hs⟩
        · rw [hs] at ht
          simp at ht
        · have hget : ∀ j : Nat, j ≠ n →
              (s.determineGrouping r n g).1.FeatureIds.getD j 0 = s.FeatureIds.getD j 0 := by
            intro j hj
            rw [hs]
            exact getD_set_ne (Ne.symm hj) _ _
          have hgetn : (s.determineGrouping r n g).1.FeatureIds.getD n 0 = g := by
            rw [hs]
            exact getD_set_self (by omega) _ _
          have hphs : (s.determineGrouping r n g).1.CellPhases = s.CellPhases := e1
          have hgph : ∀ b : Nat, s.FeatureIds.getD b 0 = g →
              s.CellPhases.getD b 0 = s.CellPhases.getD n 0 := by
            intro b hb
            rw [← hph]
            exact (h5 r b (by rw [hrg]; omega) (by rw [hrg, hb])).symm
          refine ⟨⟨hg, e1.trans h1, e2.trans h2, e3.trans h3, ?_, ?_⟩, ?_, fun _ => ⟨hnN, hgetn⟩⟩
          · intro j
            by_cases hj : j = n
            · rw [hj, hgetn]
            · rw [hget j hj]
              exact h4 j
          · intro a b ha hab
            rw [hphs]
            by_cases han : a = n
            · by_cases hbn : b = n
              · rw [han, hbn]
              · rw [han, hgetn, hget b hbn] at hab
                rw [han]
                exact (hgph b hab.symm).symm
            · by_cases hbn : b = n
              · rw [hbn, hgetn, hget a han] at hab
                rw [hbn]
                exact hgph a hab
              · rw [hget a han] at ha
                rw [hget a han, hget b hbn] at hab
                exact h5 a b ha hab
          · rintro q ⟨hq, hqg⟩
            refine ⟨hq, ?_⟩
            by_cases hqn : q = n
            · rw [hqn, hgetn]
            · rw [hget q hqn, hqg]
      · have hs := ebsd_determineGrouping_false s r n g ht
        rw [hs]
        exact ⟨⟨hg, e1.trans h1, e2.trans h2, e3.trans h3, h4, h5⟩, fun q hq => hq,
          fun h => by simp at h⟩)
    (by
      rintro g s ⟨hg, h1, h2, h3, h4, h5⟩
      exact ⟨by omega, h1, h2, h3, fun i => by have := h4 i; omega, h5⟩)
    _ se 1 0 (s2, g2)
    ⟨le_refl 1, rfl, rfl, hdim.symm,
      fun i => by rw [getD_eq_zero_of_forall_mem hzero i]; decide,
      fun i _ hi => absurd (getD_eq_zero_of_forall_mem hzero i) hi⟩ hrun
  obtain ⟨_, hC, _, _, _, hP⟩ := hinv
  intro i j hi hij
  have := hP i j hi hij
  rwa [hC] at this

/-- Witness of C12 on the two `maskedRow` inputs: the run completes and the masked middle
element keeps feature id 0. -/
theorem mask_exclusion_invariant_witness :
    ∃ (s2 : EBSDSegmentFeatures) (g2 : Int),
      SegmentFeatures.execute EBSDSegmentFeatures.segmenter 3 1 1
        EBSDSegmentFeatures.maskedRow = some (s2, g2) ∧ s2.FeatureIds.getD 1 0 = 0 := by
  obtain ⟨s2, g2, h, hm⟩ := (mask_exclusion_invariant SIMPLibMath.sample
    EBSDSegmentFeatures.maskedRow VectorSegmentFeatures.maskedRow).2.2.1 3 1 1 rfl
    (by decide) (by decide) (by decide)
  exact ⟨s2, g2, h, hm 1 (by decide)⟩

/-- Witness of C13 (amended) on `row`, whose tolerance is 1: the run completes and the
element of phase 0 keeps feature id 0. -/
theorem phase_exclusion_invariant_witness :
    ∃ (s2 : EBSDSegmentFeatures) (g2 : Int),
      SegmentFeatures.execute EBSDSegmentFeatures.segmenter 3 1 1
        EBSDSegmentFeatures.row = some (s2, g2) ∧ s2.FeatureIds.getD 1 0 = 0 := by
  obtain ⟨s2, g2, h, hp⟩ := (phase_exclusion_invariant EBSDSegmentFeatures.row).2.2 3 1 1
    (by norm_num [fltMax, Flt.lt, EBSDSegmentFeatures.row]) (by decide) (by decide) (by decide)
  refine ⟨s2, g2, h, ?_⟩
  by_contra hne
  exact absurd (hp 1 hne) (by decide)

/-- Witness of C14 (amended) on `sample`, whose tolerance is 1: elements 0 and 2 have
different phases and are not grouped. -/
theorem cross_phase_never_merged_witness :
    (EBSDSegmentFeatures.sample.determineGrouping 0 2 1).2 = false :=
  congrArg Prod.snd ((cross_phase_never_merged EBSDSegmentFeatures.sample).1 0 2 1
    (by norm_num [fltMax, Flt.lt, EBSDSegmentFeatures.sample]) (by decide))

/-! ## Selection of the centers -/

namespace Flt

theorem ge_trans {a b c : Flt} (h1 : ge a b = true) (h2 : ge b c = true) : ge a c = true := by
  cases a <;> cases b <;> cases c <;> simp_all [ge]
  exact le_trans h2 h1

theorem ge_self_of_ge {a b : Flt} (h : ge a b = true) : ge a a = true := by
  cases a <;> cases b <;> simp_all [ge]

theorem ge_total_of_ge {a b c d : Flt} (ha : ge a c = true) (hb : ge b d = true) :
    ge a b = true ∨ ge b a = true := by
  cases a <;> cases b <;> cases c <;> cases d <;> simp_all [ge]
  all_goals exact le_total _ _

theorem lt_false_of_ge_of_lt_false {a b c : Flt} (h1 : ge a b = true)
    (h2 : lt b c = false) : lt a c = false := by
  cases a <;> cases b <;> cases c <;> simp_all [ge, lt]
  exact le_trans h2 h1

theorem lt_false_of_ge_false {d x : Flt} (hd : ge d (fin 0) = true)
    (h : ge x d = false) : lt d x = false := by
  cases d <;> cases x <;> simp_all [ge, lt]
  exact le_of_lt h

theorem lt_self (a : Flt) : lt a a = false := by
  cases a <;> simp [lt]

theorem ge_of_lt_false {a b : Flt} (ha : ge a (fin 0) = true) (hb : b ≠ nan)
    (h : lt a b = false) : ge a b = true := by
  cases a <;> cases b <;> simp_all [ge, lt]

end Flt

namespace FindFeatureReferenceMisorientations

/-- The state of the center selection for feature `f` after the first `k` elements: the
stored distance is `>= 0` and no member seen so far has a greater distance; once a member
with a distance `>= 0` was seen, the stored index is a member and the stored distance is its
distance; before that both are as initialised. -/
theorem centers_scan (s : FindFeatureReferenceMisorientations) (f : Nat)
    (hf : f < s.totalFeatures)
    (hids : ∀ i : Nat, i < s.totalPoints → 0 ≤ s.FeatureIds.getD i 0)
    (k : Nat) (hk : k ≤ s.totalPoints) :
    ((List.range k).foldl s.centerStep
        (List.replicate s.totalFeatures 0, List.replicate s.totalFeatures (Flt.fin 0))).1.length
      = s.totalFeatures ∧
    ((List.range k).foldl s.centerStep
        (List.replicate s.totalFeatures 0, List.replicate s.totalFeatures (Flt.fin 0))).2.length
      = s.totalFeatures ∧
    Flt.ge (((List.range k).foldl s.centerStep
        (List.replicate s.totalFeatures 0,
          List.replicate s.totalFeatures (Flt.fin 0))).2.getD f Flt.nan) (Flt.fin 0) = true ∧
    (∀ j : Nat, j < k → s.FeatureIds.getD j 0 = f →
      Flt.lt (((List.range k).foldl s.centerStep
        (List.replicate s.totalFeatures 0,
          List.replicate s.totalFeatures (Flt.fin 0))).2.getD f Flt.nan)
        (s.GBEuclideanDistances.getD j Flt.nan) = false) ∧
    ((∃ j : Nat, j < k ∧ s.FeatureIds.getD j 0 = f ∧
        Flt.ge (s.GBEuclideanDistances.getD j Flt.nan) (Flt.fin 0) = true) →
      ((List.range k).foldl s.centerStep
        (List.replicate s.totalFeatures 0,
          List.replicate s.totalFeatures (Flt.fin 0))).1.getD f 0 < k ∧
      s.FeatureIds.getD (((List.range k).foldl s.centerStep
        (List.replicate s.totalFeatures 0,
          List.replicate s.totalFeatures (Flt.fin 0))).1.getD f 0) 0 = f ∧
      ((List.range k).foldl s.centerStep
        (List.replicate s.totalFeatures 0,
          List.replicate s.totalFeatures (Flt.fin 0))).2.getD f Flt.nan =
        s.GBEuclideanDistances.getD (((List.range k).foldl s.centerStep
        (List.replicate s.totalFeatures 0,
          List.replicate s.totalFeatures (Flt.fin 0))).1.getD f 0) Flt.nan) ∧
    ((¬ ∃ j : Nat, j < k ∧ s.FeatureIds.getD j 0 = f ∧
        Flt.ge (s.GBEuclideanDistances.getD j Flt.nan) (Flt.fin 0) = true) →
      ((List.range k).foldl s.centerStep
        (List.replicate s.totalFeatures 0,
          List.replicate s.totalFeatures (Flt.fin 0))).2.getD f Flt.nan = Flt.fin 0 ∧
      ((List.range k).foldl s.centerStep
        (List.replicate s.totalFeatures 0,
          List.replicate s.totalFeatures (Flt.fin 0))).1.getD f 0 = 0) := by
  induction k with
  | zero =>
    have h0 : (List.replicate s.totalFeatures (Flt.fin 0)).getD f Flt.nan = Flt.fin 0 := by
      simp [List.getD_eq_getElem?_getD, List.getElem?_replicate, hf]
    have h1 : (List.replicate s.totalFeatures (0 : Nat)).getD f 0 = 0 := by
      simp [List.getD_eq_getElem?_getD, List.getElem?_replicate, hf]
    simp only [List.range_zero, List.foldl_nil]
    refine ⟨by simp, by simp, ?_, ?_, ?_, ?_⟩
    · rw [h0]; simp [Flt.ge]
    · intro j hj; omega
    · rintro ⟨j, hj, _⟩; omega
    · intro _; exact ⟨h0, h1⟩
  | succ k ih =>
    obtain ⟨hl1, hl2, ha, hb, hc, hd⟩ := ih (by omega)
    rw [List.range_succ, List.foldl_append]
    simp only [List.foldl_cons, List.foldl_nil]
    generalize (List.range k).foldl s.centerStep
      (List.replicate s.totalFeatures 0, List.replicate s.totalFeatures (Flt.fin 0)) = st
      at hl1 hl2 ha hb hc hd ⊢
    obtain ⟨C, D⟩ := st
    simp only at hl1 hl2 ha hb hc hd
    have hkk : k < s.totalPoints := by omega
    unfold centerStep
    simp only
    by_cases hge : Flt.ge (s.GBEuclideanDistances.getD k Flt.nan)
        (D.getD (s.FeatureIds.getD k 0).toNat Flt.nan) = true
    · rw [if_pos hge]
      simp only [List.length_set]
      by_cases hg : s.FeatureIds.getD k 0 = f
      · have hgn : (s.FeatureIds.getD k 0).toNat = f := by rw [hg]; simp
        rw [hgn] at hge ⊢
        rw [getD_set_self (by omega), getD_set_self (by omega)]
        have hk0 : Flt.ge (s.GBEuclideanDistances.getD k Flt.nan) (Flt.fin 0) = true :=
          Flt.ge_trans hge ha
        refine ⟨hl1, hl2, hk0, ?_, ?_, ?_⟩
        · intro j hj hjf
          rcases Nat.lt_succ_iff_lt_or_eq.mp hj with h | h
          · exact Flt.lt_false_of_ge_of_lt_false hge (hb j h hjf)
          · subst h; exact Flt.lt_self _
        · intro _
          exact ⟨by omega, hg, rfl⟩
        · intro hno
          exact absurd ⟨k, by omega, hg, hk0⟩ hno
      · have hgn : (s.FeatureIds.getD k 0).toNat ≠ f := by
          intro h
          apply hg
          have := hids k hkk
          omega
        rw [getD_set_ne hgn, getD_set_ne hgn]
        refine ⟨hl1, hl2, ha, ?_, ?_, ?_⟩
        · intro j hj hjf
          rcases Nat.lt_succ_iff_lt_or_eq.mp hj with h | h
          · exact hb j h hjf
          · subst h; exact absurd hjf hg
        · rintro ⟨j, hj, hjf, hj0⟩
          have hj2 : j < k := by
            rcases Nat.lt_succ_iff_lt_or_eq.mp hj with h | h
            · exact h
            · subst h; exact absurd hjf hg
          obtain ⟨h1, h2, h3⟩ := hc ⟨j, hj2, hjf, hj0⟩
          exact ⟨by omega, h2, h3⟩
        · intro hno
          apply hd
          rintro ⟨j, hj, hjf, hj0⟩
          exact hno ⟨j, by omega, hjf, hj0⟩
    · rw [if_neg hge]
      simp only
      have hgef : Flt.ge (s.GBEuclideanDistances.getD k Flt.nan)
          (D.getD (s.FeatureIds.getD k 0).toNat Flt.nan) = false := by
        cases h : Flt.ge (s.GBEuclideanDistances.getD k Flt.nan)
          (D.getD (s.FeatureIds.getD k 0).toNat Flt.nan)
        · rfl
        · exact absurd h hge
      refine ⟨hl1, hl2, ha, ?_, ?_, ?_⟩
      · intro j hj hjf
        rcases Nat.lt_succ_iff_lt_or_eq.mp hj with h | h
        · exact hb j h hjf
        · subst h
          have hgn : (s.FeatureIds.getD j 0).toNat = f := by rw [hjf]; simp
          rw [hgn] at hgef
          exact Flt.lt_false_of_ge_false ha hgef
      · rintro ⟨j, hj, hjf, hj0⟩
        by_cases hex : ∃ j : Nat, j < k ∧ s.FeatureIds.getD j 0 = f ∧
            Flt.ge (s.GBEuclideanDistances.getD j Flt.nan) (Flt.fin 0) = true
        · obtain ⟨h1, h2, h3⟩ := hc hex
          exact ⟨by omega, h2, h3⟩
        · exfalso
          have hjk : j = k := by
            rcases Nat.lt_succ_iff_lt_or_eq.mp hj with h | h
            · exact absurd ⟨j, h, hjf, hj0⟩ hex
            · exact h
          subst hjk
          have hgn : (s.FeatureIds.getD j 0).toNat = f := by rw [hjf]; simp
          rw [hgn, (hd hex).1] at hge
          exact hge hj0
      · intro hno
        apply hd
        rintro ⟨j, hj, hjf, hj0⟩
        exact hno ⟨j, by omega, hjf, hj0⟩

end FindFeatureReferenceMisorientations
/-- C17: the code at a failing input. On `centered` (center mode) the center chosen for
feature 1 is element 0, and the reference quaternion `q2` of element 1 is tuple 0 of the
array behind `m_AvgQuatsPtr`, with first component 5, and not the orientation of the center,
tuple 0 of `Quats`, with first component 0. -/
theorem referenceQuat_reads_AvgQuats :
    FindFeatureReferenceMisorientations.centered.ReferenceOrientation = 1 ∧
    FindFeatureReferenceMisorientations.centered.findCenters.1.getD 1 0 = 0 ∧
    (FindFeatureReferenceMisorientations.referenceQuat OrientationLib.sample
      FindFeatureReferenceMisorientations.centered
      FindFeatureReferenceMisorientations.centered.findCenters.1 1).x = Flt.fin 5 ∧
    (quatAt FindFeatureReferenceMisorientations.centered.AvgQuats 0).x = Flt.fin 5 ∧
    (quatAt FindFeatureReferenceMisorientations.centered.Quats 0).x = Flt.fin 0 := by
  decide!

/-- C18, as stated, fails: on `negativeDistance` (center mode) feature 1 has the member
element 1, but the selected center `m_Centers[1]` is 0, an element of feature 0. -/
theorem centers_counterexample :
    FindFeatureReferenceMisorientations.negativeDistance.ReferenceOrientation = 1 ∧
    FindFeatureReferenceMisorientations.negativeDistance.FeatureIds.getD 1 0 = 1 ∧
    FindFeatureReferenceMisorientations.negativeDistance.findCenters.1.getD 1 0 = 0 ∧
    FindFeatureReferenceMisorientations.negativeDistance.FeatureIds.getD 0 0 ≠ 1 := by
  decide!

/-- C18 (amended): in center mode, with all feature ids in `[0, totalFeatures)`, for every
feature id `f`: when at least one member element of `f` has a boundary distance `>= 0`, the
selected center `m_Centers[f]` is an element with `FeatureIds == f`, no element of feature `f`
has a greater distance, and its distance is `>=` the distance of every member whose distance
is not NaN; when no member has a distance `>= 0`, `m_Centers[f]` keeps its initial value
0. -/
theorem centers_maximal (s : FindFeatureReferenceMisorientations) (f : Nat)
    (hmode : s.ReferenceOrientation = 1)
    (hids : ∀ i : Nat, i < s.totalPoints →
      0 ≤ s.FeatureIds.getD i 0 ∧ s.FeatureIds.getD i 0 < s.totalFeatures)
    (hf : f < s.totalFeatures) :
    ((∃ i : Nat, i < s.totalPoints ∧ s.FeatureIds.getD i 0 = f ∧
        Flt.ge (s.GBEuclideanDistances.getD i Flt.nan) (Flt.fin 0) = true) →
      s.findCenters.1.getD f 0 < s.totalPoints ∧
      s.FeatureIds.getD (s.findCenters.1.getD f 0) 0 = f ∧
      ∀ j : Nat, j < s.totalPoints → s.FeatureIds.getD j 0 = f →
        Flt.lt (s.GBEuclideanDistances.getD (s.findCenters.1.getD f 0) Flt.nan)
          (s.GBEuclideanDistances.getD j Flt.nan) = false ∧
        (s.GBEuclideanDistances.getD j Flt.nan ≠ Flt.nan →
          Flt.ge (s.GBEuclideanDistances.getD (s.findCenters.1.getD f 0) Flt.nan)
            (s.GBEuclideanDistances.getD j Flt.nan) = true)) ∧
    ((∀ i : Nat, i < s.totalPoints → s.FeatureIds.getD i 0 = f →
        Flt.ge (s.GBEuclideanDistances.getD i Flt.nan) (Flt.fin 0) = false) →
      s.findCenters.1.getD f 0 = 0) := by
  obtain ⟨_, _, ha, hb, hc, hd⟩ := FindFeatureReferenceMisorientations.centers_scan s f hf
    (fun i hi => (hids i hi).1) s.totalPoints (le_refl _)
  have hfc : s.findCenters = (List.range s.totalPoints).foldl s.centerStep
      (List.replicate s.totalFeatures 0, List.replicate s.totalFeatures (Flt.fin 0)) := by
    unfold FindFeatureReferenceMisorientations.findCenters
    simp only
    rw [if_pos hmode]
  rw [hfc]
  constructor
  · intro hmem
    obtain ⟨h1, h2, h3⟩ := hc hmem
    refine ⟨h1, h2, ?_⟩
    intro j hj hjf
    rw [← h3]
    refine ⟨hb j hj hjf, ?_⟩
    intro hnan
    exact Flt.ge_of_lt_false ha hnan (hb j hj hjf)
  · intro hneg
    apply (hd _).2
    rintro ⟨j, hj, hjf, hj0⟩
    rw [hneg j hj hjf] at hj0
    exact absurd hj0 (by decide)

theorem centers_maximal_witness :
    FindFeatureReferenceMisorientations.mixedDistances.findCenters.1.getD 1 0 <
      FindFeatureReferenceMisorientations.mixedDistances.totalPoints ∧
    FindFeatureReferenceMisorientations.mixedDistances.FeatureIds.getD
      (FindFeatureReferenceMisorientations.mixedDistances.findCenters.1.getD 1 0) 0 =
        (1 : Nat) ∧
    ∀ j : Nat, j < FindFeatureReferenceMisorientations.mixedDistances.totalPoints →
      FindFeatureReferenceMisorientations.mixedDistances.FeatureIds.getD j 0 = (1 : Nat) →
      Flt.lt (FindFeatureReferenceMisorientations.mixedDistances.GBEuclideanDistances.getD
          (FindFeatureReferenceMisorientations.mixedDistances.findCenters.1.getD 1 0) Flt.nan)
        (FindFeatureReferenceMisorientations.mixedDistances.GBEuclideanDistances.getD j
          Flt.nan) = false ∧
      (FindFeatureReferenceMisorientations.mixedDistances.GBEuclideanDistances.getD j
          Flt.nan ≠ Flt.nan →
        Flt.ge (FindFeatureReferenceMisorientations.mixedDistances.GBEuclideanDistances.getD
            (FindFeatureReferenceMisorientations.mixedDistances.findCenters.1.getD 1 0)
            Flt.nan)
          (FindFeatureReferenceMisorientations.mixedDistances.GBEuclideanDistances.getD j
            Flt.nan) = true) :=
  (centers_maximal FindFeatureReferenceMisorientations.mixedDistances 1 (by decide)
    (by decide!) (by decide)).1 ⟨1, by decide, by decide, by decide!⟩

/-! ## Traversal order of the statistics filters -/

theorem gridPoint_decode {X Y : Nat} {col row : Nat} (plane : Nat) (hc : col < X)
    (hr : row < Y) :
    (plane * X * Y + row * X + col) % X = col ∧
    (plane * X * Y + row * X + col) / X % Y = row ∧
    (plane * X * Y + row * X + col) / X / Y = plane := by
  have hX : 0 < X := by omega
  have hY : 0 < Y := by omega
  have e : plane * X * Y + row * X + col = col + X * (row + Y * plane) := by ring
  rw [e, Nat.add_mul_mod_self_left, Nat.add_mul_div_left _ _ hX, Nat.mod_eq_of_lt hc,
    Nat.div_eq_of_lt hc, Nat.zero_add, Nat.add_mul_mod_self_left, Nat.add_mul_div_left _ _ hY,
    Nat.mod_eq_of_lt hr, Nat.div_eq_of_lt hr, Nat.zero_add]
  exact ⟨rfl, rfl, rfl⟩

theorem mem_gridPoints (X Y Z p : Nat) :
    p ∈ gridPoints X Y Z ↔
      ∃ col, col < X ∧ ∃ row, row < Y ∧ ∃ plane, plane < Z ∧
        plane * X * Y + row * X + col = p := by
  simp only [gridPoints, List.mem_flatMap, List.mem_map, List.mem_range]

theorem mem_gridPoints_iff_lt (X Y Z p : Nat) : p ∈ gridPoints X Y Z ↔ p < X * Y * Z := by
  rw [mem_gridPoints]
  constructor
  · rintro ⟨col, hc, row, hr, plane, hp, rfl⟩
    have h1 : plane * X * Y + row * X + col < plane * X * Y + (row + 1) * X := by
      have : (row + 1) * X = row * X + X := by ring
      omega
    have h2 : (row + 1) * X ≤ Y * X := Nat.mul_le_mul_right X hr
    have h3 : plane * X * Y + Y * X = (plane + 1) * (X * Y) := by ring
    have h4 : (plane + 1) * (X * Y) ≤ Z * (X * Y) := Nat.mul_le_mul_right (X * Y) hp
    have h5 : Z * (X * Y) = X * Y * Z := by ring
    omega
  · intro hp
    have hX : 0 < X := by
      rcases Nat.eq_zero_or_pos X with h | h
      · subst h; simp at hp
      · exact h
    have hY : 0 < Y := by
      rcases Nat.eq_zero_or_pos Y with h | h
      · subst h; simp at hp
      · exact h
    refine ⟨p % X, Nat.mod_lt _ hX, p / X % Y, Nat.mod_lt _ hY, p / X / Y, ?_, ?_⟩
    · rw [Nat.div_div_eq_div_mul]
      exact Nat.div_lt_of_lt_mul hp
    · have e1 := Nat.div_add_mod p X
      have e2 := Nat.div_add_mod (p / X) Y
      have : p / X / Y * X * Y + p / X % Y * X = X * (Y * (p / X / Y) + p / X % Y) := by ring
      rw [this, e2, e1]

theorem nodup_gridPoints (X Y Z : Nat) : (gridPoints X Y Z).Nodup := by
  unfold gridPoints
  rw [List.nodup_flatMap]
  refine ⟨?_, ?_⟩
  · intro col hc
    rw [List.mem_range] at hc
    rw [List.nodup_flatMap]
    refine ⟨?_, ?_⟩
    · intro row hr
      rw [List.mem_range] at hr
      apply List.Nodup.map_on _ (List.nodup_range _)
      intro a _ b _ hab
      have ha := (gridPoint_decode a hc hr).2.2
      have hb := (gridPoint_decode b hc hr).2.2
      rw [hab] at ha
      exact ha.symm.trans hb
    · apply List.Nodup.pairwise_of_forall_ne (List.nodup_range _)
      intro r1 h1 r2 h2 hne
      rw [List.mem_range] at h1 h2
      rw [Function.onFun, List.disjoint_left]
      intro p hp1 hp2
      simp only [List.mem_map, List.mem_range] at hp1 hp2
      obtain ⟨a, _, rfl⟩ := hp1
      obtain ⟨b, _, hb⟩ := hp2
      have ha := (gridPoint_decode a hc h1).2.1
      have hb2 := (gridPoint_decode b hc h2).2.1
      rw [hb] at hb2
      exact hne (ha.symm.trans hb2)
  · apply List.Nodup.pairwise_of_forall_ne (List.nodup_range _)
    intro c1 h1 c2 h2 hne
    rw [List.mem_range] at h1 h2
    rw [Function.onFun, List.disjoint_left]
    intro p hp1 hp2
    simp only [List.mem_flatMap, List.mem_map, List.mem_range] at hp1 hp2
    obtain ⟨r1, hr1, a, _, rfl⟩ := hp1
    obtain ⟨r2, hr2, b, _, hb⟩ := hp2
    have ha := (gridPoint_decode a h1 hr1).1
    have hb2 := (gridPoint_decode b h2 hr2).1
    rw [hb] at hb2
    exact hne (ha.symm.trans hb2)

theorem gridPoints_perm (X Y Z : Nat) : (gridPoints X Y Z).Perm (List.range (X * Y * Z)) := by
  rw [List.perm_ext_iff_of_nodup (nodup_gridPoints X Y Z) (List.nodup_range _)]
  intro p
  rw [mem_gridPoints_iff_lt, List.mem_range]

/-! ## First pass of the statistics filters -/

namespace FindFeatureReferenceMisorientations

end FindFeatureReferenceMisorientations

namespace FindFeatureReferenceCAxisMisorientations

end FindFeatureReferenceCAxisMisorientations

theorem getD_replicate_of_lt {α : Type} {n i : Nat} (a d : α) (h : i < n) :
    (List.replicate n a).getD i d = a := by
  simp [List.getD_eq_getElem?_getD, List.getElem?_replicate, h]

theorem sum_map_zero (M : List Nat) (g : Nat → Flt) (h : ∀ i ∈ M, g i = Flt.fin 0) :
    (M.map g).sum = Flt.fin 0 := by
  induction M with
  | nil => rfl
  | cons p M ih =>
    rw [List.map_cons, List.sum_cons, h p (List.mem_cons_self _ _),
      ih (fun i hi => h i (List.mem_cons_of_mem _ hi))]
    exact zero_add _

/-- The mean of stored scalars that are all 0 is 0. -/
theorem featureMean_replicate_zero (n : Nat) (M : List Nat) (h : ∀ i ∈ M, i < n) :
    featureMean (List.replicate n (Flt.fin 0)) M = Flt.fin 0 := by
  unfold featureMean
  split
  · rfl
  · rename_i hn
    rw [sum_map_zero M _ (fun i hi => getD_replicate_of_lt _ _ (h i hi))]
    have hq : ((M.length : Nat) : ℚ) ≠ 0 := by exact_mod_cast hn
    simp [Flt.div, hq]

namespace FindFeatureReferenceMisorientations

end FindFeatureReferenceMisorientations

namespace FindFeatureReferenceCAxisMisorientations

end FindFeatureReferenceCAxisMisorientations

/-! ## A feature with more than 2^24 members -/

namespace FindFeatureReferenceMisorientations

end FindFeatureReferenceMisorientations

/-- C16: the code at a failing input. On `phaseZeroMember` the only counted member of
feature 1 is element 0, whose scalar 10 is the mean, so that the deviation sum over the
members is 0 and the standard deviation of the claim is 0; the third pass also adds the
squared deviation `(0 - 10)^2` of element 1, which has feature id 1 and phase 0, and the
output is `sqrtf(100) = 10`. -/
theorem stdev_counts_phase_zero_element :
    featureMembers FindFeatureReferenceCAxisMisorientations.phaseZeroMember.FeatureIds
      FindFeatureReferenceCAxisMisorientations.phaseZeroMember.CellPhases 1 = [0] ∧
    (FindFeatureReferenceCAxisMisorientations.phaseZeroMember.execute CAxisLib.sample 2 1
      1).FeatureReferenceCAxisMisorientations = [Flt.fin 10, Flt.fin 0] ∧
    (FindFeatureReferenceCAxisMisorientations.phaseZeroMember.execute CAxisLib.sample 2 1
      1).FeatureAvgCAxisMisorientations.getD 1 Flt.nan = Flt.fin 10 ∧
    featureStdev CAxisLib.sample.sqrtf
      (FindFeatureReferenceCAxisMisorientations.phaseZeroMember.execute CAxisLib.sample 2 1
        1).FeatureReferenceCAxisMisorientations (Flt.fin 10)
      (featureMembers FindFeatureReferenceCAxisMisorientations.phaseZeroMember.FeatureIds
        FindFeatureReferenceCAxisMisorientations.phaseZeroMember.CellPhases 1) = Flt.fin 0 ∧
    (FindFeatureReferenceCAxisMisorientations.phaseZeroMember.execute CAxisLib.sample 2 1
      1).FeatureStdevCAxisMisorientations.getD 1 Flt.nan = Flt.fin 10 := by
  decide!

/-! ## Growth of a feature as reachability -/

theorem Reachable.mono {E1 E2 : Nat → Nat → Prop} {nx ny nz seed i : Nat}
    (h : ∀ a b : Nat, E1 a b → E2 a b) (hr : Reachable E1 nx ny nz seed i) :
    Reachable E2 nx ny nz seed i := by
  induction hr with
  | seed => exact Reachable.seed
  | step _ hn he ih => exact Reachable.step ih hn (h _ _ he)

theorem getD_set_of_eq {l : List Int} {n i : Nat} {g : Int} (hn : n < l.length)
    (h : l.getD i 0 = g) : (l.set n g).getD i 0 = g := by
  by_cases e : n = i
  · subst e; exact getD_set_self hn _ _
  · rw [getD_set_ne e]; exact h

/-- At the end of the growth the feature is the set of reachable elements. -/
theorem Filling.done {E : Nat → Nat → Prop} {nx ny nz N seed : Nat} {g : Int} {l : List Int}
    (h : Filling E nx ny nz N seed g l []) (i : Nat) :
    l.getD i 0 = g ↔ Reachable E nx ny nz seed i := by
  obtain ⟨_, _, hs, hseed, _, hc⟩ := h
  constructor
  · exact hs i
  · intro hr
    induction hr with
    | seed => exact hseed
    | step _ hn he ih => exact hc _ ih (List.not_mem_nil _) _ hn he

section Reach

variable {σ : Type} {seg : Segmenter σ} {ids : σ → List Int} {cnt : σ → Nat}
  {adm : σ → Nat → Prop} {edge : σ → Nat → Nat → Prop}

theorem growNeighbors_filling (L : seg.Lawful ids cnt adm) (G : seg.Grouping ids edge)
    (E : Nat → Nat → Prop) (nx ny nz seed : Nat) (g : Int) (cur : Nat) :
    ∀ (nbrs : List Nat) (s : σ) (wl : List Nat) (D : Nat → Prop),
      (∀ n ∈ nbrs, n ∈ neighbors nx ny nz cur) → (∀ a b : Nat, edge s a b ↔ E a b) →
      Filling E nx ny nz (nx * ny * nz) seed g (ids s) (cur :: wl) →
      (∀ m : Nat, D m → E cur m → (ids s).getD m 0 = g) →
      (∀ a b : Nat, edge (growNeighbors seg g cur nbrs s wl).1 a b ↔ E a b) ∧
      Filling E nx ny nz (nx * ny * nz) seed g (ids (growNeighbors seg g cur nbrs s wl).1)
        (cur :: (growNeighbors seg g cur nbrs s wl).2) ∧
      (∀ m : Nat, (D m ∨ m ∈ nbrs) → E cur m →
        (ids (growNeighbors seg g cur nbrs s wl).1).getD m 0 = g) := by
  intro nbrs
  induction nbrs with
  | nil =>
    intro s wl D _ he hF hD
    refine ⟨he, hF, ?_⟩
    intro m hm
    rcases hm with h | h
    · exact hD m h
    · exact absurd h (List.not_mem_nil _)
  | cons n rest ih =>
    intro s wl D hn he hF hD
    have hunf : growNeighbors seg g cur (n :: rest) s wl =
        growNeighbors seg g cur rest (seg.determineGrouping s cur n g).1
          (if (seg.determineGrouping s cur n g).2 then wl ++ [n] else wl) := rfl
    rw [hunf]
    obtain ⟨hlen, hmem, hsound, hseed, hzg, hclos⟩ := hF
    have hcur := hmem cur (List.mem_cons_self _ _)
    have hnN : n < nx * ny * nz :=
      neighbors_lt nx ny nz cur hcur.1 n (hn n (List.mem_cons_self _ _))
    have he2 : ∀ a b : Nat, edge (seg.determineGrouping s cur n g).1 a b ↔ E a b :=
      fun a b => (G.group_edge s cur n g a b).trans (he a b)
    have hfin : ∀ (x : (∀ a b : Nat, edge (growNeighbors seg g cur rest
          (seg.determineGrouping s cur n g).1
          (if (seg.determineGrouping s cur n g).2 then wl ++ [n] else wl)).1 a b ↔ E a b) ∧
        Filling E nx ny nz (nx * ny * nz) seed g (ids (growNeighbors seg g cur rest
          (seg.determineGrouping s cur n g).1
          (if (seg.determineGrouping s cur n g).2 then wl ++ [n] else wl)).1)
          (cur :: (growNeighbors seg g cur rest (seg.determineGrouping s cur n g).1
          (if (seg.determineGrouping s cur n g).2 then wl ++ [n] else wl)).2) ∧
        (∀ m : Nat, ((D m ∨ m = n) ∨ m ∈ rest) → E cur m →
          (ids (growNeighbors seg g cur rest (seg.determineGrouping s cur n g).1
          (if (seg.determineGrouping s cur n g).2 then wl ++ [n] else wl)).1).getD m 0 = g)),
        (∀ a b : Nat, edge (growNeighbors seg g cur rest
          (seg.determineGrouping s cur n g).1
          (if (seg.determineGrouping s cur n g).2 then wl ++ [n] else wl)).1 a b ↔ E a b) ∧
        Filling E nx ny nz (nx * ny * nz) seed g (ids (growNeighbors seg g cur rest
          (seg.determineGrouping s cur n g).1
          (if (seg.determineGrouping s cur n g).2 then wl ++ [n] else wl)).1)
          (cur :: (growNeighbors seg g cur rest (seg.determineGrouping s cur n g).1
          (if (seg.determineGrouping s cur n g).2 then wl ++ [n] else wl)).2) ∧
        (∀ m : Nat, (D m ∨ m ∈ n :: rest) → E cur m →
          (ids (growNeighbors seg g cur rest (seg.determineGrouping s cur n g).1
          (if (seg.determineGrouping s cur n g).2 then wl ++ [n] else wl)).1).getD m 0 = g) := by
      rintro ⟨x1, x2, x3⟩
      refine ⟨x1, x2, ?_⟩
      intro m hm
      apply x3
      rcases hm with h | h
      · exact Or.inl (Or.inl h)
      · rcases List.mem_cons.mp h with h | h
        · exact Or.inl (Or.inr h)
        · exact Or.inr h
    apply hfin
    apply ih _ _ (fun m => D m ∨ m = n) (fun m hm => hn m (List.mem_cons_of_mem _ hm)) he2
    · -- the invariant after the call
      by_cases ht : (seg.determineGrouping s cur n g).2 = true
      · obtain ⟨hz, hE⟩ := (G.group_iff s cur n g).mp ht
        have hids : ids (seg.determineGrouping s cur n g).1 = (ids s).set n g := by
          rcases L.determineGrouping_views s cur n g with ⟨hf, _⟩ | ⟨_, _, h⟩
          · rw [ht] at hf; exact absurd hf (by simp)
          · exact h
        rw [hids, if_pos ht]
        have hnl : n < (ids s).length := by rw [hlen]; exact hnN
        refine ⟨by rw [List.length_set]; exact hlen, ?_, ?_, getD_set_of_eq hnl hseed, ?_, ?_⟩
        · intro p hp
          rcases List.mem_cons.mp hp with h | h
          · subst h; exact ⟨hcur.1, getD_set_of_eq hnl hcur.2⟩
          · rcases List.mem_append.mp h with h | h
            · have := hmem p (List.mem_cons_of_mem _ h)
              exact ⟨this.1, getD_set_of_eq hnl this.2⟩
            · rw [List.mem_singleton] at h
              subst h
              exact ⟨hnN, getD_set_self hnl _ _⟩
        · intro i hi
          by_cases e : n = i
          · subst e
            exact Reachable.step (hsound cur hcur.2) (hn n (List.mem_cons_self _ _))
              ((he cur n).mp hE)
          · rw [getD_set_ne e] at hi
            exact hsound i hi
        · intro i
          by_cases e : n = i
          · subst e; right; exact getD_set_self hnl _ _
          · rw [getD_set_ne e]; exact hzg i
        · intro r hr hrw m hm hEm
          have hrn : n ≠ r := by
            intro e
            apply hrw
            subst e
            exact List.mem_cons_of_mem _ (List.mem_append_right _ (List.mem_singleton_self _))
          rw [getD_set_ne hrn] at hr
          apply getD_set_of_eq hnl
          apply hclos r hr _ m hm hEm
          intro hmem2
          apply hrw
          rcases List.mem_cons.mp hmem2 with h | h
          · rw [h]; exact List.mem_cons_self _ _
          · exact List.mem_cons_of_mem _ (List.mem_append_left _ h)
      · have hids : ids (seg.determineGrouping s cur n g).1 = ids s := by
          rcases L.determineGrouping_views s cur n g with ⟨_, h⟩ | ⟨hf, _, _⟩
          · exact h
          · exact absurd hf ht
        rw [hids, if_neg ht]
        exact ⟨hlen, hmem, hsound, hseed, hzg, hclos⟩
    · -- the neighbours treated so far
      intro m hm hEm
      by_cases ht : (seg.determineGrouping s cur n g).2 = true
      · have hids : ids (seg.determineGrouping s cur n g).1 = (ids s).set n g := by
          rcases L.determineGrouping_views s cur n g with ⟨hf, _⟩ | ⟨_, _, h⟩
          · rw [ht] at hf; exact absurd hf (by simp)
          · exact h
        have hnl : n < (ids s).length := by rw [hlen]; exact hnN
        rw [hids]
        rcases hm with h | h
        · exact getD_set_of_eq hnl (hD m h hEm)
        · subst h; exact getD_set_self hnl _ _
      · have hids : ids (seg.determineGrouping s cur n g).1 = ids s := by
          rcases L.determineGrouping_views s cur n g with ⟨_, h⟩ | ⟨hf, _, _⟩
          · exact h
          · exact absurd hf ht
        rw [hids]
        rcases hm with h | h
        · exact hD m h hEm
        · subst h
          rcases hzg m with h0 | hg
          · exact absurd ((G.group_iff s cur m g).mpr ⟨h0, (he cur m).mpr hEm⟩) ht
          · exact hg

theorem floodFill_filling (L : seg.Lawful ids cnt adm) (G : seg.Grouping ids edge)
    (E : Nat → Nat → Prop) (nx ny nz seed : Nat) (g : Int) :
    ∀ (fuel : Nat) (s : σ) (wl : List Nat) (s2 : σ),
      (∀ a b : Nat, edge s a b ↔ E a b) →
      Filling E nx ny nz (nx * ny * nz) seed g (ids s) wl →
      floodFill seg nx ny nz g fuel s wl = some s2 →
      (∀ a b : Nat, edge s2 a b ↔ E a b) ∧
      Filling E nx ny nz (nx * ny * nz) seed g (ids s2) [] := by
  intro fuel
  induction fuel with
  | zero =>
    intro s wl s2 he hF h
    cases wl with
    | nil =>
      have : s = s2 := by simpa [floodFill] using h
      exact this ▸ ⟨he, hF⟩
    | cons p rest => simp [floodFill] at h
  | succ fuel ih =>
    intro s wl s2 he hF h
    cases wl with
    | nil =>
      have : s = s2 := by simpa [floodFill] using h
      exact this ▸ ⟨he, hF⟩
    | cons p rest =>
      have hunf : floodFill seg nx ny nz g (fuel + 1) s (p :: rest) =
          floodFill seg nx ny nz g fuel
            (growNeighbors seg g p (neighbors nx ny nz p) s rest).1
            (growNeighbors seg g p (neighbors nx ny nz p) s rest).2 := rfl
      rw [hunf] at h
      obtain ⟨he2, hF2, hD⟩ := growNeighbors_filling L G E nx ny nz seed g p
        (neighbors nx ny nz p) s rest (fun _ => False) (fun n hn => hn) he hF
        (fun m hm => hm.elim)
      apply ih _ _ s2 he2 _ h
      obtain ⟨hlen, hmem, hsound, hseed, hzg, hclos⟩ := hF2
      refine ⟨hlen, fun q hq => hmem q (List.mem_cons_of_mem _ hq), hsound, hseed, hzg, ?_⟩
      intro r hr hrw m hm hEm
      by_cases e : r = p
      · subst e
        exact hD m (Or.inr hm) hEm
      · apply hclos r hr _ m hm hEm
        intro hmem2
        rcases List.mem_cons.mp hmem2 with h | h
        · exact e h
        · exact hrw h

end Reach

theorem Flt.lt_mono_right {w a b : Flt} (h1 : Flt.lt w a = true) (h2 : Flt.le a b = true) :
    Flt.lt w b = true := by
  unfold Flt.le at h2
  cases w <;> cases a <;> cases b <;> simp_all [Flt.lt, Flt.ge]
  exact lt_of_lt_of_le h1 h2

theorem getD_set_eq_one_iff {l : List Int} {n j : Nat} {g : Int} (hz : l.getD n 0 = 0)
    (hg : g ≠ 1) : (l.set n g).getD j 0 = 1 ↔ l.getD j 0 = 1 := by
  by_cases e : n = j
  · subst e
    rw [hz]
    by_cases hn : n < l.length
    · rw [getD_set_self hn]
      constructor
      · intro h; exact absurd h hg
      · intro h; exact absurd h (by decide)
    · have : (l.set n g).getD n 0 = 0 := by
        rw [List.getD_eq_default]
        rw [List.length_set]; omega
      rw [this]
  · rw [getD_set_ne e]

section Reach

variable {σ : Type} {seg : Segmenter σ} {ids : σ → List Int} {cnt : σ → Nat}
  {adm : σ → Nat → Prop} {edge : σ → Nat → Nat → Prop}

/-- The features grown after the first leave the elements of feature 1 as they are. -/
theorem segmentLoop_keeps_first (L : seg.Lawful ids cnt adm) (nx ny nz fillFuel : Nat)
    (P : Nat → Prop) :
    ∀ (fuel : Nat) (s : σ) (g ns : Int) (out : σ × Int), 2 ≤ g →
      (∀ i : Nat, (ids s).getD i 0 = 1 ↔ P i) →
      segmentLoop seg nx ny nz fillFuel fuel s g ns = some out →
      ∀ i : Nat, (ids out.1).getD i 0 = 1 ↔ P i := by
  intro fuel s g ns out hg hP hrun
  have h := segmentLoop_invariant seg nx ny nz fillFuel
    (fun g s => 2 ≤ g ∧ ∀ i : Nat, (ids s).getD i 0 = 1 ↔ P i)
    (fun g s => 2 ≤ g ∧ ∀ i : Nat, (ids s).getD i 0 = 1 ↔ P i)
    (fun _ _ _ => True)
    (by
      rintro g s ns ⟨hg, hP⟩ hs
      refine ⟨⟨hg, ?_⟩, trivial⟩
      rcases L.getSeed_views s g ns with ⟨_, h, _⟩ | ⟨i, _, _, _, hz, h, _⟩
      · rw [h]; exact hP
      · rw [h]
        intro j
        rw [getD_set_eq_one_iff hz (by omega)]
        exact hP j)
    (by
      rintro g s ns ⟨hg, hP⟩ hs
      refine ⟨hg, ?_⟩
      rcases L.getSeed_views s g ns with ⟨_, h, _⟩ | ⟨i, _, _, _, hz, h, _⟩
      · rw [h]; exact hP
      · rw [h]
        intro j
        rw [getD_set_eq_one_iff hz (by omega)]
        exact hP j)
    (by
      rintro g s r n ⟨hg, hP⟩ _ _
      refine ⟨⟨hg, ?_⟩, fun _ _ => trivial, fun _ => trivial⟩
      rcases L.determineGrouping_views s r n g with ⟨_, h⟩ | ⟨_, hz, h⟩
      · rw [h]; exact hP
      · rw [h]
        intro j
        rw [getD_set_eq_one_iff hz (by omega)]
        exact hP j)
    (by
      rintro g s ⟨hg, hP⟩
      exact ⟨by omega, hP⟩)
    fuel s g ns out ⟨hg, hP⟩ hrun
  exact h.2

/-- Feature 1 of a run started from all-zero feature ids is the set of the elements reachable
from the first seed. -/
theorem first_feature_reachable (L : seg.Lawful ids cnt adm) (G : seg.Grouping ids edge)
    (nx ny nz : Nat) (s : σ) (hlen : (ids s).length = nx * ny * nz)
    (hzero : ∀ i : Nat, (ids s).getD i 0 = 0) (out : σ × Int)
    (hrun : SegmentFeatures.execute seg nx ny nz s = some out) (i : Nat) :
    (ids out.1).getD i 0 = 1 ↔
      (0 ≤ (seg.getSeed s 1 0).2 ∧
        Reachable (edge s) nx ny nz (seg.getSeed s 1 0).2.toNat i) := by
  unfold SegmentFeatures.execute at hrun
  have hunf : segmentLoop seg nx ny nz (nx * ny * nz + 1) (nx * ny * nz + 1) s 1 0 =
      (if (seg.getSeed s 1 0).2 ≥ 0 then
        match floodFill seg nx ny nz 1 (nx * ny * nz + 1) (seg.getSeed s 1 0).1
            [(seg.getSeed s 1 0).2.toNat] with
        | none => none
        | some s2 => segmentLoop seg nx ny nz (nx * ny * nz + 1) (nx * ny * nz) s2 (1 + 1)
            ((seg.getSeed s 1 0).2 + 1)
      else some ((seg.getSeed s 1 0).1, 1)) := rfl
  rw [hunf] at hrun
  by_cases hs : 0 ≤ (seg.getSeed s 1 0).2
  · rw [if_pos hs] at hrun
    cases hff : floodFill seg nx ny nz 1 (nx * ny * nz + 1) (seg.getSeed s 1 0).1
        [(seg.getSeed s 1 0).2.toNat] with
    | none =>
      rw [hff] at hrun
      simp at hrun
    | some s2 =>
      rw [hff] at hrun
      simp only at hrun
      have hfill : Filling (edge s) nx ny nz (nx * ny * nz) (seg.getSeed s 1 0).2.toNat 1
          (ids (seg.getSeed s 1 0).1) [(seg.getSeed s 1 0).2.toNat] := by
        rcases L.getSeed_views s 1 0 with ⟨h, _⟩ | ⟨k, hk, _, hkl, hz, h, _⟩
        · rw [h] at hs; exact absurd hs (by decide)
        · rw [h, hk]
          simp only [Int.toNat_ofNat]
          have hone : ∀ j : Nat, ((ids s).set k 1).getD j 0 = 1 → j = k := by
            intro j hj
            by_contra e
            rw [getD_set_ne (fun h => e h.symm), hzero j] at hj
            exact absurd hj (by decide)
          refine ⟨by rw [List.length_set]; exact hlen, ?_, ?_, getD_set_self hkl _ _, ?_, ?_⟩
          · intro p hp
            rw [List.mem_singleton] at hp
            subst hp
            exact ⟨by omega, getD_set_self hkl _ _⟩
          · intro j hj
            rw [hone j hj]
            exact Reachable.seed
          · intro j
            by_cases e : k = j
            · subst e; right; exact getD_set_self hkl _ _
            · left; rw [getD_set_ne e]; exact hzero j
          · intro r hr hrw
            rw [List.mem_singleton] at hrw
            exact absurd (hone r hr) hrw
      obtain ⟨_, hdone⟩ := floodFill_filling L G (edge s) nx ny nz
        (seg.getSeed s 1 0).2.toNat 1 _ _ _ s2 (fun a b => G.seed_edge s 1 0 a b) hfill hff
      rw [segmentLoop_keeps_first L nx ny nz _
        (fun j => Reachable (edge s) nx ny nz (seg.getSeed s 1 0).2.toNat j) _ s2 _ _ out
        (by decide) (fun j => hdone.done j) hrun i]
      exact ⟨fun h => ⟨hs, h⟩, fun h => h.2⟩
  · rw [if_neg hs] at hrun
    have hout : out = ((seg.getSeed s 1 0).1, 1) := by simpa using hrun.symm
    rw [hout]
    constructor
    · intro h
      exfalso
      rcases L.getSeed_views s 1 0 with ⟨_, hids, _⟩ | ⟨k, hk, _⟩
      · simp only at h
        rw [hids, hzero i] at h
        exact absurd h (by decide)
      · rw [hk] at hs
        exact hs (Int.ofNat_nonneg k)
    · intro h
      exact absurd h.1 hs

end Reach

/-! ## Monotonicity in the tolerance -/

theorem ebsd_grouping : EBSDSegmentFeatures.segmenter.Grouping
    (fun s => s.FeatureIds) EBSDSegmentFeatures.Groupable where
  group_iff := by
    intro s r n g
    show (s.determineGrouping r n g).2 = true ↔ _
    unfold EBSDSegmentFeatures.determineGrouping EBSDSegmentFeatures.Groupable
    simp only
    generalize (if s.CellPhases.getD r 0 = s.CellPhases.getD n 0 then
      s.misorientation r n else fltMax) = w
    split
    · rename_i h
      constructor
      · intro h2; exact absurd h2 (by simp)
      · intro h2; exact absurd h h2.2.1
    · rename_i h
      split
      · rename_i h2
        split
        · rename_i h3
          constructor
          · intro _; exact ⟨h2.1, h, h2.2, h3⟩
          · intro _; rfl
        · rename_i h3
          constructor
          · intro h4; exact absurd h4 (by simp)
          · intro h4; exact absurd h4.2.2.2 h3
      · rename_i h2
        constructor
        · intro h4; exact absurd h4 (by simp)
        · intro h4; exact absurd ⟨h4.1, h4.2.2.1⟩ h2
  group_edge := by
    intro s r n g a b
    show EBSDSegmentFeatures.Groupable (s.determineGrouping r n g).1 a b ↔ _
    rcases s.determineGrouping_cases r n g with hs | ⟨_, _, hs⟩
    · rw [hs]
    · rw [hs]; exact Iff.rfl
  seed_edge := by
    intro s g ns a b
    show EBSDSegmentFeatures.Groupable (s.getSeed g ns).1 a b ↔ _
    rcases s.getSeed_cases g ns with ⟨_, hs, _⟩ | ⟨i, _, _, _, _, _, hs⟩
    · rw [hs]; exact Iff.rfl
    · rw [hs]; exact Iff.rfl

theorem vector_grouping (m : SIMPLibMath) : (VectorSegmentFeatures.segmenter m).Grouping
    (fun s => s.FeatureIds) (VectorSegmentFeatures.Groupable m) where
  group_iff := by
    intro s r n g
    show (s.determineGrouping m r n g).2 = true ↔ _
    unfold VectorSegmentFeatures.determineGrouping VectorSegmentFeatures.Groupable
    split
    · rename_i h2
      split
      · rename_i h3
        constructor
        · intro _; exact ⟨h2.1, h2.2, h3⟩
        · intro _; rfl
      · rename_i h3
        constructor
        · intro h4; exact absurd h4 (by simp)
        · intro h4; exact absurd h4.2.2 h3
    · rename_i h2
      constructor
      · intro h4; exact absurd h4 (by simp)
      · intro h4; exact absurd ⟨h4.1, h4.2.1⟩ h2
  group_edge := by
    intro s r n g a b
    show VectorSegmentFeatures.Groupable m (s.determineGrouping m r n g).1 a b ↔ _
    rcases s.vec_determineGrouping_cases m r n g with hs | ⟨_, _, hs⟩
    · rw [hs]
    · rw [hs]; exact Iff.rfl
  seed_edge := by
    intro s g ns a b
    show VectorSegmentFeatures.Groupable m (s.getSeed g ns).1 a b ↔ _
    rcases s.vec_getSeed_cases g ns with ⟨_, hs, _⟩ | ⟨i, _, _, _, _, _, hs⟩
    · rw [hs]; exact Iff.rfl
    · rw [hs]; exact Iff.rfl

theorem ebsd_getSeedLoop_tolerance (s : EBSDSegmentFeatures) (t : Flt) (fuel rp : Nat) :
    EBSDSegmentFeatures.getSeedLoop { s with MisoTolerance := t } fuel rp =
      s.getSeedLoop fuel rp := by
  induction fuel generalizing rp with
  | zero => rfl
  | succ fuel ih =>
    unfold EBSDSegmentFeatures.getSeedLoop
    rw [ih]
    rfl

theorem ebsd_getSeed_tolerance (s : EBSDSegmentFeatures) (t : Flt) (g ns : Int) :
    (EBSDSegmentFeatures.getSeed { s with MisoTolerance := t } g ns).2 = (s.getSeed g ns).2 := by
  rw [EBSDSegmentFeatures.getSeed_snd, EBSDSegmentFeatures.getSeed_snd,
    ebsd_getSeedLoop_tolerance]
  rfl

theorem vector_getSeedLoop_tolerance (s : VectorSegmentFeatures) (t : Flt) (fuel rp : Nat) :
    VectorSegmentFeatures.getSeedLoop { s with AngleToleranceRad := t } fuel rp =
      s.getSeedLoop fuel rp := by
  induction fuel generalizing rp with
  | zero => rfl
  | succ fuel ih =>
    unfold VectorSegmentFeatures.getSeedLoop
    rw [ih]
    rfl

theorem vector_getSeed_tolerance (s : VectorSegmentFeatures) (t : Flt) (g ns : Int) :
    (VectorSegmentFeatures.getSeed { s with AngleToleranceRad := t } g ns).2 =
      (s.getSeed g ns).2 := by
  have h : ∀ u : VectorSegmentFeatures, (u.getSeed g ns).2 =
      u.getSeedLoop (u.totalPoints - toSizeT ns) (toSizeT ns) := by
    intro u
    unfold VectorSegmentFeatures.getSeed
    simp only
    split <;> rfl
  rw [h, h, vector_getSeedLoop_tolerance]
  rfl

/-- C20 (tolerance monotonicity): for every input and every two tolerances `t1 <= t2`, the
runs of the scheduler with the two tolerances, from all-zero feature ids and without
randomization, both complete, and every element that receives feature id 1 under `t1` also
receives feature id 1 under `t2`; for both segmenters. -/
theorem tolerance_monotone (m : SIMPLibMath) (nx ny nz : Nat) (se : EBSDSegmentFeatures)
    (sv : VectorSegmentFeatures) (t1 t2 : Flt) (hle : Flt.le t1 t2 = true) :
    (nx * ny * nz = se.totalPoints → se.totalPoints < 2 ^ 63 → (∀ v ∈ se.FeatureIds, v = 0) →
      ∃ o1 o2 : EBSDSegmentFeatures × Int,
        SegmentFeatures.execute EBSDSegmentFeatures.segmenter nx ny nz
          { se with MisoTolerance := t1 } = some o1 ∧
        SegmentFeatures.execute EBSDSegmentFeatures.segmenter nx ny nz
          { se with MisoTolerance := t2 } = some o2 ∧
        ∀ i : Nat, o1.1.FeatureIds.getD i 0 = 1 → o2.1.FeatureIds.getD i 0 = 1) ∧
    (nx * ny * nz = sv.totalPoints → sv.totalPoints < 2 ^ 63 → (∀ v ∈ sv.FeatureIds, v = 0) →
      ∃ o1 o2 : VectorSegmentFeatures × Int,
        SegmentFeatures.execute (VectorSegmentFeatures.segmenter m) nx ny nz
          { sv with AngleToleranceRad := t1 } = some o1 ∧
        SegmentFeatures.execute (VectorSegmentFeatures.segmenter m) nx ny nz
          { sv with AngleToleranceRad := t2 } = some o2 ∧
        ∀ i : Nat, o1.1.FeatureIds.getD i 0 = 1 → o2.1.FeatureIds.getD i 0 = 1) := by
  constructor
  · intro hdim hsize hzero
    have hz : ∀ i : Nat, se.FeatureIds.getD i 0 = 0 := getD_eq_zero_of_forall_mem hzero
    obtain ⟨a1, g1, hrun1, _⟩ := scheduler_completes ebsd_lawful nx ny nz (by omega) False
      { se with MisoTolerance := t1 } hdim.symm (fun i _ => hz i) (fun h => h.elim)
    obtain ⟨a2, g2, hrun2, _⟩ := scheduler_completes ebsd_lawful nx ny nz (by omega) False
      { se with MisoTolerance := t2 } hdim.symm (fun i _ => hz i) (fun h => h.elim)
    refine ⟨(a1, g1), (a2, g2), hrun1, hrun2, ?_⟩
    intro i hi
    have h1 := (first_feature_reachable ebsd_lawful ebsd_grouping nx ny nz
      { se with MisoTolerance := t1 } hdim.symm hz (a1, g1) hrun1 i).mp hi
    apply (first_feature_reachable ebsd_lawful ebsd_grouping nx ny nz
      { se with MisoTolerance := t2 } hdim.symm hz (a2, g2) hrun2 i).mpr
    have e1 : (EBSDSegmentFeatures.segmenter.getSeed { se with MisoTolerance := t1 } 1 0).2 =
        (se.getSeed 1 0).2 := ebsd_getSeed_tolerance se t1 1 0
    have e2 : (EBSDSegmentFeatures.segmenter.getSeed { se with MisoTolerance := t2 } 1 0).2 =
        (se.getSeed 1 0).2 := ebsd_getSeed_tolerance se t2 1 0
    rw [e1] at h1
    rw [e2]
    refine ⟨h1.1, Reachable.mono ?_ h1.2⟩
    rintro a b ⟨hops, hmask, hlt⟩
    exact ⟨hops, hmask, Flt.lt_mono_right hlt hle⟩
  · intro hdim hsize hzero
    have hz : ∀ i : Nat, sv.FeatureIds.getD i 0 = 0 := getD_eq_zero_of_forall_mem hzero
    obtain ⟨a1, g1, hrun1, _⟩ := scheduler_completes (vector_lawful m) nx ny nz (by omega)
      False { sv with AngleToleranceRad := t1 } hdim.symm (fun i _ => hz i) (fun h => h.elim)
    obtain ⟨a2, g2, hrun2, _⟩ := scheduler_completes (vector_lawful m) nx ny nz (by omega)
      False { sv with AngleToleranceRad := t2 } hdim.symm (fun i _ => hz i) (fun h => h.elim)
    refine ⟨(a1, g1), (a2, g2), hrun1, hrun2, ?_⟩
    intro i hi
    have h1 := (first_feature_reachable (vector_lawful m) (vector_grouping m) nx ny nz
      { sv with AngleToleranceRad := t1 } hdim.symm hz (a1, g1) hrun1 i).mp hi
    apply (first_feature_reachable (vector_lawful m) (vector_grouping m) nx ny nz
      { sv with AngleToleranceRad := t2 } hdim.symm hz (a2, g2) hrun2 i).mpr
    have e1 : ((VectorSegmentFeatures.segmenter m).getSeed
        { sv with AngleToleranceRad := t1 } 1 0).2 = (sv.getSeed 1 0).2 :=
      vector_getSeed_tolerance sv t1 1 0
    have e2 : ((VectorSegmentFeatures.segmenter m).getSeed
        { sv with AngleToleranceRad := t2 } 1 0).2 = (sv.getSeed 1 0).2 :=
      vector_getSeed_tolerance sv t2 1 0
    rw [e1] at h1
    rw [e2]
    refine ⟨h1.1, Reachable.mono ?_ h1.2⟩
    rintro a b ⟨hmask, hlt⟩
    exact ⟨hmask, Flt.lt_mono_right hlt hle⟩

theorem tolerance_monotone_witness :
    (∃ o1 o2 : EBSDSegmentFeatures × Int,
      SegmentFeatures.execute EBSDSegmentFeatures.segmenter 3 1 1
        { EBSDSegmentFeatures.row with MisoTolerance := Flt.fin 1 } = some o1 ∧
      SegmentFeatures.execute EBSDSegmentFeatures.segmenter 3 1 1
        { EBSDSegmentFeatures.row with MisoTolerance := Flt.pinf } = some o2 ∧
      ∀ i : Nat, o1.1.FeatureIds.getD i 0 = 1 → o2.1.FeatureIds.getD i 0 = 1) ∧
    (∃ o1 o2 : VectorSegmentFeatures × Int,
      SegmentFeatures.execute (VectorSegmentFeatures.segmenter SIMPLibMath.sample) 3 1 1
        { VectorSegmentFeatures.row with AngleToleranceRad := Flt.fin 1 } = some o1 ∧
      SegmentFeatures.execute (VectorSegmentFeatures.segmenter SIMPLibMath.sample) 3 1 1
        { VectorSegmentFeatures.row with AngleToleranceRad := Flt.pinf } = some o2 ∧
      ∀ i : Nat, o1.1.FeatureIds.getD i 0 = 1 → o2.1.FeatureIds.getD i 0 = 1) :=
  ⟨(tolerance_monotone SIMPLibMath.sample 3 1 1 EBSDSegmentFeatures.row
      VectorSegmentFeatures.row (Flt.fin 1) Flt.pinf (by decide)).1
      (by decide) (by decide) (by decide),
    (tolerance_monotone SIMPLibMath.sample 3 1 1 EBSDSegmentFeatures.row
      VectorSegmentFeatures.row (Flt.fin 1) Flt.pinf (by decide)).2
      (by decide) (by decide) (by decide)⟩

/-! ## Grid indexing and the all-false mask -/

/-- C26 (grid indexing): for all dimensions the map `(x, y, z) -> z*nx*ny + y*nx + x` on
`x < nx`, `y < ny`, `z < nz` takes its values below `nx*ny*nz`, is injective, and reaches every
index below `nx*ny*nz`; hence the order `gridPoints` of the col/row/plane triple loop of both
statistics filters has no repetition, holds exactly the indices below `nx*ny*nz`, and is a
rearrangement of `0 .. nx*ny*nz - 1`. -/
theorem grid_index_bijection (nx ny nz : Nat) :
    (∀ x y z : Nat, x < nx → y < ny → z < nz → z * nx * ny + y * nx + x < nx * ny * nz) ∧
    (∀ x y z x2 y2 z2 : Nat, x < nx → y < ny → z < nz → x2 < nx → y2 < ny → z2 < nz →
      z * nx * ny + y * nx + x = z2 * nx * ny + y2 * nx + x2 → x = x2 ∧ y = y2 ∧ z = z2) ∧
    (∀ p : Nat, p < nx * ny * nz →
      ∃ x y z : Nat, x < nx ∧ y < ny ∧ z < nz ∧ z * nx * ny + y * nx + x = p) ∧
    (gridPoints nx ny nz).Nodup ∧
    (∀ p : Nat, p ∈ gridPoints nx ny nz ↔ p < nx * ny * nz) ∧
    (gridPoints nx ny nz).Perm (List.range (nx * ny * nz)) := by
  refine ⟨?_, ?_, ?_, nodup_gridPoints nx ny nz, mem_gridPoints_iff_lt nx ny nz,
    gridPoints_perm nx ny nz⟩
  · intro x y z hx hy hz
    exact (mem_gridPoints_iff_lt nx ny nz _).mp
      ((mem_gridPoints nx ny nz _).mpr ⟨x, hx, y, hy, z, hz, rfl⟩)
  · intro x y z x2 y2 z2 hx hy _ hx2 hy2 _ h
    obtain ⟨a1, a2, a3⟩ := gridPoint_decode z hx hy
    obtain ⟨b1, b2, b3⟩ := gridPoint_decode z2 hx2 hy2
    rw [h] at a1 a2 a3
    exact ⟨a1.symm.trans b1, a2.symm.trans b2, a3.symm.trans b3⟩
  · intro p hp
    obtain ⟨x, hx, y, hy, z, hz, h⟩ := (mem_gridPoints nx ny nz p).mp
      ((mem_gridPoints_iff_lt nx ny nz p).mpr hp)
    exact ⟨x, y, z, hx, hy, hz, h⟩

theorem grid_index_bijection_witness :
    3 * 2 * 3 + 2 * 2 + 1 < 2 * 3 * 4 ∧
    (∃ x y z : Nat, x < 2 ∧ y < 3 ∧ z < 4 ∧ z * 2 * 3 + y * 2 + x = 23) :=
  ⟨(grid_index_bijection 2 3 4).1 1 2 3 (by decide) (by decide) (by decide),
    (grid_index_bijection 2 3 4).2.2.1 23 (by decide)⟩

theorem segmentLoop_succ {σ : Type} (seg : Segmenter σ) (nx ny nz fillFuel fuel : Nat) (s : σ)
    (g ns : Int) :
    segmentLoop seg nx ny nz fillFuel (fuel + 1) s g ns =
      (if (seg.getSeed s g ns).2 ≥ 0 then
        match floodFill seg nx ny nz g fillFuel (seg.getSeed s g ns).1
            [(seg.getSeed s g ns).2.toNat] with
        | none => none
        | some s2 => segmentLoop seg nx ny nz fillFuel fuel s2 (g + 1)
            ((seg.getSeed s g ns).2 + 1)
      else some ((seg.getSeed s g ns).1, g)) := rfl

/-- A run whose first seed search fails ends at once, with the state that `getSeed` left. -/
theorem execute_of_no_seed {σ : Type} (seg : Segmenter σ) (nx ny nz : Nat) (s : σ)
    (h : (seg.getSeed s 1 0).2 = -1) :
    SegmentFeatures.execute seg nx ny nz s = some ((seg.getSeed s 1 0).1, 1) := by
  unfold SegmentFeatures.execute
  rw [segmentLoop_succ, h, if_neg (by decide)]

/-- C23 (all-false mask): for both segmenters and every grid, when mask use is enabled and the
mask is false on every element, the first call `getSeed(1, 0)` returns -1, and `execute`
returns with error code -87000, all feature ids 0, and per-feature arrays of one tuple (no
feature). -/
theorem all_false_mask_no_feature (k_PiOver180D : Flt) (m : SIMPLibMath) (nx ny nz : Nat)
    (draw : Nat → Int) (se : EBSDSegmentFeatures) (sv : VectorSegmentFeatures) :
    (se.UseGoodVoxels = true → (∀ i : Nat, se.GoodVoxels.getD i false = false) →
      ((se.beforeGrowth k_PiOver180D).getSeed 1 0).2 = -1 ∧
      ∃ s2 : EBSDSegmentFeatures, se.execute k_PiOver180D nx ny nz draw = some s2 ∧
        s2.ErrorCode = -87000 ∧ s2.FeatureIds = List.replicate se.FeatureIds.length 0 ∧
        s2.Active.length = 1) ∧
    (sv.UseGoodVoxels = true → (∀ i : Nat, sv.GoodVoxels.getD i false = false) →
      ((sv.beforeGrowth m).getSeed 1 0).2 = -1 ∧
      ∃ s2 : VectorSegmentFeatures, sv.execute m nx ny nz draw = some s2 ∧
        s2.ErrorCode = -87000 ∧ s2.FeatureIds = List.replicate sv.FeatureIds.length 0 ∧
        s2.Active.length = 1) := by
  constructor
  · intro huse hmask
    have hcase : ((se.beforeGrowth k_PiOver180D).getSeed 1 0).2 = -1 ∧
        ((se.beforeGrowth k_PiOver180D).getSeed 1 0).1 =
          { se.beforeGrowth k_PiOver180D with ErrorCode := 0 } := by
      rcases (se.beforeGrowth k_PiOver180D).getSeed_cases 1 0 with
        ⟨hr, hs, _⟩ | ⟨i, _, _, _, hseed, _, _⟩
      · exact ⟨hr, hs⟩
      · exfalso
        obtain ⟨_, hm, _⟩ := hseed
        rcases hm with h | h
        · have : se.UseGoodVoxels = false := h
          rw [huse] at this
          exact absurd this (by decide)
        · have : se.GoodVoxels.getD i false = true := h
          rw [hmask i] at this
          exact absurd this (by decide)
    refine ⟨hcase.1, ?_⟩
    have hrun := execute_of_no_seed EBSDSegmentFeatures.segmenter nx ny nz
      (se.beforeGrowth k_PiOver180D) hcase.1
    have hst : (EBSDSegmentFeatures.segmenter.getSeed (se.beforeGrowth k_PiOver180D) 1 0).1 =
        { se.beforeGrowth k_PiOver180D with ErrorCode := 0 } := hcase.2
    rw [hst] at hrun
    have hexec : se.execute k_PiOver180D nx ny nz draw =
        some { se.beforeGrowth k_PiOver180D with ErrorCode := -87000 } := by
      unfold EBSDSegmentFeatures.execute
      rw [hrun]
      rfl
    exact ⟨_, hexec, rfl, rfl, rfl⟩
  · intro huse hmask
    have hcase : ((sv.beforeGrowth m).getSeed 1 0).2 = -1 ∧
        ((sv.beforeGrowth m).getSeed 1 0).1 = { sv.beforeGrowth m with ErrorCode := 0 } := by
      rcases (sv.beforeGrowth m).vec_getSeed_cases 1 0 with
        ⟨hr, hs, _⟩ | ⟨i, _, _, _, hseed, _, _⟩
      · exact ⟨hr, hs⟩
      · exfalso
        obtain ⟨_, hm⟩ := hseed
        rcases hm with h | h
        · have : sv.UseGoodVoxels = false := h
          rw [huse] at this
          exact absurd this (by decide)
        · have : sv.GoodVoxels.getD i false = true := h
          rw [hmask i] at this
          exact absurd this (by decide)
    refine ⟨hcase.1, ?_⟩
    have hrun := execute_of_no_seed (VectorSegmentFeatures.segmenter m) nx ny nz
      (sv.beforeGrowth m) hcase.1
    have hst : ((VectorSegmentFeatures.segmenter m).getSeed (sv.beforeGrowth m) 1 0).1 =
        { sv.beforeGrowth m with ErrorCode := 0 } := hcase.2
    rw [hst] at hrun
    have hexec : sv.execute m nx ny nz draw =
        some { sv.beforeGrowth m with ErrorCode := -87000 } := by
      unfold VectorSegmentFeatures.execute
      rw [hrun]
      rfl
    exact ⟨_, hexec, rfl, rfl, rfl⟩

theorem all_false_mask_no_feature_witness :
    ((EBSDSegmentFeatures.allMasked.beforeGrowth (Flt.fin (1 / 57))).getSeed 1 0).2 = -1 ∧
    (∃ s2 : EBSDSegmentFeatures,
      EBSDSegmentFeatures.allMasked.execute (Flt.fin (1 / 57)) 3 1 1 (fun _ => 1) = some s2 ∧
      s2.ErrorCode = -87000 ∧
      s2.FeatureIds = List.replicate EBSDSegmentFeatures.allMasked.FeatureIds.length 0 ∧
      s2.Active.length = 1) ∧
    ((VectorSegmentFeatures.allMasked.beforeGrowth SIMPLibMath.sample).getSeed 1 0).2 = -1 :=
  ⟨((all_false_mask_no_feature (Flt.fin (1 / 57)) SIMPLibMath.sample 3 1 1 (fun _ => 1)
      EBSDSegmentFeatures.allMasked VectorSegmentFeatures.allMasked).1 rfl
      (by intro i; rcases i with _ | _ | _ | i <;> rfl)).1,
    ((all_false_mask_no_feature (Flt.fin (1 / 57)) SIMPLibMath.sample 3 1 1 (fun _ => 1)
      EBSDSegmentFeatures.allMasked VectorSegmentFeatures.allMasked).1 rfl
      (by intro i; rcases i with _ | _ | _ | i <;> rfl)).2,
    ((all_false_mask_no_feature (Flt.fin (1 / 57)) SIMPLibMath.sample 3 1 1 (fun _ => 1)
      EBSDSegmentFeatures.allMasked VectorSegmentFeatures.allMasked).2 rfl
      (by intro i; rcases i with _ | _ | _ | i <;> rfl)).1⟩

/-! ## Search points of FindRelativeMotionBetweenSlices -/

/-- C29: the code at a failing input. For the 3 by 3 search window in the XZ plane
(`m_Plane == 1`) on an image with `xP = 4`, `yP = 5`, the offsets of the nine displacements
are `-17, -16, -15, 3, 4, 5, 23, 24, 25`; the loop stores the offset of the displacement with
running index `k` at `searchPoints[k]` and not at `searchPoints[4 * k]`, so that slot 4 holds
the offset 4 of displacement 4 instead of the offset -16 of displacement 1, and the slots 1
to 3 of the components of displacement 0 hold the offsets -16, -15, 3.  The YZ plane
(`m_Plane == 2`) has the same store; the XY plane (`m_Plane == 0`) stores at
`searchPoints[4 * k]`. -/
theorem search_offsets_misplaced :
    FindRelativeMotionBetweenSlices.windowXZ.displacements.map
        (FindRelativeMotionBetweenSlices.windowXZ.dataOffset 4 5) =
      [-17, -16, -15, 3, 4, 5, 23, 24, 25] ∧
    FindRelativeMotionBetweenSlices.windowXZ.searchPoints 4 5
        (List.replicate FindRelativeMotionBetweenSlices.windowXZ.searchPointsSize 0) =
      some ([-17, -16, -15, 3, 4, 5, 23, 24, 25, 1, 1, -1, 0, -1, 1, 0, 0, 0, 1, 0, 0, 1, 1, 0,
        0, -1, 1, 1, 0, 0, 1, 1, 0, 1, 1, 1], 9) ∧
    FindRelativeMotionBetweenSlices.windowYZ.displacements.map
        (FindRelativeMotionBetweenSlices.windowYZ.dataOffset 4 5) =
      [-23, -19, -15, -3, 1, 5, 17, 21, 25] ∧
    FindRelativeMotionBetweenSlices.windowYZ.searchPoints 4 5
        (List.replicate FindRelativeMotionBetweenSlices.windowYZ.searchPointsSize 0) =
      some ([-23, -19, -15, -3, 1, 5, 17, 21, 25, 1, 1, -1, 0, 1, -1, 0, 0, 1, 0, 0, 0, 1, 1, 0,
        0, 1, -1, 1, 0, 1, 0, 1, 0, 1, 1, 1], 9) ∧
    FindRelativeMotionBetweenSlices.windowXY.displacements.map
        (FindRelativeMotionBetweenSlices.windowXY.dataOffset 4 5) =
      [15, 16, 17, 19, 20, 21, 23, 24, 25] ∧
    FindRelativeMotionBetweenSlices.windowXY.searchPoints 4 5
        (List.replicate FindRelativeMotionBetweenSlices.windowXY.searchPointsSize 0) =
      some ([15, -1, -1, 1, 16, 0, -1, 1, 17, 1, -1, 1, 19, -1, 0, 1, 20, 0, 0, 1, 21, 1, 0, 1,
        23, -1, 1, 1, 24, 0, 1, 1, 25, 1, 1, 1], 9) := by
  decide

/-- C30: the code at a failing input. With `m_SSize1 = m_SSize2 = 2`, which `dataCheck`
accepts, `searchPoints` is allocated with `2 * 2 = 4` tuples (16 entries), the two search
loops run over `3 * 3 = 9` displacements, and a write falls outside the array. -/
theorem search_points_overflow :
    0 < FindRelativeMotionBetweenSlices.evenWindow.SSize1 ∧
    0 < FindRelativeMotionBetweenSlices.evenWindow.SSize2 ∧
    FindRelativeMotionBetweenSlices.evenWindow.searchPointsSize = 4 * 4 ∧
    FindRelativeMotionBetweenSlices.evenWindow.displacements.length = 9 ∧
    FindRelativeMotionBetweenSlices.evenWindow.searchPoints 4 5
      (List.replicate FindRelativeMotionBetweenSlices.evenWindow.searchPointsSize 0) = none := by
  decide

/-! ## Index safety of the relabelling -/

theorem foldlM_eq_some_foldl {α β : Type} (P : β → Prop) (f : β → α → Option β)
    (g : β → α → β) (l : List α) (b : β) (hb : P b)
    (hstep : ∀ x ∈ l, ∀ c, P c → f c x = some (g c x) ∧ P (g c x)) :
    l.foldlM f b = some (l.foldl g b) ∧ P (l.foldl g b) := by
  induction l generalizing b with
  | nil => exact ⟨rfl, hb⟩
  | cons x xs ih =>
    obtain ⟨h1, h2⟩ := hstep x (List.mem_cons_self _ _) b hb
    rw [List.foldlM_cons, h1]
    exact ih (g b x) h2 (fun y hy c hc => hstep y (List.mem_cons_of_mem _ hy) c hc)

theorem shuffleStepChecked_eq (tf : Nat) (gid : List Int) (i : Nat) (r : Int)
    (hl : gid.length = tf) (hi : i < tf) (h1 : 1 ≤ r) (h2 : r ≤ (tf : Int) - 1) :
    shuffleStepChecked tf gid i r = some (shuffleStep tf gid i r) ∧
    (shuffleStep tf gid i r).length = tf := by
  have hr : ¬ r ≥ (tf : Int) := by omega
  have hin : i < gid.length ∧ 0 ≤ r ∧ r.toNat < gid.length := ⟨by omega, by omega, by omega⟩
  unfold shuffleStepChecked shuffleStep
  rw [if_neg hr, if_neg hr, if_pos hin]
  exact ⟨rfl, by simp [hl]⟩

theorem shuffledGidChecked_eq (draw : Nat → Int) (tf : Nat)
    (hdraw : ∀ i : Nat, 1 ≤ i → i < tf → 1 ≤ draw i ∧ draw i ≤ (tf : Int) - 1) :
    shuffledGidChecked draw tf = some (shuffledGid draw tf) := by
  unfold shuffledGidChecked shuffledGid
  refine (foldlM_eq_some_foldl (fun g : List Int => g.length = tf) _ _ _ _ ?_ ?_).1
  · rw [gidInit_eq]; simp
  · intro i hi c hc
    rw [List.mem_range'] at hi
    obtain ⟨k, hk, rfl⟩ := hi
    have hd := hdraw (1 + 1 * k) (by omega) (by omega)
    exact shuffleStepChecked_eq tf c (1 + 1 * k) _ hc (by omega) hd.1 hd.2

theorem remapFeatureIdsChecked_eq (gid : List Int) (tf : Nat) (ids : List Int)
    (hl : gid.length = tf)
    (hgid : ∀ v : Int, 0 ≤ v → v < tf → 0 ≤ gid.getD v.toNat 0 ∧ gid.getD v.toNat 0 < tf)
    (hids : ∀ v ∈ ids, 0 ≤ v ∧ v < (tf : Int)) :
    remapFeatureIdsChecked gid ids.length ids = some (remapFeatureIds gid ids.length ids) ∧
    ∀ v ∈ remapFeatureIds gid ids.length ids, 0 ≤ v ∧ v < (tf : Int) := by
  unfold remapFeatureIdsChecked remapFeatureIds
  have h := foldlM_eq_some_foldl
    (fun c : List Int => c.length = ids.length ∧ ∀ v ∈ c, 0 ≤ v ∧ v < (tf : Int))
    (fun c i =>
      if i < c.length ∧ 0 ≤ c.getD i 0 ∧ (c.getD i 0).toNat < gid.length then
        some (c.set i (gid.getD (c.getD i 0).toNat 0))
      else none)
    (fun c i => c.set i (gid.getD (c.getD i 0).toNat 0))
    (List.range ids.length) ids ⟨rfl, hids⟩
    (by
      intro i hi c ⟨hc1, hc2⟩
      rw [List.mem_range] at hi
      have hic : i < c.length := by omega
      have hv := hc2 (c.getD i 0) (by
        rw [List.getD_eq_getElem _ 0 hic]
        exact List.getElem_mem hic)
      have hin : i < c.length ∧ 0 ≤ c.getD i 0 ∧ (c.getD i 0).toNat < gid.length :=
        ⟨hic, hv.1, by omega⟩
      refine ⟨if_pos hin, by rw [List.length_set]; exact hc1, ?_⟩
      · intro v hv2
        rcases List.mem_or_eq_of_mem_set hv2 with h | h
        · exact hc2 v h
        · rw [h]; exact hgid _ hv.1 hv.2)
  exact ⟨h.1, h.2.2⟩

/-- C28 (index safety of `randomizeFeatureIds`): for every `totalFeatures >= 2`, draws in
`[1, totalFeatures - 1]` and a feature-id array with all values in `[0, totalFeatures)`, the
body of `randomizeFeatureIds` with every access `gid[i]`, `gid[r]`, `m_FeatureIds[i]` and
`gid[m_FeatureIds[i]]` checked runs through without an access outside its array and gives the
result of the unchecked body; no iteration takes the branch `r >= totalFeatures`; and every
resulting feature id lies in `[0, totalFeatures)`.  Both filters have this body. -/
theorem randomizeFeatureIds_index_safe (draw : Nat → Int) (totalFeatures : Nat)
    (FeatureIds : List Int) (se : EBSDSegmentFeatures) (sv : VectorSegmentFeatures)
    (htf : 2 ≤ totalFeatures)
    (hdraw : ∀ i : Nat, 1 ≤ i → i < totalFeatures →
      1 ≤ draw i ∧ draw i ≤ (totalFeatures : Int) - 1)
    (hids : ∀ v ∈ FeatureIds, 0 ≤ v ∧ v < (totalFeatures : Int)) :
    randomizeIdsChecked draw FeatureIds.length totalFeatures FeatureIds =
      some (randomizeIds draw FeatureIds.length totalFeatures FeatureIds) ∧
    skippedIterations draw totalFeatures = [] ∧
    (∀ v ∈ randomizeIds draw FeatureIds.length totalFeatures FeatureIds,
      0 ≤ v ∧ v < (totalFeatures : Int)) ∧
    (se.FeatureIds = FeatureIds →
      ∀ v ∈ (se.randomizeFeatureIds draw FeatureIds.length totalFeatures).FeatureIds,
        0 ≤ v ∧ v < (totalFeatures : Int)) ∧
    (sv.FeatureIds = FeatureIds →
      ∀ v ∈ (sv.randomizeFeatureIds draw FeatureIds.length totalFeatures).FeatureIds,
        0 ≤ v ∧ v < (totalFeatures : Int)) := by
  obtain ⟨hp, hl, h0⟩ := shuffledGid_spec draw totalFeatures hdraw
  obtain ⟨_, hrange, _, _⟩ := relabel_props _ totalFeatures hp hl h0
  obtain ⟨hr1, hr2⟩ := remapFeatureIdsChecked_eq (shuffledGid draw totalFeatures)
    totalFeatures FeatureIds hl hrange hids
  have hres : ∀ v ∈ randomizeIds draw FeatureIds.length totalFeatures FeatureIds,
      0 ≤ v ∧ v < (totalFeatures : Int) := hr2
  refine ⟨?_, ?_, hres, ?_, ?_⟩
  · unfold randomizeIdsChecked randomizeIds
    rw [shuffledGidChecked_eq draw totalFeatures hdraw]
    exact hr1
  · unfold skippedIterations
    rw [List.filter_eq_nil_iff]
    intro i hi
    rw [List.mem_range'] at hi
    obtain ⟨k, hk, rfl⟩ := hi
    have hd := hdraw (1 + 1 * k) (by omega) (by omega)
    rw [decide_eq_true_eq]
    omega
  · intro h v hv
    have : (se.randomizeFeatureIds draw FeatureIds.length totalFeatures).FeatureIds =
        randomizeIds draw FeatureIds.length totalFeatures se.FeatureIds := rfl
    rw [this, h] at hv
    exact hres v hv
  · intro h v hv
    have : (sv.randomizeFeatureIds draw FeatureIds.length totalFeatures).FeatureIds =
        randomizeIds draw FeatureIds.length totalFeatures sv.FeatureIds := rfl
    rw [this, h] at hv
    exact hres v hv

theorem randomizeFeatureIds_index_safe_witness :
    randomizeIdsChecked (fun _ => 1) ([0, 1, 2, 1] : List Int).length 3 [0, 1, 2, 1] =
      some (randomizeIds (fun _ => 1) ([0, 1, 2, 1] : List Int).length 3 [0, 1, 2, 1]) ∧
    skippedIterations (fun _ => 1) 3 = [] :=
  ⟨(randomizeFeatureIds_index_safe (fun _ => 1) 3 [0, 1, 2, 1] EBSDSegmentFeatures.row
      VectorSegmentFeatures.row (by decide) (by intro i _ _; simp)
      (by decide)).1,
    (randomizeFeatureIds_index_safe (fun _ => 1) 3 [0, 1, 2, 1] EBSDSegmentFeatures.row
      VectorSegmentFeatures.row (by decide) (by intro i _ _; simp)
      (by decide)).2.1⟩

/-! ## Signs and folds of the vector predicate -/

theorem Flt.neg_neg (a : Flt) : Flt.neg (Flt.neg a) = a := by
  cases a <;> simp [Flt.neg]

theorem Flt.lt_neg_zero (a : Flt) :
    Flt.lt (Flt.neg a) (Flt.fin 0) = Flt.lt (Flt.fin 0) a ∧
    Flt.lt (Flt.fin 0) (Flt.neg a) = Flt.lt a (Flt.fin 0) := by
  cases a <;> simp [Flt.neg, Flt.lt]

theorem negateVec_negateVec (u : Vec3) : negateVec (negateVec u) = u := by
  cases u
  simp [negateVec, Flt.neg_neg]

theorem Flt.lt_asymm_zero {a : Flt} (h : Flt.lt a (Flt.fin 0) = true) :
    Flt.lt (Flt.fin 0) a = false := by
  cases a <;> simp_all [Flt.lt]
  exact le_of_lt h

theorem Flt.lt_asymm_zero_right {a : Flt} (h : Flt.lt (Flt.fin 0) a = true) :
    Flt.lt a (Flt.fin 0) = false := by
  cases a <;> simp_all [Flt.lt]
  exact le_of_lt h

namespace VectorSegmentFeatures

/-- The sign change maps a vector with a negative or positive third component and its
negation to the same vector. -/
theorem polarity_negateVec_of_nonzero (u : Vec3)
    (h : Flt.lt u.z (Flt.fin 0) = true ∨ Flt.lt (Flt.fin 0) u.z = true) :
    polarity (negateVec u) = polarity u := by
  have hz : (negateVec u).z = Flt.neg u.z := rfl
  unfold polarity
  rw [hz, (Flt.lt_neg_zero u.z).1]
  rcases h with h | h
  · rw [h, Flt.lt_asymm_zero h, negateVec_negateVec]
    simp
  · rw [h, Flt.lt_asymm_zero_right h, negateVec_negateVec]
    simp

/-- A vector whose third component is neither negative nor positive keeps its sign, negated
or not. -/
theorem polarity_of_zero (u : Vec3) (h1 : Flt.lt u.z (Flt.fin 0) = false)
    (h2 : Flt.lt (Flt.fin 0) u.z = false) :
    polarity u = u ∧ polarity (negateVec u) = negateVec u := by
  have hz : (negateVec u).z = Flt.neg u.z := rfl
  unfold polarity
  rw [hz, (Flt.lt_neg_zero u.z).1, h1, h2]
  simp

/-- The fold sends `pi - w` and `w` to the same angle when `k_PiD` is twice `k_PiOver2D`. -/
theorem fold_reflect (m : SIMPLibMath)
    (hpi : ∃ h : ℚ, m.k_PiOver2D = Flt.fin h ∧ m.k_PiD = Flt.fin (2 * h)) (w : Flt) :
    fold m (Flt.sub m.k_PiD w) = fold m w := by
  obtain ⟨h, e1, e2⟩ := hpi
  unfold fold
  rw [e1, e2]
  cases w with
  | nan => simp [Flt.sub, Flt.gt, Flt.lt]
  | ninf => simp [Flt.sub, Flt.gt, Flt.lt]
  | pinf => simp [Flt.sub, Flt.gt, Flt.lt]
  | fin a =>
    simp only [Flt.sub, Flt.gt, Flt.lt, decide_eq_true_eq]
    rcases lt_trichotomy a h with hlt | heq | hgt
    · rw [if_pos (by linarith), if_neg (by linarith)]
      congr 1
      ring
    · subst heq
      rw [if_neg (by linarith), if_neg (by linarith)]
      congr 1
      ring
    · rw [if_neg (by linarith), if_pos (by linarith)]

/-- The result of `determineGrouping` is determined by the feature ids, the mask, the
tolerance and the folded angle. -/
theorem determineGrouping_congr (m : SIMPLibMath) (s t : VectorSegmentFeatures) (r n : Nat)
    (gnum : Int) (hids : t.FeatureIds = s.FeatureIds) (huse : t.UseGoodVoxels = s.UseGoodVoxels)
    (hgood : t.GoodVoxels = s.GoodVoxels) (htol : t.AngleToleranceRad = s.AngleToleranceRad)
    (hangle : groupingAngle m t r n = groupingAngle m s r n) :
    (determineGrouping m t r n gnum).2 = (determineGrouping m s r n gnum).2 ∧
    (determineGrouping m t r n gnum).1.FeatureIds =
      (determineGrouping m s r n gnum).1.FeatureIds := by
  unfold determineGrouping
  rw [hids, huse, hgood, htol, hangle]
  split
  · split
    · exact ⟨rfl, by simp only [hids]⟩
    · exact ⟨rfl, hids⟩
  · exact ⟨rfl, hids⟩

/-- On an unassigned neighbour that the mask does not reject, the flag of `determineGrouping`
is the comparison of the folded angle with the tolerance. -/
theorem determineGrouping_flag (m : SIMPLibMath) (s : VectorSegmentFeatures) (r n : Nat)
    (gnum : Int) (hfree : s.FeatureIds.getD n 0 = 0)
    (hmask : s.UseGoodVoxels = false ∨ s.GoodVoxels.getD n false = true) :
    (determineGrouping m s r n gnum).2 = Flt.lt (groupingAngle m s r n) s.AngleToleranceRad := by
  have hm : (!s.UseGoodVoxels || s.GoodVoxels.getD n false) = true := by
    rcases hmask with h | h
    · rw [h]; rfl
    · rw [h]; simp
  unfold determineGrouping
  rw [if_pos ⟨hfree, hm⟩]
  cases hlt : Flt.lt (groupingAngle m s r n) s.AngleToleranceRad
  · simp
  · simp

/-- The angle that `determineGrouping` compares, in the words of the specification. -/
theorem groupingAngle_eq (m : SIMPLibMath) (s : VectorSegmentFeatures) (r n : Nat) :
    groupingAngle m s r n = fold m (m.acosf (m.CosThetaBetweenVectors
      (polarity (vecAt s.Vectors r)) (polarity (vecAt s.Vectors n)))) := rfl

end VectorSegmentFeatures

/-- C24, as stated, fails: with the binary32 values of the library (`SIMPLibMath.binary32`)
the antiparallel vectors (1,0,1) and (-1,0,-1) of `diagonalAntiparallel` are both normalised
to (1,0,1), whose cosine with itself is `1 + 2^-23`; no clamp is applied, `acosf` answers NaN,
the folded angle is NaN and not 0, and `determineGrouping` returns `false` at the tolerance of
1 degree. -/
theorem antiparallel_counterexample :
    vecAt VectorSegmentFeatures.diagonalAntiparallel.Vectors 1 =
      negateVec (vecAt VectorSegmentFeatures.diagonalAntiparallel.Vectors 0) ∧
    Flt.lt (Flt.fin 0) VectorSegmentFeatures.diagonalAntiparallel.AngleToleranceRad = true ∧
    VectorSegmentFeatures.acosArgument SIMPLibMath.binary32
      VectorSegmentFeatures.diagonalAntiparallel 0 1 = Flt.fin (1 + 1 / 8388608) ∧
    VectorSegmentFeatures.groupingAngle SIMPLibMath.binary32
      VectorSegmentFeatures.diagonalAntiparallel 0 1 = Flt.nan ∧
    (VectorSegmentFeatures.determineGrouping SIMPLibMath.binary32
      VectorSegmentFeatures.diagonalAntiparallel 0 1 1).2 = false := by
  decide!

/-- C24 (amended): for a reference vector `v`, a neighbour carrying `-v` that is unassigned
and not rejected by the mask, and a positive tolerance.  When the third component of `v` is
negative or positive, both vectors are normalised to the same vector `u` and the folded angle
is the fold of `acosf(cos(u, u))`; when it is neither (zero), no flip is applied and the
folded angle is the fold of `acosf(cos(v, -v))`.  `determineGrouping` returns the comparison
of that folded angle with the tolerance, hence `true` whenever the folded angle is 0.  The
folded angle is 0 when the library returns the exact values on the pair: `cos(u, u) = 1` and
`acosf(1) = 0` in the first case, `acosf(cos(v, -v)) = k_PiD` in the second. -/
theorem antiparallel_grouped (m : SIMPLibMath) (s : VectorSegmentFeatures)
    (referencepoint neighborpoint : Nat) (gnum : Int)
    (hanti : vecAt s.Vectors neighborpoint = negateVec (vecAt s.Vectors referencepoint))
    (htol : Flt.lt (Flt.fin 0) s.AngleToleranceRad = true)
    (hfree : s.FeatureIds.getD neighborpoint 0 = 0)
    (hmask : s.UseGoodVoxels = false ∨ s.GoodVoxels.getD neighborpoint false = true) :
    (Flt.lt (vecAt s.Vectors referencepoint).z (Flt.fin 0) = true ∨
        Flt.lt (Flt.fin 0) (vecAt s.Vectors referencepoint).z = true →
      VectorSegmentFeatures.groupingAngle m s referencepoint neighborpoint =
        VectorSegmentFeatures.fold m (m.acosf (m.CosThetaBetweenVectors
          (VectorSegmentFeatures.polarity (vecAt s.Vectors referencepoint))
          (VectorSegmentFeatures.polarity (vecAt s.Vectors referencepoint))))) ∧
    (Flt.lt (vecAt s.Vectors referencepoint).z (Flt.fin 0) = false →
        Flt.lt (Flt.fin 0) (vecAt s.Vectors referencepoint).z = false →
      VectorSegmentFeatures.groupingAngle m s referencepoint neighborpoint =
        VectorSegmentFeatures.fold m (m.acosf (m.CosThetaBetweenVectors
          (vecAt s.Vectors referencepoint) (negateVec (vecAt s.Vectors referencepoint))))) ∧
    (VectorSegmentFeatures.determineGrouping m s referencepoint neighborpoint gnum).2 =
      Flt.lt (VectorSegmentFeatures.groupingAngle m s referencepoint neighborpoint)
        s.AngleToleranceRad ∧
    (VectorSegmentFeatures.groupingAngle m s referencepoint neighborpoint = Flt.fin 0 →
      (VectorSegmentFeatures.determineGrouping m s referencepoint neighborpoint gnum).2 =
        true) ∧
    (Flt.lt (vecAt s.Vectors referencepoint).z (Flt.fin 0) = true ∨
        Flt.lt (Flt.fin 0) (vecAt s.Vectors referencepoint).z = true →
      m.CosThetaBetweenVectors
          (VectorSegmentFeatures.polarity (vecAt s.Vectors referencepoint))
          (VectorSegmentFeatures.polarity (vecAt s.Vectors referencepoint)) = Flt.fin 1 →
      m.acosf (Flt.fin 1) = Flt.fin 0 → Flt.gt (Flt.fin 0) m.k_PiOver2D = false →
      VectorSegmentFeatures.groupingAngle m s referencepoint neighborpoint = Flt.fin 0 ∧
      (VectorSegmentFeatures.determineGrouping m s referencepoint neighborpoint gnum).2 =
        true) ∧
    (Flt.lt (vecAt s.Vectors referencepoint).z (Flt.fin 0) = false →
        Flt.lt (Flt.fin 0) (vecAt s.Vectors referencepoint).z = false →
      m.acosf (m.CosThetaBetweenVectors (vecAt s.Vectors referencepoint)
          (negateVec (vecAt s.Vectors referencepoint))) = m.k_PiD →
      Flt.gt m.k_PiD m.k_PiOver2D = true → (∃ p : ℚ, m.k_PiD = Flt.fin p) →
      VectorSegmentFeatures.groupingAngle m s referencepoint neighborpoint = Flt.fin 0 ∧
      (VectorSegmentFeatures.determineGrouping m s referencepoint neighborpoint gnum).2 =
        true) := by
  have hflag := VectorSegmentFeatures.determineGrouping_flag m s referencepoint neighborpoint
    gnum hfree hmask
  have hA : Flt.lt (vecAt s.Vectors referencepoint).z (Flt.fin 0) = true ∨
        Flt.lt (Flt.fin 0) (vecAt s.Vectors referencepoint).z = true →
      VectorSegmentFeatures.groupingAngle m s referencepoint neighborpoint =
        VectorSegmentFeatures.fold m (m.acosf (m.CosThetaBetweenVectors
          (VectorSegmentFeatures.polarity (vecAt s.Vectors referencepoint))
          (VectorSegmentFeatures.polarity (vecAt s.Vectors referencepoint)))) := by
    intro hz
    rw [VectorSegmentFeatures.groupingAngle_eq, hanti,
      VectorSegmentFeatures.polarity_negateVec_of_nonzero _ hz]
  have hB : Flt.lt (vecAt s.Vectors referencepoint).z (Flt.fin 0) = false →
        Flt.lt (Flt.fin 0) (vecAt s.Vectors referencepoint).z = false →
      VectorSegmentFeatures.groupingAngle m s referencepoint neighborpoint =
        VectorSegmentFeatures.fold m (m.acosf (m.CosThetaBetweenVectors
          (vecAt s.Vectors referencepoint) (negateVec (vecAt s.Vectors referencepoint)))) := by
    intro h1 h2
    obtain ⟨e1, e2⟩ := VectorSegmentFeatures.polarity_of_zero _ h1 h2
    rw [VectorSegmentFeatures.groupingAngle_eq, hanti, e1, e2]
  have hC : VectorSegmentFeatures.groupingAngle m s referencepoint neighborpoint = Flt.fin 0 →
      (VectorSegmentFeatures.determineGrouping m s referencepoint neighborpoint gnum).2 =
        true := by
    intro h0
    rw [hflag, h0]
    exact htol
  refine ⟨hA, hB, hflag, hC, ?_, ?_⟩
  · intro hz hcos hacos hpi
    have h0 : VectorSegmentFeatures.groupingAngle m s referencepoint neighborpoint =
        Flt.fin 0 := by
      rw [hA hz, hcos, hacos]
      unfold VectorSegmentFeatures.fold
      rw [hpi]
      simp
    exact ⟨h0, hC h0⟩
  · intro h1 h2 hacos hgt hfin
    have h0 : VectorSegmentFeatures.groupingAngle m s referencepoint neighborpoint =
        Flt.fin 0 := by
      rw [hB h1 h2, hacos]
      unfold VectorSegmentFeatures.fold
      rw [hgt]
      obtain ⟨p, hp⟩ := hfin
      rw [hp]
      simp [Flt.sub]
    exact ⟨h0, hC h0⟩

/-- Witness of C24 (amended): the pair (0,0,1), (0,0,-1) of the specification at the
tolerance of 1 degree, with the binary32 values of the library. -/
theorem antiparallel_grouped_witness :
    VectorSegmentFeatures.groupingAngle SIMPLibMath.binary32
      VectorSegmentFeatures.antiparallel 0 1 = Flt.fin 0 ∧
    (VectorSegmentFeatures.determineGrouping SIMPLibMath.binary32
      VectorSegmentFeatures.antiparallel 0 1 1).2 = true :=
  (antiparallel_grouped SIMPLibMath.binary32 VectorSegmentFeatures.antiparallel 0 1 1
    (by decide!) (by decide!) (by decide) (Or.inl rfl)).2.2.2.2.1
    (Or.inr (by decide!)) (by decide!) (by decide!) (by decide!)

/-- C27, as stated, fails: with the binary32 values of the library (`SIMPLibMath.binary32`)
and the tolerance 0, the reference vector (1,0,0) against the neighbour (1,0,0) gives the
angle `acosf(1) = 0`, which is not below 0, and `determineGrouping` returns `false`; for the
negated reference vector (-1,0,0), whose third component is 0 so that no flip is applied, the
angle is `k_PiD - acosf(-1)`, which is negative because the `float` nearest to pi exceeds the
`double` nearest to pi, and `determineGrouping` returns `true`. -/
theorem grouping_sign_counterexample :
    VectorSegmentFeatures.alignedXFlipped.FeatureIds =
      VectorSegmentFeatures.alignedX.FeatureIds ∧
    VectorSegmentFeatures.alignedXFlipped.AngleToleranceRad =
      VectorSegmentFeatures.alignedX.AngleToleranceRad ∧
    vecAt VectorSegmentFeatures.alignedXFlipped.Vectors 0 =
      negateVec (vecAt VectorSegmentFeatures.alignedX.Vectors 0) ∧
    vecAt VectorSegmentFeatures.alignedXFlipped.Vectors 1 =
      vecAt VectorSegmentFeatures.alignedX.Vectors 1 ∧
    VectorSegmentFeatures.groupingAngle SIMPLibMath.binary32
      VectorSegmentFeatures.alignedX 0 1 = Flt.fin 0 ∧
    VectorSegmentFeatures.groupingAngle SIMPLibMath.binary32
      VectorSegmentFeatures.alignedXFlipped 0 1 =
        Flt.fin (-24607325 / 281474976710656) ∧
    (VectorSegmentFeatures.determineGrouping SIMPLibMath.binary32
      VectorSegmentFeatures.alignedX 0 1 1).2 = false ∧
    (VectorSegmentFeatures.determineGrouping SIMPLibMath.binary32
      VectorSegmentFeatures.alignedXFlipped 0 1 1).2 = true := by
  decide!

/-- C27 (amended): for two states that agree on the feature ids, the mask and the tolerance.
(a) When the vectors differ by the negation of the reference vector, or of the neighbour
vector, and the third component of the negated vector is negative or positive,
`determineGrouping` returns the same flag and leaves the same feature ids, for every library.
(b), (c) When that third component is neither (exactly 0), no flip is applied: the folded
angles of the two states are the folds of `acosf` of the library cosine of the vector and of
its negation, and flag and feature ids are the same when the library is odd on that pair,
`cos(-u, v) = -cos(u, v)` and `acosf(-c) = k_PiD - acosf(c)`, with `k_PiD` twice
`k_PiOver2D`.  (d) On an unassigned neighbour that the mask does not reject, the two flags
are equal exactly when the two folded angles lie on the same side of the tolerance. -/
theorem grouping_sign_invariant (m : SIMPLibMath) (s t : VectorSegmentFeatures)
    (referencepoint neighborpoint : Nat) (gnum : Int)
    (hids : t.FeatureIds = s.FeatureIds) (huse : t.UseGoodVoxels = s.UseGoodVoxels)
    (hgood : t.GoodVoxels = s.GoodVoxels) (htol : t.AngleToleranceRad = s.AngleToleranceRad) :
    ((((Flt.lt (vecAt s.Vectors referencepoint).z (Flt.fin 0) = true ∨
            Flt.lt (Flt.fin 0) (vecAt s.Vectors referencepoint).z = true) ∧
          vecAt t.Vectors referencepoint = negateVec (vecAt s.Vectors referencepoint) ∧
          vecAt t.Vectors neighborpoint = vecAt s.Vectors neighborpoint) ∨
        ((Flt.lt (vecAt s.Vectors neighborpoint).z (Flt.fin 0) = true ∨
            Flt.lt (Flt.fin 0) (vecAt s.Vectors neighborpoint).z = true) ∧
          vecAt t.Vectors referencepoint = vecAt s.Vectors referencepoint ∧
          vecAt t.Vectors neighborpoint = negateVec (vecAt s.Vectors neighborpoint))) →
      (VectorSegmentFeatures.determineGrouping m t referencepoint neighborpoint gnum).2 =
        (VectorSegmentFeatures.determineGrouping m s referencepoint neighborpoint gnum).2 ∧
      (VectorSegmentFeatures.determineGrouping m t referencepoint neighborpoint gnum).1.FeatureIds =
        (VectorSegmentFeatures.determineGrouping m s referencepoint neighborpoint
          gnum).1.FeatureIds) ∧
    (Flt.lt (vecAt s.Vectors referencepoint).z (Flt.fin 0) = false →
      Flt.lt (Flt.fin 0) (vecAt s.Vectors referencepoint).z = false →
      vecAt t.Vectors referencepoint = negateVec (vecAt s.Vectors referencepoint) →
      vecAt t.Vectors neighborpoint = vecAt s.Vectors neighborpoint →
      VectorSegmentFeatures.groupingAngle m s referencepoint neighborpoint =
        VectorSegmentFeatures.fold m (m.acosf (m.CosThetaBetweenVectors
          (vecAt s.Vectors referencepoint)
          (VectorSegmentFeatures.polarity (vecAt s.Vectors neighborpoint)))) ∧
      VectorSegmentFeatures.groupingAngle m t referencepoint neighborpoint =
        VectorSegmentFeatures.fold m (m.acosf (m.CosThetaBetweenVectors
          (negateVec (vecAt s.Vectors referencepoint))
          (VectorSegmentFeatures.polarity (vecAt s.Vectors neighborpoint)))) ∧
      (m.CosThetaBetweenVectors (negateVec (vecAt s.Vectors referencepoint))
            (VectorSegmentFeatures.polarity (vecAt s.Vectors neighborpoint)) =
          Flt.neg (m.CosThetaBetweenVectors (vecAt s.Vectors referencepoint)
            (VectorSegmentFeatures.polarity (vecAt s.Vectors neighborpoint))) →
        m.acosf (Flt.neg (m.CosThetaBetweenVectors (vecAt s.Vectors referencepoint)
            (VectorSegmentFeatures.polarity (vecAt s.Vectors neighborpoint)))) =
          Flt.sub m.k_PiD (m.acosf (m.CosThetaBetweenVectors (vecAt s.Vectors referencepoint)
            (VectorSegmentFeatures.polarity (vecAt s.Vectors neighborpoint)))) →
        (∃ h : ℚ, m.k_PiOver2D = Flt.fin h ∧ m.k_PiD = Flt.fin (2 * h)) →
        (VectorSegmentFeatures.determineGrouping m t referencepoint neighborpoint gnum).2 =
          (VectorSegmentFeatures.determineGrouping m s referencepoint neighborpoint gnum).2 ∧
        (VectorSegmentFeatures.determineGrouping m t referencepoint neighborpoint
            gnum).1.FeatureIds =
          (VectorSegmentFeatures.determineGrouping m s referencepoint neighborpoint
            gnum).1.FeatureIds)) ∧
    (Flt.lt (vecAt s.Vectors neighborpoint).z (Flt.fin 0) = false →
      Flt.lt (Flt.fin 0) (vecAt s.Vectors neighborpoint).z = false →
      vecAt t.Vectors referencepoint = vecAt s.Vectors referencepoint →
      vecAt t.Vectors neighborpoint = negateVec (vecAt s.Vectors neighborpoint) →
      VectorSegmentFeatures.groupingAngle m s referencepoint neighborpoint =
        VectorSegmentFeatures.fold m (m.acosf (m.CosThetaBetweenVectors
          (VectorSegmentFeatures.polarity (vecAt s.Vectors referencepoint))
          (vecAt s.Vectors neighborpoint))) ∧
      VectorSegmentFeatures.groupingAngle m t referencepoint neighborpoint =
        VectorSegmentFeatures.fold m (m.acosf (m.CosThetaBetweenVectors
          (VectorSegmentFeatures.polarity (vecAt s.Vectors referencepoint))
          (negateVec (vecAt s.Vectors neighborpoint)))) ∧
      (m.CosThetaBetweenVectors
            (VectorSegmentFeatures.polarity (vecAt s.Vectors referencepoint))
            (negateVec (vecAt s.Vectors neighborpoint)) =
          Flt.neg (m.CosThetaBetweenVectors
            (VectorSegmentFeatures.polarity (vecAt s.Vectors referencepoint))
            (vecAt s.Vectors neighborpoint)) →
        m.acosf (Flt.neg (m.CosThetaBetweenVectors
            (VectorSegmentFeatures.polarity (vecAt s.Vectors referencepoint))
            (vecAt s.Vectors neighborpoint))) =
          Flt.sub m.k_PiD (m.acosf (m.CosThetaBetweenVectors
            (VectorSegmentFeatures.polarity (vecAt s.Vectors referencepoint))
            (vecAt s.Vectors neighborpoint))) →
        (∃ h : ℚ, m.k_PiOver2D = Flt.fin h ∧ m.k_PiD = Flt.fin (2 * h)) →
        (VectorSegmentFeatures.determineGrouping m t referencepoint neighborpoint gnum).2 =
          (VectorSegmentFeatures.determineGrouping m s referencepoint neighborpoint gnum).2 ∧
        (VectorSegmentFeatures.determineGrouping m t referencepoint neighborpoint
            gnum).1.FeatureIds =
          (VectorSegmentFeatures.determineGrouping m s referencepoint neighborpoint
            gnum).1.FeatureIds)) ∧
    (s.FeatureIds.getD neighborpoint 0 = 0 →
      (s.UseGoodVoxels = false ∨ s.GoodVoxels.getD neighborpoint false = true) →
      ((VectorSegmentFeatures.determineGrouping m t referencepoint neighborpoint gnum).2 =
          (VectorSegmentFeatures.determineGrouping m s referencepoint neighborpoint gnum).2 ↔
        Flt.lt (VectorSegmentFeatures.groupingAngle m t referencepoint neighborpoint)
            s.AngleToleranceRad =
          Flt.lt (VectorSegmentFeatures.groupingAngle m s referencepoint neighborpoint)
            s.AngleToleranceRad)) := by
  have hcongr := VectorSegmentFeatures.determineGrouping_congr m s t referencepoint
    neighborpoint gnum hids huse hgood htol
  refine ⟨?_, ?_, ?_, ?_⟩
  · intro hflip
    apply hcongr
    rw [VectorSegmentFeatures.groupingAngle_eq, VectorSegmentFeatures.groupingAngle_eq]
    rcases hflip with ⟨hz, e1, e2⟩ | ⟨hz, e1, e2⟩
    · rw [e1, e2, VectorSegmentFeatures.polarity_negateVec_of_nonzero _ hz]
    · rw [e1, e2, VectorSegmentFeatures.polarity_negateVec_of_nonzero _ hz]
  · intro h1 h2 e1 e2
    obtain ⟨p1, p2⟩ := VectorSegmentFeatures.polarity_of_zero _ h1 h2
    have hs : VectorSegmentFeatures.groupingAngle m s referencepoint neighborpoint =
        VectorSegmentFeatures.fold m (m.acosf (m.CosThetaBetweenVectors
          (vecAt s.Vectors referencepoint)
          (VectorSegmentFeatures.polarity (vecAt s.Vectors neighborpoint)))) := by
      rw [VectorSegmentFeatures.groupingAngle_eq, p1]
    have ht : VectorSegmentFeatures.groupingAngle m t referencepoint neighborpoint =
        VectorSegmentFeatures.fold m (m.acosf (m.CosThetaBetweenVectors
          (negateVec (vecAt s.Vectors referencepoint))
          (VectorSegmentFeatures.polarity (vecAt s.Vectors neighborpoint)))) := by
      rw [VectorSegmentFeatures.groupingAngle_eq, e1, e2, p2]
    refine ⟨hs, ht, ?_⟩
    intro hcos hacos hpi
    apply hcongr
    rw [hs, ht, hcos, hacos, VectorSegmentFeatures.fold_reflect m hpi]
  · intro h1 h2 e1 e2
    obtain ⟨p1, p2⟩ := VectorSegmentFeatures.polarity_of_zero _ h1 h2
    have hs : VectorSegmentFeatures.groupingAngle m s referencepoint neighborpoint =
        VectorSegmentFeatures.fold m (m.acosf (m.CosThetaBetweenVectors
          (VectorSegmentFeatures.polarity (vecAt s.Vectors referencepoint))
          (vecAt s.Vectors neighborpoint))) := by
      rw [VectorSegmentFeatures.groupingAngle_eq, p1]
    have ht : VectorSegmentFeatures.groupingAngle m t referencepoint neighborpoint =
        VectorSegmentFeatures.fold m (m.acosf (m.CosThetaBetweenVectors
          (VectorSegmentFeatures.polarity (vecAt s.Vectors referencepoint))
          (negateVec (vecAt s.Vectors neighborpoint)))) := by
      rw [VectorSegmentFeatures.groupingAngle_eq, e1, e2, p2]
    refine ⟨hs, ht, ?_⟩
    intro hcos hacos hpi
    apply hcongr
    rw [hs, ht, hcos, hacos, VectorSegmentFeatures.fold_reflect m hpi]
  · intro hfree hmask
    have hfree2 : t.FeatureIds.getD neighborpoint 0 = 0 := by rw [hids]; exact hfree
    have hmask2 : t.UseGoodVoxels = false ∨ t.GoodVoxels.getD neighborpoint false = true := by
      rw [huse, hgood]; exact hmask
    rw [VectorSegmentFeatures.determineGrouping_flag m s _ _ gnum hfree hmask,
      VectorSegmentFeatures.determineGrouping_flag m t _ _ gnum hfree2 hmask2, htol]

/-- Witness of C27 (amended): the negation of the reference vector (0,0,1) against the
neighbour (0,0,-1) with the binary32 values of the library, and the negation of the reference
vector (1,0,0), whose third component is 0, with a library without rounding. -/
theorem grouping_sign_invariant_witness :
    ((VectorSegmentFeatures.determineGrouping SIMPLibMath.binary32
          VectorSegmentFeatures.antiparallelFlipped 0 1 1).2 =
        (VectorSegmentFeatures.determineGrouping SIMPLibMath.binary32
          VectorSegmentFeatures.antiparallel 0 1 1).2 ∧
      (VectorSegmentFeatures.determineGrouping SIMPLibMath.binary32
          VectorSegmentFeatures.antiparallelFlipped 0 1 1).1.FeatureIds =
        (VectorSegmentFeatures.determineGrouping SIMPLibMath.binary32
          VectorSegmentFeatures.antiparallel 0 1 1).1.FeatureIds) ∧
    ((VectorSegmentFeatures.determineGrouping SIMPLibMath.exactSample
          VectorSegmentFeatures.alignedXFlipped 0 1 1).2 =
        (VectorSegmentFeatures.determineGrouping SIMPLibMath.exactSample
          VectorSegmentFeatures.alignedX 0 1 1).2 ∧
      (VectorSegmentFeatures.determineGrouping SIMPLibMath.exactSample
          VectorSegmentFeatures.alignedXFlipped 0 1 1).1.FeatureIds =
        (VectorSegmentFeatures.determineGrouping SIMPLibMath.exactSample
          VectorSegmentFeatures.alignedX 0 1 1).1.FeatureIds) :=
  ⟨(grouping_sign_invariant SIMPLibMath.binary32 VectorSegmentFeatures.antiparallel
      VectorSegmentFeatures.antiparallelFlipped 0 1 1 rfl rfl rfl rfl).1
      (Or.inl ⟨Or.inr (by decide!), by decide!, by decide!⟩),
    ((grouping_sign_invariant SIMPLibMath.exactSample VectorSegmentFeatures.alignedX
      VectorSegmentFeatures.alignedXFlipped 0 1 1 rfl rfl rfl rfl).2.1
      (by decide!) (by decide!) (by decide!) (by decide!)).2.2
      (by decide!) (by decide!) ⟨355 / 226, rfl, rfl⟩⟩

/-- C25, as stated, fails: `determineGrouping` applies no clamp, so with a library whose
cosine overshoots 1 (`SIMPLibMath.overshoot`) the value passed to `acosf` for the elements 0
and 1 of `antiparallel` is `1 + 2^-23`, which is above 1 and differs from its clamped
value 1; the arc cosine is then NaN and the two elements are not grouped. -/
theorem acos_argument_counterexample :
    VectorSegmentFeatures.acosArgument SIMPLibMath.overshoot
      VectorSegmentFeatures.antiparallel 0 1 = Flt.fin (1 + 1 / 8388608) ∧
    Flt.le (VectorSegmentFeatures.acosArgument SIMPLibMath.overshoot
      VectorSegmentFeatures.antiparallel 0 1) (Flt.fin 1) = false ∧
    Flt.clamp (VectorSegmentFeatures.acosArgument SIMPLibMath.overshoot
      VectorSegmentFeatures.antiparallel 0 1) (Flt.fin (-1)) (Flt.fin 1) = Flt.fin 1 ∧
    (VectorSegmentFeatures.determineGrouping SIMPLibMath.overshoot
      VectorSegmentFeatures.antiparallel 0 1 1).2 = false := by
  decide!

/-- C25 (amended): `VectorSegmentFeatures::determineGrouping` passes to `acosf` the value
returned by `GeometryMath::CosThetaBetweenVectors` on the sign-normalised vectors, unchanged:
the angle it compares is the fold of `acosf` of that value; the value lies in `[-1, 1]`
exactly when it equals its clamped value, that is, when the library returned a value in
`[-1, 1]`; and when `acosf` answers NaN the predicate returns `false` for every tolerance. -/
theorem acos_argument_unclamped (m : SIMPLibMath) (s : VectorSegmentFeatures)
    (referencepoint neighborpoint : Nat) :
    VectorSegmentFeatures.acosArgument m s referencepoint neighborpoint =
      m.CosThetaBetweenVectors
        (VectorSegmentFeatures.polarity (vecAt s.Vectors referencepoint))
        (VectorSegmentFeatures.polarity (vecAt s.Vectors neighborpoint)) ∧
    VectorSegmentFeatures.groupingAngle m s referencepoint neighborpoint =
      VectorSegmentFeatures.fold m
        (m.acosf (VectorSegmentFeatures.acosArgument m s referencepoint neighborpoint)) ∧
    (VectorSegmentFeatures.acosArgument m s referencepoint neighborpoint ≠ Flt.nan →
      ((Flt.le (Flt.fin (-1))
            (VectorSegmentFeatures.acosArgument m s referencepoint neighborpoint) = true ∧
          Flt.le (VectorSegmentFeatures.acosArgument m s referencepoint neighborpoint)
            (Flt.fin 1) = true) ↔
        Flt.clamp (VectorSegmentFeatures.acosArgument m s referencepoint neighborpoint)
          (Flt.fin (-1)) (Flt.fin 1) =
          VectorSegmentFeatures.acosArgument m s referencepoint neighborpoint)) ∧
    (m.acosf (VectorSegmentFeatures.acosArgument m s referencepoint neighborpoint) = Flt.nan →
      ∀ gnum : Int,
        (VectorSegmentFeatures.determineGrouping m s referencepoint neighborpoint gnum).2 =
          false) := by
  have hangle : VectorSegmentFeatures.groupingAngle m s referencepoint neighborpoint =
      VectorSegmentFeatures.fold m
        (m.acosf (VectorSegmentFeatures.acosArgument m s referencepoint neighborpoint)) := rfl
  refine ⟨rfl, rfl, ?_, ?_⟩
  rotate_left
  · intro hnan gnum
    have hg : VectorSegmentFeatures.groupingAngle m s referencepoint neighborpoint =
        Flt.nan := by
      rw [hangle, hnan]
      simp [VectorSegmentFeatures.fold, Flt.gt, Flt.lt]
    unfold VectorSegmentFeatures.determineGrouping
    rw [hg]
    simp [Flt.lt]
  generalize VectorSegmentFeatures.acosArgument m s referencepoint neighborpoint = c
  intro hc
  cases c with
  | nan => exact absurd rfl hc
  | ninf => simp [Flt.le, Flt.ge, Flt.clamp, Flt.lt]
  | pinf => simp [Flt.le, Flt.ge, Flt.clamp, Flt.lt]
  | fin q =>
    simp only [Flt.le, Flt.ge, Flt.clamp, Flt.lt, decide_eq_true_eq]
    constructor
    · rintro ⟨h1, h2⟩
      rw [if_neg (not_lt.mpr h1), if_neg (not_lt.mpr h2)]
    · intro h
      by_cases h1 : q < -1
      · rw [if_pos h1] at h
        have : (-1 : ℚ) = q := by simpa using h
        linarith
      · rw [if_neg h1] at h
        by_cases h2 : 1 < q
        · rw [if_pos h2] at h
          have : (1 : ℚ) = q := by simpa using h
          linarith
        · exact ⟨not_lt.mp h1, not_lt.mp h2⟩

theorem acos_argument_unclamped_witness :
    (VectorSegmentFeatures.determineGrouping SIMPLibMath.overshoot
      VectorSegmentFeatures.antiparallel 0 1 7).2 = false :=
  (acos_argument_unclamped SIMPLibMath.overshoot VectorSegmentFeatures.antiparallel 0
    1).2.2.2 (by decide!) 7

/-! ## Connectivity of the grid -/

/-- The neighbours of the element with coordinates `(x, y, z)`, in coordinates. -/
theorem neighbors_of_coordinates (nx ny nz x y z : Nat) (hx : x < nx) (hy : y < ny) :
    neighbors nx ny nz (z * nx * ny + y * nx + x) =
      (if 0 < z then [z * nx * ny + y * nx + x - nx * ny] else []) ++
      (if 0 < y then [z * nx * ny + y * nx + x - nx] else []) ++
      (if 0 < x then [z * nx * ny + y * nx + x - 1] else []) ++
      (if x + 1 < nx then [z * nx * ny + y * nx + x + 1] else []) ++
      (if y + 1 < ny then [z * nx * ny + y * nx + x + nx] else []) ++
      (if z + 1 < nz then [z * nx * ny + y * nx + x + nx * ny] else []) := by
  obtain ⟨h1, h2, h3⟩ := gridPoint_decode z hx hy
  unfold neighbors
  simp only
  rw [← Nat.div_div_eq_div_mul, h1, h2, h3]

theorem mem_neighbors_succ_x (nx ny nz x y z : Nat) (hx : x + 1 < nx) (hy : y < ny) :
    z * nx * ny + y * nx + (x + 1) ∈ neighbors nx ny nz (z * nx * ny + y * nx + x) := by
  rw [neighbors_of_coordinates nx ny nz x y z (by omega) hy]
  simp only [List.mem_append]
  left; left; right
  rw [if_pos hx]
  exact List.mem_singleton.mpr rfl

theorem mem_neighbors_succ_y (nx ny nz x y z : Nat) (hx : x < nx) (hy : y + 1 < ny) :
    z * nx * ny + (y + 1) * nx + x ∈ neighbors nx ny nz (z * nx * ny + y * nx + x) := by
  rw [neighbors_of_coordinates nx ny nz x y z hx (by omega)]
  simp only [List.mem_append]
  left; right
  rw [if_pos hy]
  apply List.mem_singleton.mpr
  ring

theorem mem_neighbors_succ_z (nx ny nz x y z : Nat) (hx : x < nx) (hy : y < ny)
    (hz : z + 1 < nz) :
    (z + 1) * nx * ny + y * nx + x ∈ neighbors nx ny nz (z * nx * ny + y * nx + x) := by
  rw [neighbors_of_coordinates nx ny nz x y z hx hy]
  simp only [List.mem_append]
  right
  rw [if_pos hz]
  apply List.mem_singleton.mpr
  ring

/-- Every element of the grid is reachable from element 0 when all neighbour steps inside the
grid are admitted. -/
theorem reachable_of_all_edges (E : Nat → Nat → Prop) (nx ny nz : Nat)
    (hE : ∀ r n : Nat, r < nx * ny * nz → n ∈ neighbors nx ny nz r → E r n) (p : Nat)
    (hp : p < nx * ny * nz) : Reachable E nx ny nz 0 p := by
  obtain ⟨x, hx, y, hy, z, hz, rfl⟩ := (mem_gridPoints nx ny nz p).mp
    ((mem_gridPoints_iff_lt nx ny nz p).mpr hp)
  have hin : ∀ a b c : Nat, a < nx → b < ny → c < nz →
      c * nx * ny + b * nx + a < nx * ny * nz := fun a b c ha hb hc =>
    (mem_gridPoints_iff_lt nx ny nz _).mp
      ((mem_gridPoints nx ny nz _).mpr ⟨a, ha, b, hb, c, hc, rfl⟩)
  have hnx : 0 < nx := by omega
  have hny : 0 < ny := by omega
  have hZ : ∀ c : Nat, c < nz → Reachable E nx ny nz 0 (c * nx * ny + 0 * nx + 0) := by
    intro c
    induction c with
    | zero =>
      intro _
      have : 0 * nx * ny + 0 * nx + 0 = 0 := by simp
      rw [this]
      exact Reachable.seed
    | succ c ih =>
      intro hc
      have hm := mem_neighbors_succ_z nx ny nz 0 0 c hnx hny hc
      exact Reachable.step (ih (by omega)) hm (hE _ _ (hin 0 0 c hnx hny (by omega)) hm)
  have hY : ∀ b : Nat, b < ny → Reachable E nx ny nz 0 (z * nx * ny + b * nx + 0) := by
    intro b
    induction b with
    | zero => intro _; exact hZ z hz
    | succ b ih =>
      intro hb
      have hm := mem_neighbors_succ_y nx ny nz 0 b z hnx hb
      exact Reachable.step (ih (by omega)) hm (hE _ _ (hin 0 b z hnx (by omega) hz) hm)
  have hX : ∀ a : Nat, a < nx → Reachable E nx ny nz 0 (z * nx * ny + y * nx + a) := by
    intro a
    induction a with
    | zero => intro _; exact hY y hy
    | succ a ih =>
      intro ha
      have hm := mem_neighbors_succ_x nx ny nz a y z ha hy
      exact Reachable.step (ih (by omega)) hm (hE _ _ (hin a y z (by omega) hy hz) hm)
  exact hX x hx

/-! ## Runs of the orientation segmenter on small grids -/

theorem resizeAttributeArrays_all_true (Active : List Bool) (n : Nat)
    (h : ∀ b ∈ Active, b = true) : ∀ b ∈ resizeAttributeArrays Active n, b = true := by
  intro b hb
  unfold resizeAttributeArrays at hb
  rcases List.mem_append.mp (List.mem_of_mem_take hb) with h1 | h1
  · exact h b h1
  · exact (List.mem_replicate.mp h1).2

theorem eq_replicate_of_getD {l : List Int} {N : Nat} {v : Int} (hl : l.length = N)
    (h : ∀ i : Nat, i < N → l.getD i 0 = v) : l = List.replicate N v := by
  apply List.ext_getElem
  · rw [hl, List.length_replicate]
  · intro i h1 h2
    rw [List.getElem_replicate]
    have := h i (by omega)
    rwa [List.getD_eq_getElem _ 0 h1] at this

theorem all_true_eq_replicate {l : List Bool} (h : ∀ b ∈ l, b = true) :
    l = List.replicate l.length true := by
  apply List.ext_getElem
  · rw [List.length_replicate]
  · intro i h1 h2
    rw [List.getElem_replicate]
    exact h _ (List.getElem_mem h1)

/-- The per-feature array `Active` holds `true` only, throughout a run of the orientation
segmenter. -/
theorem ebsd_active_all_true (nx ny nz : Nat) (s : EBSDSegmentFeatures)
    (h : ∀ b ∈ s.Active, b = true) (out : EBSDSegmentFeatures × Int)
    (hrun : SegmentFeatures.execute EBSDSegmentFeatures.segmenter nx ny nz s = some out) :
    ∀ b ∈ out.1.Active, b = true := by
  have hinv := segmentLoop_invariant EBSDSegmentFeatures.segmenter nx ny nz _
    (fun _ s => ∀ b ∈ s.Active, b = true) (fun _ s => ∀ b ∈ s.Active, b = true)
    (fun _ _ _ => True)
    (by
      intro g s ns hI _
      refine ⟨?_, trivial⟩
      show ∀ b ∈ (s.getSeed g ns).1.Active, b = true
      rcases s.getSeed_cases g ns with ⟨_, hs, _⟩ | ⟨i, _, _, _, _, _, hs⟩
      · rw [hs]; exact hI
      · rw [hs]; exact resizeAttributeArrays_all_true _ _ hI)
    (by
      intro g s ns hI _
      show ∀ b ∈ (s.getSeed g ns).1.Active, b = true
      rcases s.getSeed_cases g ns with ⟨_, hs, _⟩ | ⟨i, _, _, _, _, _, hs⟩
      · rw [hs]; exact hI
      · rw [hs]; exact resizeAttributeArrays_all_true _ _ hI)
    (by
      intro g s r n hJ _ _
      refine ⟨?_, fun _ _ => trivial, fun _ => trivial⟩
      show ∀ b ∈ (s.determineGrouping r n g).1.Active, b = true
      rcases s.determineGrouping_cases r n g with hs | ⟨_, _, hs⟩
      · rw [hs]; exact hJ
      · rw [hs]; exact hJ)
    (fun _ _ h => h)
    _ s 1 0 out h hrun
  exact hinv

/-- In a state without feature ids whose element 0 passes the seed test, the first seed is
element 0. -/
theorem ebsd_first_seed_zero (s : EBSDSegmentFeatures) (h0 : 0 < s.totalPoints)
    (hseed : s.Seedable 0) : (s.getSeed 1 0).2 = 0 := by
  have hz : toSizeT 0 = 0 := by decide
  rcases s.getSeed_cases 1 0 with ⟨_, _, hno⟩ | ⟨i, hr, _, _, _, hleast, _⟩
  · exact absurd hseed (hno 0 (by rw [hz]) h0)
  · rw [hr]
    by_contra hi
    have hi2 : 0 < i := by
      rcases Nat.eq_zero_or_pos i with h | h
      · subst h; exact absurd rfl hi
      · exact h
    exact hleast 0 (by rw [hz]) hi2 hseed

theorem shuffledGid_two (draw : Nat → Int) (h : draw 1 = 1) : shuffledGid draw 2 = [0, 1] := by
  unfold shuffledGid
  simp only [show (2 - 1 : Nat) = 1 from rfl, List.range'_one, List.foldl_cons, List.foldl_nil,
    h]
  decide

/-- C21 (homogeneous grid): on every grid with `nx, ny, nz >= 1` whose elements all have the
same positive phase with a symmetry class inside the operator table, whose 6-adjacent pairs
all have a misorientation strictly below the tolerance, and without mask, `execute` of the
orientation segmenter returns with feature id 1 on every element, `Active = [true, true]`
and no error.  The one draw of the relabelling, if enabled, lies in its range `[1, 1]`. -/
theorem homogeneous_grid_single_feature (k_PiOver180D : Flt) (nx ny nz : Nat)
    (draw : Nat → Int) (se : EBSDSegmentFeatures) (phase : Int)
    (hnx : 1 ≤ nx) (hny : 1 ≤ ny) (hnz : 1 ≤ nz)
    (hdim : nx * ny * nz = se.totalPoints) (hsize : nx * ny * nz < 2 ^ 63)
    (hmask : se.UseGoodVoxels = false) (hphase : 0 < phase)
    (hsame : ∀ i : Nat, i < nx * ny * nz → se.CellPhases.getD i 0 = phase)
    (hsym : toSizeT (toInt32 (se.CrystalStructures.getD phase.toNat 0)) <
      se.OrientationOps.length)
    (hmiso : ∀ r : Nat, r < nx * ny * nz → ∀ n ∈ neighbors nx ny nz r,
      Flt.lt (se.misorientation r n) (Flt.mul se.MisorientationTolerance k_PiOver180D) = true)
    (hdraw : draw 1 = 1) :
    ∃ s2 : EBSDSegmentFeatures, se.execute k_PiOver180D nx ny nz draw = some s2 ∧
      s2.FeatureIds = List.replicate (nx * ny * nz) 1 ∧ s2.Active = [true, true] ∧
      s2.ErrorCode = 0 := by
  have hN : 0 < nx * ny * nz := Nat.mul_pos (Nat.mul_pos hnx hny) hnz
  have hlen : (se.beforeGrowth k_PiOver180D).FeatureIds.length = nx * ny * nz := by
    show (List.replicate se.FeatureIds.length (0 : Int)).length = _
    rw [List.length_replicate]
    exact hdim.symm
  have hz : ∀ i : Nat, (se.beforeGrowth k_PiOver180D).FeatureIds.getD i 0 = 0 :=
    getD_eq_zero_of_forall_mem (mem_replicate_zero _)
  obtain ⟨s2, g2, hrun, hg, hlen2, hrange, hpresent, _, hc, _, _, hlast⟩ :=
    scheduler_completes ebsd_lawful nx ny nz hsize True (se.beforeGrowth k_PiOver180D) hlen
      (fun i _ => hz i) (fun _ => rfl)
  -- the first seed is element 0
  have hseed : (EBSDSegmentFeatures.segmenter.getSeed (se.beforeGrowth k_PiOver180D) 1 0).2
      = 0 := by
    apply ebsd_first_seed_zero
    · show 0 < (se.beforeGrowth k_PiOver180D).FeatureIds.length
      rw [hlen]; exact hN
    · refine ⟨hz 0, Or.inl hmask, ?_⟩
      show 0 < se.CellPhases.getD 0 0
      rw [hsame 0 hN]; exact hphase
  -- every neighbour step is admitted
  have hedge : ∀ r n : Nat, r < nx * ny * nz → n ∈ neighbors nx ny nz r →
      (se.beforeGrowth k_PiOver180D).Groupable r n := by
    intro r n hr hn
    have hnN := neighbors_lt nx ny nz r hr n hn
    have hcr : ∀ i : Nat, i < nx * ny * nz →
        (se.beforeGrowth k_PiOver180D).crystalStructure i =
          se.CrystalStructures.getD phase.toNat 0 := by
      intro i hi
      show se.CrystalStructures.getD (se.CellPhases.getD i 0).toNat 0 = _
      rw [hsame i hi]
    refine ⟨?_, ?_, ?_⟩
    · rw [hcr r hr, hcr n hnN]
      show ¬ (_ ≥ se.OrientationOps.length ∨ _ ≥ se.OrientationOps.length)
      omega
    · show (!se.UseGoodVoxels || se.GoodVoxels.getD n false) = true
      rw [hmask]; rfl
    · show Flt.lt (if se.CellPhases.getD r 0 = se.CellPhases.getD n 0 then
          se.misorientation r n else fltMax)
          (Flt.mul se.MisorientationTolerance k_PiOver180D) = true
      rw [hsame r hr, hsame n hnN, if_pos rfl]
      exact hmiso r hr n hn
  -- all elements are in feature 1
  have hall : ∀ i : Nat, i < nx * ny * nz → s2.FeatureIds.getD i 0 = 1 := by
    intro i hi
    apply (first_feature_reachable ebsd_lawful ebsd_grouping nx ny nz
      (se.beforeGrowth k_PiOver180D) hlen hz (s2, g2) hrun i).mpr
    rw [hseed]
    exact ⟨le_refl _, reachable_of_all_edges _ nx ny nz hedge i hi⟩
  have hids : s2.FeatureIds = List.replicate (nx * ny * nz) 1 :=
    eq_replicate_of_getD hlen2 hall
  -- exactly one feature
  have hg2 : g2 = 2 := by
    have h1 := (hrange 0 hN).2
    rw [hall 0 hN] at h1
    by_contra hne
    obtain ⟨i, hi, h2⟩ := hpresent 2 (by decide) (by omega)
    rw [hall i hi] at h2
    exact absurd h2 (by decide)
  have hactl : s2.Active.length = 2 := by
    have := hc trivial
    have h3 : (s2.Active.length : Int) = 2 := by rw [← hg2]; exact this
    omega
  have hact : s2.Active = [true, true] := by
    have htrue := ebsd_active_all_true nx ny nz (se.beforeGrowth k_PiOver180D)
      (resizeAttributeArrays_all_true [] 1 (fun b hb => absurd hb (List.not_mem_nil b)))
      (s2, g2) hrun
    have := all_true_eq_replicate htrue
    rw [hactl] at this
    exact this
  have herr : s2.ErrorCode = 0 := by
    obtain ⟨s0, ns0, _, hs⟩ := hlast
    rw [hs]
    exact ebsd_getSeed_errorCode _ _ _
  unfold EBSDSegmentFeatures.execute
  rw [hrun]
  simp only
  rw [if_neg (by rw [hactl]; decide)]
  by_cases hr : s2.RandomizeFeatureIds = true
  · rw [if_pos hr]
    refine ⟨_, rfl, ?_, hact, herr⟩
    show randomizeIds draw (nx * ny * nz) s2.Active.length s2.FeatureIds = _
    rw [hactl]
    have hl : nx * ny * nz = s2.FeatureIds.length := hlen2.symm
    rw [hl, randomizeIds_eq_map, shuffledGid_two draw hdraw, hids]
    simp
  · rw [if_neg hr]
    exact ⟨s2, rfl, hids, hact, herr⟩

theorem homogeneous_grid_single_feature_witness :
    ∃ s2 : EBSDSegmentFeatures,
      EBSDSegmentFeatures.uniform9.execute (Flt.fin (71 / 4068)) 3 3 1 (fun _ => 1) = some s2 ∧
      s2.FeatureIds = List.replicate (3 * 3 * 1) 1 ∧ s2.Active = [true, true] ∧
      s2.ErrorCode = 0 :=
  homogeneous_grid_single_feature (Flt.fin (71 / 4068)) 3 3 1 (fun _ => 1)
    EBSDSegmentFeatures.uniform9 1 (by decide) (by decide) (by decide) (by decide) (by decide)
    rfl (by decide) (by decide) (by decide) (by decide!) rfl

/-- Being a grid neighbour is symmetric. -/
theorem neighbors_symm (nx ny nz r p : Nat) (hr : r < nx * ny * nz)
    (hp : p ∈ neighbors nx ny nz r) : r ∈ neighbors nx ny nz p := by
  obtain ⟨x, hx, y, hy, z, hz, rfl⟩ := (mem_gridPoints nx ny nz r).mp
    ((mem_gridPoints_iff_lt nx ny nz r).mpr hr)
  rw [neighbors_of_coordinates nx ny nz x y z hx hy] at hp
  simp only [List.mem_append] at hp
  rcases hp with ((((h | h) | h) | h) | h) | h
  · -- p is the neighbour below
    split at h
    · rename_i h0
      rw [List.mem_singleton] at h
      obtain ⟨z2, rfl⟩ : ∃ z2, z = z2 + 1 := ⟨z - 1, by omega⟩
      have e : (z2 + 1) * nx * ny + y * nx + x - nx * ny = z2 * nx * ny + y * nx + x := by
        have : (z2 + 1) * nx * ny = z2 * nx * ny + nx * ny := by ring
        omega
      rw [h, e]
      exact mem_neighbors_succ_z nx ny nz x y z2 hx hy hz
    · exact absurd h (List.not_mem_nil _)
  · split at h
    · rename_i h0
      rw [List.mem_singleton] at h
      obtain ⟨y2, rfl⟩ : ∃ y2, y = y2 + 1 := ⟨y - 1, by omega⟩
      have e : z * nx * ny + (y2 + 1) * nx + x - nx = z * nx * ny + y2 * nx + x := by
        have : (y2 + 1) * nx = y2 * nx + nx := by ring
        omega
      rw [h, e]
      exact mem_neighbors_succ_y nx ny nz x y2 z hx hy
    · exact absurd h (List.not_mem_nil _)
  · split at h
    · rename_i h0
      rw [List.mem_singleton] at h
      obtain ⟨x2, rfl⟩ : ∃ x2, x = x2 + 1 := ⟨x - 1, by omega⟩
      have e : z * nx * ny + y * nx + (x2 + 1) - 1 = z * nx * ny + y * nx + x2 := by omega
      rw [h, e]
      exact mem_neighbors_succ_x nx ny nz x2 y z hx hy
    · exact absurd h (List.not_mem_nil _)
  · split at h
    · rename_i h0
      rw [List.mem_singleton] at h
      have e : z * nx * ny + y * nx + x + 1 = z * nx * ny + y * nx + (x + 1) := by omega
      rw [h, e, neighbors_of_coordinates nx ny nz (x + 1) y z h0 hy]
      simp only [List.mem_append]
      left; left; left; right
      rw [if_pos (by omega)]
      exact List.mem_singleton.mpr (by omega)
    · exact absurd h (List.not_mem_nil _)
  · split at h
    · rename_i h0
      rw [List.mem_singleton] at h
      have e : z * nx * ny + y * nx + x + nx = z * nx * ny + (y + 1) * nx + x := by
        have : (y + 1) * nx = y * nx + nx := by ring
        omega
      rw [h, e, neighbors_of_coordinates nx ny nz x (y + 1) z hx h0]
      simp only [List.mem_append]
      left; left; left; left; right
      rw [if_pos (by omega)]
      apply List.mem_singleton.mpr
      have : (y + 1) * nx = y * nx + nx := by ring
      omega
    · exact absurd h (List.not_mem_nil _)
  · split at h
    · rename_i h0
      rw [List.mem_singleton] at h
      have e : z * nx * ny + y * nx + x + nx * ny = (z + 1) * nx * ny + y * nx + x := by
        have : (z + 1) * nx * ny = z * nx * ny + nx * ny := by ring
        omega
      rw [h, e, neighbors_of_coordinates nx ny nz x y (z + 1) hx hy]
      simp only [List.mem_append]
      left; left; left; left; left
      rw [if_pos (by omega)]
      apply List.mem_singleton.mpr
      have : (z + 1) * nx * ny = z * nx * ny + nx * ny := by ring
      omega
    · exact absurd h (List.not_mem_nil _)

/-! ## Isolated elements -/

theorem Flt.lt_false_of_ge {w t : Flt} (h : Flt.ge w t = true) : Flt.lt w t = false := by
  cases w <;> cases t <;> simp_all [Flt.lt, Flt.ge]

/-- An element that no neighbour step reaches or leaves is, at the end of a run started from
all-zero feature ids, unassigned or alone in its feature. -/
theorem isolated_in_run {σ : Type} {seg : Segmenter σ} {ids : σ → List Int} {cnt : σ → Nat}
    {adm : σ → Nat → Prop} {edge : σ → Nat → Nat → Prop}
    (L : seg.Lawful ids cnt adm) (G : seg.Grouping ids edge)
    (nx ny nz : Nat) (s0 : σ) (hlen : (ids s0).length = nx * ny * nz)
    (hzero : ∀ i : Nat, (ids s0).getD i 0 = 0) (p : Nat)
    (hout : ∀ n ∈ neighbors nx ny nz p, ¬ edge s0 p n)
    (hin : ∀ r : Nat, r < nx * ny * nz → p ∈ neighbors nx ny nz r → ¬ edge s0 r p)
    (out : σ × Int) (hrun : SegmentFeatures.execute seg nx ny nz s0 = some out) :
    (ids out.1).getD p 0 = 0 ∨
      ∀ q : Nat, (ids out.1).getD q 0 = (ids out.1).getD p 0 → q = p := by
  have hinv := segmentLoop_invariant seg nx ny nz (nx * ny * nz + 1)
    (fun g s => 1 ≤ g ∧ (ids s).length = nx * ny * nz ∧
      (∀ a b : Nat, edge s a b ↔ edge s0 a b) ∧ (∀ i : Nat, (ids s).getD i 0 < g) ∧
      ((ids s).getD p 0 = 0 ∨ ∀ q : Nat, (ids s).getD q 0 = (ids s).getD p 0 → q = p))
    (fun g s => 1 ≤ g ∧ (ids s).length = nx * ny * nz ∧
      (∀ a b : Nat, edge s a b ↔ edge s0 a b) ∧ (∀ i : Nat, (ids s).getD i 0 ≤ g) ∧
      ((ids s).getD p 0 = 0 ∨ ∀ q : Nat, (ids s).getD q 0 = (ids s).getD p 0 → q = p))
    (fun g s r => r < nx * ny * nz ∧ (ids s).getD r 0 = g)
    (by
      rintro g s ns ⟨hg, hl, he, hlt, hP⟩ hs
      rcases L.getSeed_views s g ns with ⟨h, _⟩ | ⟨i, hi, _, hil, hz, hids, _⟩
      · rw [h] at hs; exact absurd hs (by decide)
      · beta_reduce
        rw [hids, hi]
        simp only [Int.toNat_ofNat]
        refine ⟨⟨hg, by rw [List.length_set]; exact hl,
          fun a b => (G.seed_edge s g ns a b).trans (he a b), ?_, ?_⟩,
          by omega, getD_set_self hil _ _⟩
        · intro j
          by_cases e : i = j
          · subst e; rw [getD_set_self hil]
          · rw [getD_set_ne e]; exact le_of_lt (hlt j)
        · by_cases e : i = p
          · subst e
            right
            intro q hq
            by_contra hne
            rw [getD_set_self hil, getD_set_ne (fun h => hne h.symm)] at hq
            have := hlt q
            omega
          · rw [getD_set_ne e]
            rcases hP with h0 | hu
            · exact Or.inl h0
            · right
              intro q hq
              by_cases e2 : i = q
              · subst e2
                rw [getD_set_self hil] at hq
                have := hlt p
                omega
              · rw [getD_set_ne e2] at hq
                exact hu q hq)
    (by
      rintro g s ns ⟨hg, hl, he, hlt, hP⟩ hs
      rcases L.getSeed_views s g ns with ⟨_, hids, _⟩ | ⟨i, hi, _⟩
      · rw [hids]
        exact ⟨hg, hl, fun a b => (G.seed_edge s g ns a b).trans (he a b), hlt, hP⟩
      · rw [hi] at hs
        exact absurd (Int.ofNat_nonneg i) hs)
    (by
      rintro g s r n ⟨hg, hl, he, hle, hP⟩ ⟨hr, hrg⟩ hn
      have he2 : ∀ a b : Nat, edge (seg.determineGrouping s r n g).1 a b ↔ edge s0 a b :=
        fun a b => (G.group_edge s r n g a b).trans (he a b)
      have hnN : n < nx * ny * nz := neighbors_lt nx ny nz r hr n hn
      rcases L.determineGrouping_views s r n g with ⟨hf, hids⟩ | ⟨ht, hz, hids⟩
      · beta_reduce
        rw [hids]
        refine ⟨⟨hg, hl, he2, hle, hP⟩, fun q hq => hq, ?_⟩
        intro h
        rw [hf] at h
        exact absurd h (by decide)
      · have hedge : edge s0 r n := (he r n).mp ((G.group_iff s r n g).mp ht).2
        have hnp : n ≠ p := by
          intro e
          subst e
          exact hin r hr hn hedge
        have hnl : n < (ids s).length := by rw [hl]; exact hnN
        beta_reduce
        rw [hids]
        refine ⟨⟨hg, by rw [List.length_set]; exact hl, he2, ?_, ?_⟩, ?_, ?_⟩
        · intro j
          by_cases e : n = j
          · subst e; rw [getD_set_self hnl]
          · rw [getD_set_ne e]; exact hle j
        · rw [getD_set_ne hnp]
          rcases hP with h0 | hu
          · exact Or.inl h0
          · right
            intro q hq
            by_cases e2 : n = q
            · subst e2
              rw [getD_set_self hnl] at hq
              exfalso
              have hrp : r = p := hu r (by rw [hrg, hq])
              subst hrp
              exact hout n hn hedge
            · rw [getD_set_ne e2] at hq
              exact hu q hq
        · rintro q ⟨hq1, hq2⟩
          exact ⟨hq1, getD_set_of_eq hnl hq2⟩
        · intro _
          exact ⟨hnN, getD_set_self hnl _ _⟩)
    (by
      rintro g s ⟨hg, hl, he, hle, hP⟩
      refine ⟨by omega, hl, he, ?_, hP⟩
      intro i
      have := hle i
      omega)
    (nx * ny * nz + 1) s0 1 0 out
    ⟨le_refl _, hlen, fun _ _ => Iff.rfl, fun i => by rw [hzero i]; decide,
      Or.inl (hzero p)⟩ hrun
  exact hinv.2.2.2.2

theorem ebsd_groupable_lt {s : EBSDSegmentFeatures} {r n : Nat} (h : s.Groupable r n) :
    Flt.lt (s.comparedAngle r n) s.MisoTolerance = true := h.2.2

theorem shuffledGid_three (draw : Nat → Int) :
    shuffledGid draw 3 = shuffleStep 3 (shuffleStep 3 [0, 1, 2] 1 (draw 1)) 2 (draw 2) := rfl

/-- The growth on `isolated9`, with either setting of the relabelling flag. -/
theorem isolated9_growth (b : Bool) :
    ∃ (s2 : EBSDSegmentFeatures) (g2 : Int),
      SegmentFeatures.execute EBSDSegmentFeatures.segmenter 3 3 1
        (EBSDSegmentFeatures.beforeGrowth (Flt.fin (71 / 4068))
          { EBSDSegmentFeatures.isolated9 with RandomizeFeatureIds := b }) = some (s2, g2) ∧
      s2.FeatureIds = [1, 1, 1, 1, 2, 1, 1, 1, 1] ∧ s2.Active = [true, true, true] ∧
      s2.ErrorCode = 0 ∧ s2.RandomizeFeatureIds = b := by
  have h : ∀ b : Bool, (SegmentFeatures.execute EBSDSegmentFeatures.segmenter 3 3 1
        (EBSDSegmentFeatures.beforeGrowth (Flt.fin (71 / 4068))
          { EBSDSegmentFeatures.isolated9 with RandomizeFeatureIds := b })).map
      (fun o => (o.1.FeatureIds, o.1.Active, o.1.ErrorCode, o.1.RandomizeFeatureIds)) =
      some ([1, 1, 1, 1, 2, 1, 1, 1, 1], [true, true, true], 0, b) := by
    decide!
  obtain ⟨⟨s2, g2⟩, hrun, hp⟩ := Option.map_eq_some'.mp (h b)
  simp only [Prod.mk.injEq] at hp
  exact ⟨s2, g2, hrun, hp.1, hp.2.1, hp.2.2.1, hp.2.2.2⟩

/-- The relabelling of the two features of `isolated9` under draws in the range `[1, 2]`. -/
theorem isolated9_relabelled (draw : Nat → Int) (h1 : draw 1 = 1 ∨ draw 1 = 2)
    (h2 : draw 2 = 1 ∨ draw 2 = 2) :
    randomizeIds draw (3 * 3 * 1) 3 [1, 1, 1, 1, 2, 1, 1, 1, 1] =
      if draw 1 = draw 2 then [2, 2, 2, 2, 1, 2, 2, 2, 2] else [1, 1, 1, 1, 2, 1, 1, 1, 1] := by
  unfold randomizeIds
  rw [shuffledGid_three]
  rcases h1 with h1 | h1 <;> rcases h2 with h2 | h2 <;> rw [h1, h2] <;> decide

/-- C22, as stated, fails: on `isolated9Relabelled`, the 3 by 3 by 1 grid of the scenario with
the relabelling of the feature ids enabled, as it is by default, and both draws of the
shuffle equal to 2, `execute` returns feature id 2 on the eight outer elements and 1 on the
centre. -/
theorem isolated_element_counterexample :
    (EBSDSegmentFeatures.isolated9Relabelled.execute (Flt.fin (71 / 4068)) 3 3 1
        (fun _ => 2)).map (fun s => (s.FeatureIds, s.Active, s.ErrorCode)) =
      some ([2, 2, 2, 2, 1, 2, 2, 2, 2], [true, true, true], 0) := by
  decide!

/-- C22 (amended).  On the 3 by 3 by 1 grid of the scenario (same phase, no mask, tolerance 5
degrees, the centre at 10 degrees from the others, 0 elsewhere) `execute` yields exactly two
features, one on the eight outer elements and one on the centre: with the relabelling off
(`isolated9`) the outer id is 1 and the centre id is 2; with the relabelling on
(`isolated9Relabelled`) and both draws of the shuffle within their range `[1, 2]` the two ids
are exchanged exactly when the two draws are equal.  In general, on every grid, an admissible
element whose angle `w`, as `determineGrouping` evaluates it in either direction, is `>=` the
tolerance for each of its 6-neighbours, ends the growth with a non-zero feature id that no
other element has, and, when every draw of the relabelling lies within
`[1, totalFeatures - 1]`, so it is in the output of `execute`. -/
theorem isolated_element_single_feature (k_PiOver180D : Flt) (nx ny nz : Nat)
    (se : EBSDSegmentFeatures) (p : Nat) (draw : Nat → Int) :
    (EBSDSegmentFeatures.isolated9.execute (Flt.fin (71 / 4068)) 3 3 1 draw).map
        (fun s => (s.FeatureIds, s.Active, s.ErrorCode)) =
      some ([1, 1, 1, 1, 2, 1, 1, 1, 1], [true, true, true], 0) ∧
    ((draw 1 = 1 ∨ draw 1 = 2) → (draw 2 = 1 ∨ draw 2 = 2) →
      (EBSDSegmentFeatures.isolated9Relabelled.execute (Flt.fin (71 / 4068)) 3 3 1 draw).map
          (fun s => (s.FeatureIds, s.Active, s.ErrorCode)) =
        some (if draw 1 = draw 2 then [2, 2, 2, 2, 1, 2, 2, 2, 2]
          else [1, 1, 1, 1, 2, 1, 1, 1, 1], [true, true, true], 0)) ∧
    (nx * ny * nz = se.totalPoints → nx * ny * nz < 2 ^ 63 → p < nx * ny * nz →
      se.Admissible p →
      (∀ n ∈ neighbors nx ny nz p,
        Flt.ge (se.comparedAngle p n)
            (Flt.mul se.MisorientationTolerance k_PiOver180D) = true ∧
          Flt.ge (se.comparedAngle n p)
            (Flt.mul se.MisorientationTolerance k_PiOver180D) = true) →
      (∃ (s2 : EBSDSegmentFeatures) (g2 : Int),
        SegmentFeatures.execute EBSDSegmentFeatures.segmenter nx ny nz
          (se.beforeGrowth k_PiOver180D) = some (s2, g2) ∧
        s2.FeatureIds.getD p 0 ≠ 0 ∧
        ∀ q : Nat, s2.FeatureIds.getD q 0 = s2.FeatureIds.getD p 0 → q = p) ∧
      ((∀ (s2 : EBSDSegmentFeatures) (g2 : Int),
          SegmentFeatures.execute EBSDSegmentFeatures.segmenter nx ny nz
            (se.beforeGrowth k_PiOver180D) = some (s2, g2) →
          ∀ i : Nat, 1 ≤ i → i < s2.Active.length →
            1 ≤ draw i ∧ draw i ≤ (s2.Active.length : Int) - 1) →
        ∃ s3 : EBSDSegmentFeatures,
          se.execute k_PiOver180D nx ny nz draw = some s3 ∧
          s3.FeatureIds.getD p 0 ≠ 0 ∧
          ∀ q : Nat, s3.FeatureIds.getD q 0 = s3.FeatureIds.getD p 0 → q = p)) := by
  refine ⟨?_, ?_, ?_⟩
  · obtain ⟨s2, g2, hrun, hids, hact, herr, hflag⟩ := isolated9_growth false
    have hrun2 : SegmentFeatures.execute EBSDSegmentFeatures.segmenter 3 3 1
        (EBSDSegmentFeatures.isolated9.beforeGrowth (Flt.fin (71 / 4068))) = some (s2, g2) :=
      hrun
    unfold EBSDSegmentFeatures.execute
    rw [hrun2]
    simp only
    rw [if_neg (by rw [hact]; decide), hflag]
    simp [hids, hact, herr]
  · intro h1 h2
    obtain ⟨s2, g2, hrun, hids, hact, herr, hflag⟩ := isolated9_growth true
    have hrun2 : SegmentFeatures.execute EBSDSegmentFeatures.segmenter 3 3 1
        (EBSDSegmentFeatures.isolated9Relabelled.beforeGrowth (Flt.fin (71 / 4068))) =
        some (s2, g2) := hrun
    unfold EBSDSegmentFeatures.execute
    rw [hrun2]
    simp only
    rw [if_neg (by rw [hact]; decide), hflag, if_pos rfl]
    show some ((randomizeIds draw (3 * 3 * 1) s2.Active.length s2.FeatureIds), s2.Active,
      s2.ErrorCode) = _
    rw [hact, hids, herr]
    show some (randomizeIds draw (3 * 3 * 1) 3 [1, 1, 1, 1, 2, 1, 1, 1, 1], _, _) = _
    rw [isolated9_relabelled draw h1 h2]
  intro hdim hsize hp hadm hiso
  have hlen : (se.beforeGrowth k_PiOver180D).FeatureIds.length = nx * ny * nz := by
    show (List.replicate se.FeatureIds.length (0 : Int)).length = _
    rw [List.length_replicate]
    exact hdim.symm
  have hz : ∀ i : Nat, (se.beforeGrowth k_PiOver180D).FeatureIds.getD i 0 = 0 :=
    getD_eq_zero_of_forall_mem (mem_replicate_zero _)
  obtain ⟨s2, g2, hrun, _, hlen2, hrange, _, hcov, hc, hadm2, _, _⟩ :=
    scheduler_completes ebsd_lawful nx ny nz hsize True (se.beforeGrowth k_PiOver180D) hlen
      (fun i _ => hz i) (fun _ => rfl)
  have hne : s2.FeatureIds.getD p 0 ≠ 0 := hcov p hp ((hadm2 p).mpr hadm)
  have h := isolated_in_run ebsd_lawful ebsd_grouping nx ny nz
    (se.beforeGrowth k_PiOver180D) hlen hz p
    (by
      intro n hn hg
      have h1 := ebsd_groupable_lt hg
      have h2 : Flt.lt (se.comparedAngle p n)
          (Flt.mul se.MisorientationTolerance k_PiOver180D) = false :=
        Flt.lt_false_of_ge (hiso n hn).1
      have h3 : Flt.lt (se.comparedAngle p n)
          (Flt.mul se.MisorientationTolerance k_PiOver180D) = true := h1
      rw [h2] at h3
      exact absurd h3 (by decide))
    (by
      intro r hr hpr hg
      have hrp := neighbors_symm nx ny nz r p hr hpr
      have h1 := ebsd_groupable_lt hg
      have h2 : Flt.lt (se.comparedAngle r p)
          (Flt.mul se.MisorientationTolerance k_PiOver180D) = false :=
        Flt.lt_false_of_ge (hiso r hrp).2
      have h3 : Flt.lt (se.comparedAngle r p)
          (Flt.mul se.MisorientationTolerance k_PiOver180D) = true := h1
      rw [h2] at h3
      exact absurd h3 (by decide))
    (s2, g2) hrun
  have huniq : ∀ q : Nat, s2.FeatureIds.getD q 0 = s2.FeatureIds.getD p 0 → q = p := by
    rcases h with h0 | hu
    · exact absurd h0 hne
    · exact hu
  refine ⟨⟨s2, g2, hrun, hne, huniq⟩, ?_⟩
  intro hdraw
  have hd := hdraw s2 g2 hrun
  have htf : (s2.Active.length : Int) = g2 := hc trivial
  unfold EBSDSegmentFeatures.execute
  rw [hrun]
  simp only
  by_cases hfew : (s2.Active.length : Int) < 2
  · rw [if_pos hfew]
    exact ⟨_, rfl, hne, huniq⟩
  rw [if_neg hfew]
  by_cases hr : s2.RandomizeFeatureIds = true
  swap
  · rw [if_neg hr]
    exact ⟨s2, rfl, hne, huniq⟩
  rw [if_pos hr]
  obtain ⟨hperm, hl, h0⟩ := shuffledGid_spec draw s2.Active.length hd
  obtain ⟨f0, _, finj, _⟩ := relabel_props _ s2.Active.length hperm hl h0
  have hmap : randomizeIds draw (nx * ny * nz) s2.Active.length s2.FeatureIds =
      s2.FeatureIds.map (fun v => (shuffledGid draw s2.Active.length).getD v.toNat 0) := by
    rw [← hlen2]
    exact randomizeIds_eq_map draw s2.Active.length s2.FeatureIds
  have hget : ∀ i : Nat, i < nx * ny * nz →
      (randomizeIds draw (nx * ny * nz) s2.Active.length s2.FeatureIds).getD i 0 =
        (shuffledGid draw s2.Active.length).getD (s2.FeatureIds.getD i 0).toNat 0 := by
    intro i hi
    have hi2 : i < s2.FeatureIds.length := by rw [hlen2]; exact hi
    rw [hmap, List.getD_eq_getElem _ 0 (by simpa using hi2),
      List.getD_eq_getElem s2.FeatureIds 0 hi2, List.getElem_map]
  have hin : ∀ i : Nat, i < nx * ny * nz →
      0 ≤ s2.FeatureIds.getD i 0 ∧ s2.FeatureIds.getD i 0 < (s2.Active.length : Int) := by
    intro i hi
    rw [htf]
    exact hrange i hi
  have hz0 : (0 : Int) < (s2.Active.length : Int) := lt_of_le_of_lt (hin p hp).1 (hin p hp).2
  have hne3 : (randomizeIds draw (nx * ny * nz) s2.Active.length s2.FeatureIds).getD p 0
      ≠ 0 := by
    rw [hget p hp]
    intro e
    exact hne (finj _ 0 (hin p hp).1 (hin p hp).2 (le_refl 0) hz0 (e.trans f0.symm))
  refine ⟨_, rfl, hne3, ?_⟩
  intro q hq
  have hq' : (randomizeIds draw (nx * ny * nz) s2.Active.length s2.FeatureIds).getD q 0 =
      (randomizeIds draw (nx * ny * nz) s2.Active.length s2.FeatureIds).getD p 0 := hq
  by_cases hqN : q < nx * ny * nz
  · rw [hget q hqN, hget p hp] at hq'
    exact huniq q (finj _ _ (hin q hqN).1 (hin q hqN).2 (hin p hp).1 (hin p hp).2 hq')
  · exfalso
    apply hne3
    rw [← hq', hmap, List.getD_eq_default]
    rw [List.length_map, hlen2]
    omega

theorem isolated_element_single_feature_witness :
    ∃ s3 : EBSDSegmentFeatures,
      EBSDSegmentFeatures.isolated9Relabelled.execute (Flt.fin (71 / 4068)) 3 3 1
        (fun _ => 2) = some s3 ∧
      s3.FeatureIds.getD 4 0 ≠ 0 ∧
      ∀ q : Nat, s3.FeatureIds.getD q 0 = s3.FeatureIds.getD 4 0 → q = 4 :=
  ((isolated_element_single_feature (Flt.fin (71 / 4068)) 3 3 1
    EBSDSegmentFeatures.isolated9Relabelled 4 (fun _ => 2)).2.2 (by decide) (by decide)
    (by decide) ⟨Or.inl rfl, by decide⟩ (by decide!)).2
    (by
      intro s2 g2 hrun i h1 h2
      obtain ⟨t2, j2, hrun2, _, hact, _, _⟩ := isolated9_growth true
      have e : (s2, g2) = (t2, j2) := Option.some.inj (hrun.symm.trans hrun2)
      have e1 : s2 = t2 := congrArg Prod.fst e
      rw [e1, hact]
      exact ⟨by norm_num, by norm_num⟩)

end DREAM3D
